import Mathlib

/-!
# Flappy: simulation and reward engine

A shallow embedding of the two `flappy.h` variants:

* `src/variations/flappy/flappy.h`: the sparse-reward, curriculum variant
  (namespace `Sparse`, 5-dim observation);
* `src/src/flappy_rl/flappy/flappy.h`: the dense-reward variant
  (namespace `Dense`, 9-dim observation).

Conventions of the embedding.

* C `float` values are rationals and the operations on them are exact, with one
  exception: the increment `log.n += 1.0f` of the episode counter is rounded to
  float32 (`f32`), because a float32 counter stops at `2^24 = 16777216`.
  Exact and float32 arithmetic agree up to the rounding of the last place; they
  can differ in the outcome of a comparison at a tie (the test
  `r < extreme_prob` of the curriculum sampler) and in the cast `(float)width`
  of a width above `2^24`.
* C `int` values are integers without wrap-around (signed overflow is
  undefined in C).
* The process-wide `rand()` generator is an explicit stream of draws which is
  threaded through every function that calls `rand()`.
* The caller-owned buffers `observations`, `actions`, `rewards`, `terminals`
  are fields of the state; `actions`, `rewards` and `terminals` have one
  element, `observations` has `OBS_DIM` elements.
* The slot array `pipes[MAX_PIPES]` is a function from slot index to `Pipe`.
* Both variants share one record type.  The dense variant's C struct has no
  `curriculum_difficulty` and no `log.difficulty`; the dense functions never
  read or write these two fields.
* The rendering handle `client` is not part of the model.
-/

/-! ## Constants -/

def MAX_PIPES : Nat := 5
def BIRD_X_RATIO : ℚ := 0.2
def PIPE_WIDTH_RATIO : ℚ := 0.15
def BIRD_RADIUS_RATIO : ℚ := 0.025
def GAP_HEIGHT_RATIO : ℚ := 0.28
def PIPE_SPEED_RATIO : ℚ := 0.006
def FLAP_VEL : ℚ := 0.02
def GRAVITY : ℚ := 0.0018
def PIPE_SPACING_RATIO : ℚ := 0.45
def SURVIVAL_BONUS : ℚ := 0.01
def IN_GAP_BONUS : ℚ := 0.02
def ALIGNMENT_BONUS : ℚ := 0.008
def ALIGNMENT_TOLERANCE : ℚ := 0.2
def STREAK_BONUS : ℚ := 0.1
def FLAP_PENALTY : ℚ := 0.001

/-! ## Data model -/

structure Log where
  perf : ℚ
  score : ℚ
  episode_return : ℚ
  episode_length : ℚ
  difficulty : ℚ
  n : ℚ

structure Pipe where
  x : ℚ
  gap_center_y : ℚ
  gap_height : ℚ
  scored : Int

structure Flappy where
  log : Log
  observations : List ℚ
  actions : Int
  rewards : ℚ
  terminals : Nat
  width : Int
  height : Int
  gravity : ℚ
  flap_velocity : ℚ
  pipe_speed : ℚ
  pipe_spacing : ℚ
  gap_height : ℚ
  max_steps : Int
  bird_y : ℚ
  bird_vy : ℚ
  pipes : Nat → Pipe
  num_pipes : Int
  score : Int
  step_count : Int
  curriculum_difficulty : ℚ

/-- The stream of values the successive calls of `rand()` return. -/
abbrev Rng := Nat → Nat

/-- One call of `rand()`: the value drawn and the generator afterwards. -/
def rand (g : Rng) : Nat × Rng := (g 0, fun k => g (k + 1))

/-- The loop `for (i = lo; i < lo + k; i++) s = body i s`. -/
def forLoop {σ : Type} (lo : Nat) (body : Nat → σ → σ) : Nat → σ → σ
  | 0, s => s
  | k + 1, s => body (lo + k) (forLoop lo body k s)

/-- The cast `(int)v` of a float: truncation toward zero. -/
def truncToInt (v : ℚ) : Int := if 0 ≤ v then ⌊v⌋ else ⌈v⌉

/-! ## Functions shared by both variants -/

def init (env : Flappy) : Flappy :=
  { env with
    gravity := GRAVITY
    flap_velocity := FLAP_VEL
    pipe_speed := (env.width : ℚ) * PIPE_SPEED_RATIO
    pipe_spacing := PIPE_SPACING_RATIO
    gap_height := GAP_HEIGHT_RATIO
    max_steps := if env.max_steps ≤ 0 then 5000 else env.max_steps }

def clampf (v lo hi : ℚ) : ℚ :=
  if v < lo then lo else if v > hi then hi else v

/-- Rounding to the nearest integer, a tie going to the even neighbour. -/
def round_even (m : ℚ) : ℤ :=
  if m - (⌊m⌋ : ℚ) < 1 / 2 then ⌊m⌋
  else if 1 / 2 < m - (⌊m⌋ : ℚ) then ⌊m⌋ + 1
  else if ⌊m⌋ % 2 = 0 then ⌊m⌋ else ⌊m⌋ + 1

/-- The float32 value nearest to `q`, as a C `float` operation rounds its exact
result: 24 significant bits, a tie going to the even significand.  The limits
of the exponent range (overflow, subnormal numbers) are left out. -/
def f32 (q : ℚ) : ℚ :=
  if q = 0 then 0
  else
    let ulp : ℚ := (2 : ℚ) ^ (Int.log 2 |q| - 23)
    (if q < 0 then -1 else 1) * (round_even (|q| / ulp) : ℚ) * ulp

/-- The loop of `collides` from slot `i` on, with `k` slots left to visit. -/
def collides_loop (env : Flappy) (bx byy br pw : ℚ) : Nat → Nat → Bool
  | 0, _ => false
  | k + 1, i =>
    let px := (env.pipes i).x
    if px + pw < bx - br ∨ px > bx + br then collides_loop env bx byy br pw k (i + 1)
    else
      let gap_c := (env.pipes i).gap_center_y * (env.height : ℚ)
      let gap_h := (env.pipes i).gap_height * (env.height : ℚ)
      let top_bottom := gap_c - gap_h * 0.5
      let bottom_top := gap_c + gap_h * 0.5
      if byy - br < top_bottom ∨ byy + br > bottom_top then true
      else collides_loop env bx byy br pw k (i + 1)

def collides (env : Flappy) (bx byy br : ℚ) : Bool :=
  let pw := (env.width : ℚ) * PIPE_WIDTH_RATIO
  collides_loop env bx byy br pw env.num_pipes.toNat 0

/-- The scan `next = -1; best_x = 1e9f; for ... if (x + pw > bird_x && x < best_x)`
of `compute_observations` (and of the dense `c_step`): the pair `(next, best_x)`,
with `none` for `next = -1`. -/
def find_next (env : Flappy) (bird_x pw : ℚ) : Option Nat × ℚ :=
  forLoop 0
    (fun i s =>
      if (env.pipes i).x + pw > bird_x ∧ (env.pipes i).x < s.2 then
        (some i, (env.pipes i).x)
      else s)
    env.num_pipes.toNat (none, 1000000000)

/-- The loop `for (i = 0; i < num_pipes; i++) pipes[i].x -= pipe_speed`. -/
def move_pipes (env : Flappy) : Flappy :=
  forLoop 0
    (fun i e =>
      { e with pipes :=
          Function.update e.pipes i ({ e.pipes i with x := (e.pipes i).x - e.pipe_speed }) })
    env.num_pipes.toNat env

/-- The scan `leftmost = 0; for (i = 1; ...) if (pipes[i].x < pipes[leftmost].x) leftmost = i`. -/
def find_leftmost (env : Flappy) : Nat :=
  forLoop 1 (fun i l => if (env.pipes i).x < (env.pipes l).x then i else l)
    (env.num_pipes.toNat - 1) 0

/-- The scan `rightmost = pipes[0].x; for (i = 1; ...) if (pipes[i].x > rightmost) rightmost = pipes[i].x`. -/
def find_rightmost (env : Flappy) : ℚ :=
  forLoop 1 (fun i r => if (env.pipes i).x > r then (env.pipes i).x else r)
    (env.num_pipes.toNat - 1) (env.pipes 0).x

/-- The physics block of `c_step` without the reward side effect: velocity after
the optional flap and gravity, and the clamped height. -/
def physics (env : Flappy) : Flappy :=
  let vy0 := if env.actions = 1 then -env.flap_velocity else env.bird_vy
  let vy := vy0 + env.gravity
  { env with bird_vy := vy, bird_y := clampf (env.bird_y + vy) 0.0 1.0 }

/-- The test `by_px - br <= 0 || by_px + br >= height` of `c_step`. -/
def hits_bounds (env : Flappy) : Prop :=
  let by_px := env.bird_y * (env.height : ℚ)
  let br := (env.height : ℚ) * BIRD_RADIUS_RATIO
  by_px - br ≤ 0.0 ∨ by_px + br ≥ (env.height : ℚ)

instance (env : Flappy) : Decidable (hits_bounds env) := by
  unfold hits_bounds; infer_instance

/-- The call `collides(env, bx_px, by_px, br)` of `c_step`. -/
def hits_pipe (env : Flappy) : Bool :=
  let by_px := env.bird_y * (env.height : ℚ)
  let bx_px := (env.width : ℚ) * BIRD_X_RATIO
  let br := (env.height : ℚ) * BIRD_RADIUS_RATIO
  collides env bx_px by_px br

/-- The block "move pipes and recycle" of `c_step`, the same text in both
variants; `spawn` is the variant's `spawn_pipe`. -/
def recycle (spawn : Flappy → Nat → Rng → Flappy × Rng) (env : Flappy) (pw : ℚ) (g : Rng) :
    Flappy × Rng :=
  let e := move_pipes env
  let leftmost := find_leftmost e
  if (e.pipes leftmost).x + pw < 0 then
    let rightmost := find_rightmost e
    let p : Pipe := { e.pipes leftmost with x := rightmost + (e.width : ℚ) * e.pipe_spacing }
    let e1 : Flappy := { e with pipes := Function.update e.pipes leftmost p }
    spawn e1 leftmost g
  else (e, g)

/-! ## Sparse, curriculum variant (`src/variations/flappy/flappy.h`) -/

namespace Sparse

def OBS_DIM : Nat := 5

/-- The function `add_log`.  The casts `(float)score` and `(float)step_count` are
exact below `2^24` and are taken exactly; the counter `n += 1.0f` is rounded. -/
def add_log (env : Flappy) : Flappy :=
  { env with log :=
    { env.log with
      perf := if env.score > 0 then 1.0 else 0.0
      score := (env.score : ℚ)
      episode_length := (env.step_count : ℚ)
      difficulty := env.curriculum_difficulty
      n := f32 (env.log.n + 1.0) } }

/-- The gap centre `spawn_pipe` samples, and the generator afterwards.  The
float32 expressions are taken exactly; where `r` and `extreme_prob` are equal in
exact arithmetic the float32 test `r < extreme_prob` can go the other way. -/
def sample_gap_center (d : ℚ) (g : Rng) : ℚ × Rng :=
  let half_range : ℚ := if d < 0.25 then d else 0.25
  let gap_min : ℚ := 0.5 - half_range
  let gap_max : ℚ := 0.5 + half_range
  let extreme_prob : ℚ :=
    if d > 0.25 ∧ d < 0.85 then
      let peak_d : ℚ := 0.55
      let t : ℚ :=
        if d ≤ peak_d then (d - 0.25) / (peak_d - 0.25)
        else 1.0 - (d - peak_d) / (0.85 - peak_d)
      t * 0.45
    else 0.0
  let r : ℚ := (((rand g).1 % 1000 : Nat) : ℚ) / 1000.0
  let g1 := (rand g).2
  if r < extreme_prob then
    let coin := (rand g1).1
    let g2 := (rand g1).2
    let k : ℚ := (((rand g2).1 % 11 : Nat) : ℚ) / 100.0
    let g3 := (rand g2).2
    if coin % 2 = 0 then (0.25 + k, g3) else (0.65 + k, g3)
  else
    let steps : Int := truncToInt ((gap_max - gap_min) * 100.0 + 0.5)
    if steps ≤ 0 then (0.5, g1)
    else
      (gap_min + (((rand g1).1 % (steps + 1).toNat : Nat) : ℚ) / 100.0, (rand g1).2)

def spawn_pipe (env : Flappy) (idx : Nat) (g : Rng) : Flappy × Rng :=
  let s := sample_gap_center env.curriculum_difficulty g
  let p : Pipe := { env.pipes idx with gap_center_y := s.1, gap_height := env.gap_height, scored := 0 }
  ({ env with pipes := Function.update env.pipes idx p }, s.2)

def compute_observations (env : Flappy) : Flappy :=
  let o0 := clampf env.bird_y 0.0 1.0
  let o1 := clampf (env.bird_vy / 0.1) (-1.0) 1.0
  let bird_x := (env.width : ℚ) * BIRD_X_RATIO
  let pw := (env.width : ℚ) * PIPE_WIDTH_RATIO
  match (find_next env bird_x pw).1 with
  | some next =>
    let dx := (env.pipes next).x - bird_x
    { env with observations :=
        [o0, o1, clampf (dx / (env.width : ℚ)) 0.0 1.0,
         (env.pipes next).gap_center_y, (env.pipes next).gap_height] }
  | none =>
    { env with observations := [o0, o1, 1.0, 0.5, env.gap_height] }

/-- The loop of `c_reset` that places the pipes and samples their gaps.  The cast
`(float)env->width` is taken exactly, as it is for every width up to `2^24`. -/
def reset_pipes (env : Flappy) (g : Rng) : Flappy × Rng :=
  let start_x : ℚ := (env.width : ℚ) * 0.5
  forLoop 0
    (fun i (s : Flappy × Rng) =>
      let p : Pipe :=
        { s.1.pipes i with x := start_x + (i : ℚ) * (s.1.width : ℚ) * s.1.pipe_spacing }
      let e : Flappy := { s.1 with pipes := Function.update s.1.pipes i p }
      spawn_pipe e i s.2)
    env.num_pipes.toNat (env, g)

def c_reset (env : Flappy) (difficulty : ℚ) (g : Rng) : Flappy × Rng :=
  let env1 : Flappy :=
    { env with
      curriculum_difficulty := difficulty
      log := { env.log with episode_return := 0.0 }
      bird_y := 0.5
      bird_vy := 0.0
      score := 0
      step_count := 0
      num_pipes := 3 }
  let s := reset_pipes env1 g
  (compute_observations s.1, s.2)

/-- The scoring loop of `c_step`: `+1` per pipe passed. -/
def score_pipes (env : Flappy) (pw bx_px : ℚ) : Flappy :=
  forLoop 0
    (fun i e =>
      if (e.pipes i).scored = 0 ∧ (e.pipes i).x + pw < bx_px then
        { e with
          pipes := Function.update e.pipes i ({ e.pipes i with scored := 1 })
          rewards := e.rewards + 1.0
          score := e.score + 1 }
      else e)
    env.num_pipes.toNat env

/-- The finalize-and-reset sequence shared by the three terminal paths of `c_step`. -/
def finish (env : Flappy) (g : Rng) : Flappy × Rng :=
  let e1 : Flappy := { env with terminals := 1 }
  let e2 : Flappy := { e1 with log := { e1.log with episode_return := e1.log.episode_return + e1.rewards } }
  let e3 := add_log e2
  c_reset e3 e3.curriculum_difficulty g

def c_step (env : Flappy) (g : Rng) : Flappy × Rng :=
  let e0 : Flappy := { env with rewards := 0.0, terminals := 0, step_count := env.step_count + 1 }
  let e1 := physics e0
  if hits_bounds e1 then
    finish { e1 with rewards := -1.0 } g
  else if hits_pipe e1 then
    finish { e1 with rewards := -1.0 } g
  else
    let pw := (e1.width : ℚ) * PIPE_WIDTH_RATIO
    let bx_px := (e1.width : ℚ) * BIRD_X_RATIO
    let e2 := score_pipes e1 pw bx_px
    let s := recycle spawn_pipe e2 pw g
    if s.1.step_count ≥ s.1.max_steps then
      finish s.1 s.2
    else
      (compute_observations
        { s.1 with log := { s.1.log with episode_return := s.1.log.episode_return + s.1.rewards } },
       s.2)

end Sparse

/-! ## Dense variant (`src/src/flappy_rl/flappy/flappy.h`)

The preprocessor switches have their values in the source,
`FIXED_GAP_DEBUG = 0` and `BIAS_HARD_GAPS = 0`. -/

namespace Dense

def OBS_DIM : Nat := 9

/-- The function `add_log`.  The casts `(float)score` and `(float)step_count` are
exact below `2^24` and are taken exactly; the counter `n += 1.0f` is rounded. -/
def add_log (env : Flappy) : Flappy :=
  { env with log :=
    { env.log with
      perf := if env.score > 0 then 1.0 else 0.0
      score := (env.score : ℚ)
      episode_length := (env.step_count : ℚ)
      n := f32 (env.log.n + 1.0) } }

def spawn_pipe (env : Flappy) (idx : Nat) (g : Rng) : Flappy × Rng :=
  let c : ℚ := 0.25 + (((rand g).1 % 50 : Nat) : ℚ) / 100.0
  let p : Pipe := { env.pipes idx with gap_center_y := c, gap_height := env.gap_height, scored := 0 }
  ({ env with pipes := Function.update env.pipes idx p }, (rand g).2)

def compute_observations (env : Flappy) : Flappy :=
  let o0 := clampf env.bird_y 0.0 1.0
  let o1 := clampf (env.bird_vy / 0.1) (-1.0) 1.0
  let bird_x := (env.width : ℚ) * BIRD_X_RATIO
  let pw := (env.width : ℚ) * PIPE_WIDTH_RATIO
  match (find_next env bird_x pw).1 with
  | some next =>
    let dx := (env.pipes next).x - bird_x
    let dist_norm := clampf (dx / (env.width : ℚ)) 0.0 1.0
    let gap_center := (env.pipes next).gap_center_y
    let gap_h := (env.pipes next).gap_height
    let o6 := clampf (gap_center - env.bird_y) (-1.0) 1.0
    let half := gap_h * 0.5
    let top_edge := gap_center - half
    let bottom_edge := gap_center + half
    let o7 : ℚ := if half > 0.000001 then clampf ((top_edge - env.bird_y) / half) (-1.0) 1.0 else 0.0
    let o8 : ℚ :=
      if half > 0.000001 then clampf ((env.bird_y - bottom_edge) / half) (-1.0) 1.0 else 0.0
    { env with observations := [o0, o1, dist_norm, gap_center, gap_h, 1.0, o6, o7, o8] }
  | none =>
    { env with observations := [o0, o1, 1.0, 0.5, env.gap_height, 0.0, 0.0, 0.0, 0.0] }

/-- The loop of `c_reset` that places the pipes and samples their gaps.  The cast
`(float)env->width` is taken exactly, as it is for every width up to `2^24`. -/
def reset_pipes (env : Flappy) (g : Rng) : Flappy × Rng :=
  let start_x : ℚ := (env.width : ℚ) * 0.5
  forLoop 0
    (fun i (s : Flappy × Rng) =>
      let c : ℚ := 0.25 + (((rand s.2).1 % 50 : Nat) : ℚ) / 100.0
      let p : Pipe :=
        { x := start_x + (i : ℚ) * (s.1.width : ℚ) * s.1.pipe_spacing
          gap_center_y := c
          gap_height := s.1.gap_height
          scored := 0 }
      ({ s.1 with pipes := Function.update s.1.pipes i p }, (rand s.2).2))
    env.num_pipes.toNat (env, g)

def c_reset (env : Flappy) (g : Rng) : Flappy × Rng :=
  let env1 : Flappy :=
    { env with
      log := { env.log with episode_return := 0.0 }
      bird_y := 0.5
      bird_vy := 0.0
      score := 0
      step_count := 0
      num_pipes := 3 }
  let s := reset_pipes env1 g
  (compute_observations s.1, s.2)

/-- The scoring loop of `c_step`: `1.0 + STREAK_BONUS * score` per pipe passed. -/
def score_pipes (env : Flappy) (pw bx_px : ℚ) : Flappy :=
  forLoop 0
    (fun i e =>
      if (e.pipes i).scored = 0 ∧ (e.pipes i).x + pw < bx_px then
        { e with
          pipes := Function.update e.pipes i ({ e.pipes i with scored := 1 })
          rewards := e.rewards + (1.0 + STREAK_BONUS * (e.score : ℚ))
          score := e.score + 1 }
      else e)
    env.num_pipes.toNat env

/-- The survival bonus and the in-gap and alignment block of `c_step`. -/
def shaping (env : Flappy) (pw : ℚ) : Flappy :=
  let e : Flappy := { env with rewards := env.rewards + SURVIVAL_BONUS }
  let bird_x := (e.width : ℚ) * BIRD_X_RATIO
  match (find_next e bird_x pw).1 with
  | some next =>
    let gap_center := (e.pipes next).gap_center_y
    let gap_h := (e.pipes next).gap_height
    let half := gap_h * 0.5
    let dx := (e.pipes next).x - bird_x
    let dist_norm := clampf (dx / (e.width : ℚ)) 0.0 1.0
    let scale := 1.0 - dist_norm
    let e1 : Flappy :=
      if e.bird_y ≥ gap_center - half ∧ e.bird_y ≤ gap_center + half then
        { e with rewards := e.rewards + scale * IN_GAP_BONUS }
      else e
    let align_err := |e.bird_y - gap_center|
    let align_scale := 1.0 - clampf (align_err / ALIGNMENT_TOLERANCE) 0.0 1.0
    { e1 with rewards := e1.rewards + ALIGNMENT_BONUS * align_scale }
  | none => e

/-- The finalize-and-reset sequence shared by the three terminal paths of `c_step`. -/
def finish (env : Flappy) (g : Rng) : Flappy × Rng :=
  let e1 : Flappy := { env with terminals := 1 }
  let e2 : Flappy := { e1 with log := { e1.log with episode_return := e1.log.episode_return + e1.rewards } }
  c_reset (add_log e2) g

def c_step (env : Flappy) (g : Rng) : Flappy × Rng :=
  let e0 : Flappy := { env with rewards := 0.0, terminals := 0, step_count := env.step_count + 1 }
  let ep := physics e0
  let e1 : Flappy := if e0.actions = 1 then { ep with rewards := ep.rewards - FLAP_PENALTY } else ep
  if hits_bounds e1 then
    finish { e1 with rewards := -1.0 } g
  else if hits_pipe e1 then
    finish { e1 with rewards := -1.0 } g
  else
    let pw := (e1.width : ℚ) * PIPE_WIDTH_RATIO
    let bx_px := (e1.width : ℚ) * BIRD_X_RATIO
    let e2 := score_pipes e1 pw bx_px
    let s := recycle spawn_pipe e2 pw g
    let e3 := shaping s.1 pw
    if e3.step_count ≥ e3.max_steps then
      finish e3 s.2
    else
      (compute_observations
        { e3 with log := { e3.log with episode_return := e3.log.episode_return + e3.rewards } },
       s.2)

end Dense

/-! ## Running an environment -/

/-- A caller's step: write the action buffer, then call `c_step`. -/
def Sparse.step_with (s : Flappy × Rng) (a : Int) : Flappy × Rng :=
  Sparse.c_step { s.1 with actions := a } s.2

/-- A caller's step: write the action buffer, then call `c_step`. -/
def Dense.step_with (s : Flappy × Rng) (a : Int) : Flappy × Rng :=
  Dense.c_step { s.1 with actions := a } s.2

/-- The state after the calls of `c_step` with the actions `acts`, in order. -/
def Sparse.run (s : Flappy × Rng) (acts : List Int) : Flappy × Rng :=
  acts.foldl Sparse.step_with s

/-- The state after the calls of `c_step` with the actions `acts`, in order. -/
def Dense.run (s : Flappy × Rng) (acts : List Int) : Flappy × Rng :=
  acts.foldl Dense.step_with s

/-! ## Notions used to state the properties -/

/-- Slot `i` holds a pipe not yet scored whose right edge `x + pipe_width` is
behind the bird's horizontal position `bird_x`. -/
def passed (env : Flappy) (i : Nat) : Prop :=
  (env.pipes i).scored = 0 ∧
    (env.pipes i).x + (env.width : ℚ) * PIPE_WIDTH_RATIO < (env.width : ℚ) * BIRD_X_RATIO

instance (env : Flappy) (i : Nat) : Decidable (passed env i) := by
  unfold passed; infer_instance

/-- The number of slots among the first `k` that `passed` holds of. -/
def passed_upto (env : Flappy) (k : Nat) : Nat :=
  ((Finset.range k).filter (fun i => passed env i)).card

/-- The number of active pipes that are passed in the step taken from `env`. -/
def passed_count (env : Flappy) : Nat := passed_upto env env.num_pipes.toNat

/-- The step taken from `env` ends by collision: after the physics update the
bird touches the ceiling or the floor, or `collides` reports a pipe. -/
def dies (env : Flappy) : Prop :=
  hits_bounds (physics env) ∨ hits_pipe (physics env) = true

instance (env : Flappy) : Decidable (dies env) := by
  unfold dies; infer_instance

/-- Every field but the pipes. -/
def Flappy.noPipes (e : Flappy) : Flappy := { e with pipes := fun _ => ⟨0, 0, 0, 0⟩ }

/-- Every field but the pipes, the reward buffer and the score. -/
def Flappy.frame (e : Flappy) : Flappy :=
  { e with pipes := fun _ => ⟨0, 0, 0, 0⟩, rewards := 0, score := 0 }

/-- Every field but the observation buffer. -/
def Flappy.noObs (e : Flappy) : Flappy := { e with observations := [] }

/-- The fields fixed at construction, and the curriculum difficulty. -/
def Flappy.config (e : Flappy) : Int × Int × Int × ℚ × ℚ × ℚ × ℚ × ℚ × ℚ :=
  (e.width, e.height, e.max_steps, e.gravity, e.flap_velocity, e.pipe_speed, e.pipe_spacing,
    e.gap_height, e.curriculum_difficulty)

/-- The scalar assignments at the head of the sparse `c_reset`. -/
def Sparse.reset_head (env : Flappy) (d : ℚ) : Flappy :=
  { env with
    curriculum_difficulty := d
    log := { env.log with episode_return := 0.0 }
    bird_y := 0.5
    bird_vy := 0.0
    score := 0
    step_count := 0
    num_pipes := 3 }

/-- The scalar assignments at the head of the dense `c_reset`. -/
def Dense.reset_head (env : Flappy) : Flappy :=
  { env with
    log := { env.log with episode_return := 0.0 }
    bird_y := 0.5
    bird_vy := 0.0
    score := 0
    step_count := 0
    num_pipes := 3 }

/-- The state of `c_step` after its first three assignments and the physics block. -/
def pre (env : Flappy) : Flappy :=
  physics { env with rewards := 0.0, terminals := 0, step_count := env.step_count + 1 }

/-- The state of the sparse `c_step` after scoring, moving and recycling. -/
def Sparse.mid (env : Flappy) (g : Rng) : Flappy × Rng :=
  recycle Sparse.spawn_pipe
    (Sparse.score_pipes (pre env) ((env.width : ℚ) * PIPE_WIDTH_RATIO)
      ((env.width : ℚ) * BIRD_X_RATIO))
    ((env.width : ℚ) * PIPE_WIDTH_RATIO) g

/-- The dense pass reward of `m` pipes passed in one step that starts with
score `score`: each is worth `1.0 + 0.1 * (score before its increment)`. -/
def streak_sum (score : Int) (m : Nat) : ℚ :=
  ∑ j in Finset.range m, (1.0 + 0.1 * ((score : ℚ) + (j : ℚ)))

/-- The state of the dense `c_step` after its first three assignments, the
physics block and the flap penalty. -/
def Dense.pflap (env : Flappy) : Flappy :=
  if env.actions = 1 then { pre env with rewards := (pre env).rewards - FLAP_PENALTY } else pre env

/-- The state of the dense `c_step` after scoring, moving and recycling. -/
def Dense.mid (env : Flappy) (g : Rng) : Flappy × Rng :=
  recycle Dense.spawn_pipe
    (Dense.score_pipes (Dense.pflap env) (((Dense.pflap env).width : ℚ) * PIPE_WIDTH_RATIO)
      (((Dense.pflap env).width : ℚ) * BIRD_X_RATIO))
    (((Dense.pflap env).width : ℚ) * PIPE_WIDTH_RATIO) g

/-- The state of the dense `c_step` after the shaping block. -/
def Dense.shaped (env : Flappy) (g : Rng) : Flappy :=
  Dense.shaping (Dense.mid env g).1 (((Dense.pflap env).width : ℚ) * PIPE_WIDTH_RATIO)

/-- An environment as the binding constructs it: zeroed memory, the given
`width`, `height` and `max_steps`, then `init`. -/
def fresh_env (w h ms : Int) : Flappy :=
  init
    { log := ⟨0, 0, 0, 0, 0, 0⟩
      observations := []
      actions := 0
      rewards := 0
      terminals := 0
      width := w
      height := h
      gravity := 0
      flap_velocity := 0
      pipe_speed := 0
      pipe_spacing := 0
      gap_height := 0
      max_steps := ms
      bird_y := 0
      bird_vy := 0
      pipes := fun _ => ⟨0, 0, 0, 0⟩
      num_pipes := 0
      score := 0
      step_count := 0
      curriculum_difficulty := 0 }

/-- A generator whose every draw is `25`. -/
def const_rng : Rng := fun _ => 25

/-- A 512 by 512 environment whose bird is next to the ceiling, with the flap
action in the action buffer. -/
def rising_env : Flappy :=
  { fresh_env 512 512 5000 with
    bird_y := 0.03, bird_vy := 0, num_pipes := 3, step_count := 7, actions := 1 }

/-- The state `rising_env` with the episode counter `log.n` at `16777216 = 2^24`,
the value it holds after that many finished episodes. -/
def counted_env : Flappy :=
  { rising_env with log := { rising_env.log with n := 16777216 } }

/-- The right edge of the pipe in slot `i` is ahead of the bird:
`x + pipe_width > bird_x`. -/
def ahead (env : Flappy) (i : Nat) : Prop :=
  (env.pipes i).x + (env.width : ℚ) * PIPE_WIDTH_RATIO > (env.width : ℚ) * BIRD_X_RATIO

instance (env : Flappy) (i : Nat) : Decidable (ahead env i) := by
  unfold ahead; infer_instance

/-- Slot `t` holds a target pipe: an active pipe ahead of the bird whose `x` is
minimal among the active pipes ahead of the bird. -/
def is_target (env : Flappy) (t : Nat) : Prop :=
  t < env.num_pipes.toNat ∧ ahead env t ∧
    ∀ j, j < env.num_pipes.toNat → ahead env j → (env.pipes t).x ≤ (env.pipes j).x

/-- Slot `t` holds the target pipe the scan selects: a target pipe left of the
scan's initial bound `1e9`, in the first slot among those of minimal `x`. -/
def scan_target (env : Flappy) (t : Nat) : Prop :=
  is_target env t ∧ (env.pipes t).x < 1000000000 ∧
    ∀ j, j < t → ahead env j → (env.pipes t).x < (env.pipes j).x

/-- No active pipe ahead of the bird lies left of the scan's initial bound `1e9`. -/
def no_scan_target (env : Flappy) : Prop :=
  ∀ j, j < env.num_pipes.toNat → ahead env j → 1000000000 ≤ (env.pipes j).x

/-- The dense in-gap bonus for the target in slot `t`: `0.02 * (1 - clamp((x_target
- bird_x)/width, 0, 1))` if `bird_y` lies within `[gap_center - gap_height/2,
gap_center + gap_height/2]`, and nothing otherwise. -/
def gap_bonus (env : Flappy) (t : Nat) : ℚ :=
  if (env.pipes t).gap_center_y - (env.pipes t).gap_height / 2 ≤ env.bird_y ∧
      env.bird_y ≤ (env.pipes t).gap_center_y + (env.pipes t).gap_height / 2 then
    0.02 * (1 - clampf (((env.pipes t).x - (env.width : ℚ) * BIRD_X_RATIO) / (env.width : ℚ)) 0 1)
  else 0

/-- The dense alignment bonus for the target in slot `t`:
`0.008 * (1 - clamp(|bird_y - gap_center| / 0.2, 0, 1))`. -/
def align_bonus (env : Flappy) (t : Nat) : ℚ :=
  0.008 * (1 - clampf (|env.bird_y - (env.pipes t).gap_center_y| / 0.2) 0 1)

/-- The dense reward terms that do not depend on a target: `-0.001` if the
action is a flap, the pass rewards, and the survival bonus `0.01`. -/
def dense_base (env : Flappy) : ℚ :=
  (if env.actions = 1 then -0.001 else 0) + streak_sum env.score (passed_count env) + 0.01

/-- A 512 by 512 dense environment in mid-flight, three pipes ahead, with the
flap action in the action buffer. -/
def cruising_env : Flappy :=
  { fresh_env 512 512 5000 with
    bird_y := 0.5
    num_pipes := 3
    actions := 1
    pipes := fun i => ⟨256 + 230.4 * (i : ℚ), 0.5, 0.28, 0⟩ }

/-- The state the dense `c_reset` leaves in an environment of width
`2100000000` when every draw is `25`. -/
def wide_env : Flappy :=
  { fresh_env 2100000000 512 5000 with
    bird_y := 0.5
    num_pipes := 3
    observations := [0.5, 0, 1, 0.5, 0.28, 0, 0, 0, 0]
    pipes := fun i =>
      if i < 3 then ⟨1050000000 + 945000000 * (i : ℚ), 0.5, 0.28, 0⟩ else ⟨0, 0, 0, 0⟩ }

/-- The gap centre the sparse `spawn_pipe` assigns. -/
def Sparse.fresh_gap (d : ℚ) (g : Rng) : ℚ := (Sparse.sample_gap_center d g).1

/-- The gap centre the dense `spawn_pipe` assigns. -/
def Dense.fresh_gap (_d : ℚ) (g : Rng) : ℚ := 0.25 + (((rand g).1 % 50 : Nat) : ℚ) / 100.0

/-- The pipe in slot `j` after the scoring loop and the move of a step taken
from `env`: an active pipe is marked if it is passed and moves left by
`pipe_speed`; an inactive slot is left alone. -/
def stepped_pipe (env : Flappy) (j : Nat) : Pipe :=
  if j < env.num_pipes.toNat then
    { env.pipes j with
      x := (env.pipes j).x - env.pipe_speed
      scored := if passed env j then 1 else (env.pipes j).scored }
  else env.pipes j

/-- Slot `l` is the first active slot whose pipe has minimal `x` after the move. -/
def leftmost_slot (env : Flappy) (l : Nat) : Prop :=
  l < env.num_pipes.toNat ∧
  (∀ j, j < env.num_pipes.toNat → (stepped_pipe env l).x ≤ (stepped_pipe env j).x) ∧
  (∀ j, j < l → (stepped_pipe env l).x < (stepped_pipe env j).x)

/-- The value `m` is the maximal `x` over the active pipes after the move. -/
def rightmost_x (env : Flappy) (m : ℚ) : Prop :=
  (∃ j, j < env.num_pipes.toNat ∧ (stepped_pipe env j).x = m) ∧
  (∀ j, j < env.num_pipes.toNat → (stepped_pipe env j).x ≤ m)

/-- Every field but the pipes, the reward buffer, the score, the observation
buffer and the log. -/
def Flappy.core (e : Flappy) : Flappy :=
  { e with
    pipes := fun _ => ⟨0, 0, 0, 0⟩
    rewards := 0
    score := 0
    observations := []
    log := ⟨0, 0, 0, 0, 0, 0⟩ }

/-- The state after `n` calls of the sparse `c_step` with the no-op action. -/
def Sparse.noop_run (s : Flappy × Rng) (n : Nat) : Flappy × Rng :=
  Sparse.run s (List.replicate n 0)

/-- The state of a 512 by 512 environment with horizon `M`, `n` no-op steps
after a reset, when none of them was terminal: the bird has fallen under
gravity alone and the three pipes have moved left `n` times, unscored. -/
def fall_inv (M : Int) (n : Nat) (e : Flappy) : Prop :=
  e.width = 512 ∧ e.height = 512 ∧ e.max_steps = M ∧ e.gravity = 0.0018 ∧ e.pipe_speed = 3.072 ∧
  e.num_pipes = 3 ∧ e.step_count = (n : Int) ∧ e.bird_vy = 0.0018 * (n : ℚ) ∧
  e.bird_y = 0.5 + 0.0018 * ((n : ℚ) * ((n : ℚ) + 1) / 2) ∧
  ∀ i, i < 3 →
    (e.pipes i).x = 256 + 230.4 * (i : ℚ) - 3.072 * (n : ℚ) ∧ (e.pipes i).scored = 0

/-- A 512 by 512 environment in mid-flight whose next step reaches the horizon. -/
def last_step_env : Flappy := { cruising_env with max_steps := 1 }

/-- Slot `i` is the slot respawned in the step taken from `env`: it is the first
active slot of minimal `x` after the move, and its right edge is left of the
screen. -/
def recycled (env : Flappy) (i : Nat) : Prop :=
  leftmost_slot env i ∧ (stepped_pipe env i).x + (env.width : ℚ) * PIPE_WIDTH_RATIO < 0

/-- What slot `i` adds to the score in a non-terminal step taken from `env`. -/
def slot_gain (env : Flappy) (i : Nat) : Nat :=
  if i < env.num_pipes.toNat ∧ passed env i then 1 else 0

/-- The runs of steps in which every step is non-terminal and does not respawn
slot `i`; `step` is the variant's step with a given action. -/
def quiet_run (step : Flappy × Rng → Int → Flappy × Rng) (i : Nat) :
    Flappy × Rng → List Int → Prop
  | _, [] => True
  | s, a :: acts =>
    (step s a).1.terminals = 0 ∧ ¬ recycled { s.1 with actions := a } i ∧
      quiet_run step i (step s a) acts

/-- The runs of steps in which every step is non-terminal. -/
def live_run (step : Flappy × Rng → Int → Flappy × Rng) : Flappy × Rng → List Int → Prop
  | _, [] => True
  | s, a :: acts => (step s a).1.terminals = 0 ∧ live_run step (step s a) acts

/-- What slot `i` adds to the score over a run of non-terminal steps. -/
def run_gain (step : Flappy × Rng → Int → Flappy × Rng) (i : Nat) :
    Flappy × Rng → List Int → Nat
  | _, [] => 0
  | s, a :: acts => slot_gain { s.1 with actions := a } i + run_gain step i (step s a) acts

/-- A 512 by 512 environment in mid-flight whose first pipe has its right edge
just behind the bird and is not yet scored. -/
def passing_env : Flappy :=
  { fresh_env 512 512 5000 with
    bird_y := 0.5
    num_pipes := 3
    actions := 1
    pipes := fun i => ⟨20 + 230.4 * (i : ℚ), 0.5, 0.28, 0⟩ }

/-- A 512 by 512 environment in mid-flight whose first pipe, already scored, is
about to leave the screen on the left. -/
def recycling_env : Flappy :=
  { fresh_env 512 512 5000 with
    bird_y := 0.5
    num_pipes := 3
    actions := 1
    pipes := fun i => if i = 0 then ⟨-75, 0.5, 0.28, 1⟩ else ⟨150 + 230.4 * (i : ℚ), 0.5, 0.28, 0⟩ }

/-- The half-width `half_range` of the sampling interval in the sparse `spawn_pipe`. -/
def Sparse.half_range (d : ℚ) : ℚ := if d < 0.25 then d else 0.25

/-- The probability `extreme_prob` of the sparse `spawn_pipe`. -/
def Sparse.extreme_prob (d : ℚ) : ℚ :=
  if d > 0.25 ∧ d < 0.85 then
    let peak_d : ℚ := 0.55
    let t : ℚ :=
      if d ≤ peak_d then (d - 0.25) / (peak_d - 0.25)
      else 1.0 - (d - peak_d) / (0.85 - peak_d)
    t * 0.45
  else 0.0

/-- The draw `r = (float)(rand() % 1000) / 1000.0f` of the sparse `spawn_pipe`. -/
def Sparse.draw_r (g : Rng) : ℚ := (((rand g).1 % 1000 : Nat) : ℚ) / 1000.0

/-- The sparse `spawn_pipe` takes the extreme-band branch: `r < extreme_prob`. -/
def Sparse.takes_extreme (d : ℚ) (g : Rng) : Prop := Sparse.draw_r g < Sparse.extreme_prob d

instance (d : ℚ) (g : Rng) : Decidable (Sparse.takes_extreme d g) := by
  unfold Sparse.takes_extreme; infer_instance

/-- The number `steps` of grid steps of the uniform branch of the sparse `spawn_pipe`. -/
def Sparse.grid_steps (d : ℚ) : Int :=
  truncToInt ((0.5 + Sparse.half_range d - (0.5 - Sparse.half_range d)) * 100.0 + 0.5)

/-- A generator whose every draw is `50`. -/
def fifty_rng : Rng := fun _ => 50

/-- The state with the action buffer overwritten by `a`. -/
def Flappy.setAction (e : Flappy) (a : Int) : Flappy := { e with actions := a }

/-- The part of the sparse `c_step` that follows the physics block, as a function
of the state `p` the physics block leaves. -/
def Sparse.after_physics (p : Flappy) (g : Rng) : Flappy × Rng :=
  if hits_bounds p then Sparse.finish { p with rewards := -1.0 } g
  else if hits_pipe p then Sparse.finish { p with rewards := -1.0 } g
  else
    let pw := (p.width : ℚ) * PIPE_WIDTH_RATIO
    let bx_px := (p.width : ℚ) * BIRD_X_RATIO
    let e2 := Sparse.score_pipes p pw bx_px
    let s := recycle Sparse.spawn_pipe e2 pw g
    if s.1.step_count ≥ s.1.max_steps then Sparse.finish s.1 s.2
    else
      (Sparse.compute_observations
        { s.1 with log := { s.1.log with episode_return := s.1.log.episode_return + s.1.rewards } },
       s.2)

/-- The part of the dense `c_step` that follows the physics block and the flap
penalty, as a function of the state `p` they leave. -/
def Dense.after_physics (p : Flappy) (g : Rng) : Flappy × Rng :=
  if hits_bounds p then Dense.finish { p with rewards := -1.0 } g
  else if hits_pipe p then Dense.finish { p with rewards := -1.0 } g
  else
    let pw := (p.width : ℚ) * PIPE_WIDTH_RATIO
    let bx_px := (p.width : ℚ) * BIRD_X_RATIO
    let e2 := Dense.score_pipes p pw bx_px
    let s := recycle Dense.spawn_pipe e2 pw g
    let e3 := Dense.shaping s.1 pw
    if e3.step_count ≥ e3.max_steps then Dense.finish e3 s.2
    else
      (Dense.compute_observations
        { e3 with log := { e3.log with episode_return := e3.log.episode_return + e3.rewards } },
       s.2)

/-- The top edge of the gap of the pipe in slot `i`, in pixels:
`gap_center_y*height - gap_height*height/2`. -/
def top_edge (env : Flappy) (i : Nat) : ℚ :=
  (env.pipes i).gap_center_y * (env.height : ℚ) - (env.pipes i).gap_height * (env.height : ℚ) / 2

/-- The bottom edge of the gap of the pipe in slot `i`, in pixels:
`gap_center_y*height + gap_height*height/2`. -/
def bottom_edge (env : Flappy) (i : Nat) : ℚ :=
  (env.pipes i).gap_center_y * (env.height : ℚ) + (env.pipes i).gap_height * (env.height : ℚ) / 2

/-- The horizontal span `[x, x + pipe_width]` of the pipe in slot `i` meets the
span `[bx - br, bx + br]`. -/
def spans_meet (env : Flappy) (i : Nat) (bx br : ℚ) : Prop :=
  (env.pipes i).x ≤ bx + br ∧ bx - br ≤ (env.pipes i).x + (env.width : ℚ) * PIPE_WIDTH_RATIO

/-- The vertical extent `[byy - br, byy + br]` lies in the open interval
`(top_edge, bottom_edge)` of the pipe in slot `i`. -/
def inside_open_gap (env : Flappy) (i : Nat) (byy br : ℚ) : Prop :=
  top_edge env i < byy - br ∧ byy + br < bottom_edge env i

/-- The vertical extent `[byy - br, byy + br]` lies in the closed interval
`[top_edge, bottom_edge]` of the pipe in slot `i`. -/
def inside_closed_gap (env : Flappy) (i : Nat) (byy br : ℚ) : Prop :=
  top_edge env i ≤ byy - br ∧ byy + br ≤ bottom_edge env i

/-- The state with the pipe slots rearranged: slot `i` holds what slot `σ i`
held. -/
def Flappy.permute (s : Flappy) (σ : Nat → Nat) : Flappy :=
  { s with pipes := fun i => s.pipes (σ i) }

/-- The active pipes have pairwise distinct `x`. -/
def distinct_x (s : Flappy) : Prop :=
  ∀ i j, i < s.num_pipes.toNat → j < s.num_pipes.toNat → (s.pipes i).x = (s.pipes j).x → i = j

/-- The score of the episode that a terminal step taken from `env` finishes: a
step that ends by collision scores nothing, a step that ends by truncation has
scored the pipes passed in it. -/
def final_score (env : Flappy) : Int :=
  if dies env then env.score else env.score + (passed_count env : Int)

/-- The number of terminal steps in the run of the sparse `c_step` with the
actions `acts` from `s`. -/
def Sparse.terminal_count (s : Flappy × Rng) : List Int → Nat
  | [] => 0
  | a :: acts =>
    (if (Sparse.step_with s a).1.terminals = 1 then 1 else 0) +
      Sparse.terminal_count (Sparse.step_with s a) acts

/-- The number of terminal steps in the run of the dense `c_step` with the
actions `acts` from `s`. -/
def Dense.terminal_count (s : Flappy × Rng) : List Int → Nat
  | [] => 0
  | a :: acts =>
    (if (Dense.step_with s a).1.terminals = 1 then 1 else 0) +
      Dense.terminal_count (Dense.step_with s a) acts

/-- A 512 by 512 state whose bird, at `bird_y = 0.6`, is below the centre `0.5`
of the gap of the target pipe and inside the gap `[0.36, 0.64]`. -/
def low_bird_env : Flappy := { cruising_env with bird_y := 0.6 }

/-- The place (`0`, `1` or `2`, from the left) of slot `i` in a train of three
pipes whose leftmost pipe is in slot `l`: the slots follow each other cyclically. -/
def slot_rank (l i : Nat) : Nat := (i + 3 - l) % 3

/-- The three pipes `p 0`, `p 1`, `p 2` form a train: their `x` values are the
arithmetic progression `a`, `a + D`, `a + 2*D`, the leftmost pipe in slot `l`. -/
def train (D : ℚ) (p : Nat → Pipe) (l : Nat) (a : ℚ) : Prop :=
  l < 3 ∧ ∀ i, i < 3 → (p i).x = a + (slot_rank l i : ℚ) * D

/-- Every unscored pipe among the three has `x >= bird_x - pipe_width - pipe_speed`. -/
def unscored_near (e : Flappy) : Prop :=
  ∀ i, i < 3 → (e.pipes i).scored = 0 →
    (e.width : ℚ) * BIRD_X_RATIO - (e.width : ℚ) * PIPE_WIDTH_RATIO - e.pipe_speed ≤ (e.pipes i).x

/-- The invariant of the states reachable from a reset of an initialised
environment of positive width: three active pipes in a train of step
`width*pipe_spacing` whose leftmost pipe has its right edge on the screen and
`x <= width/2`, and every unscored pipe near or ahead of the bird. -/
def train_inv (e : Flappy) : Prop :=
  0 < e.width ∧ e.num_pipes = 3 ∧ e.pipe_spacing = PIPE_SPACING_RATIO ∧
  e.pipe_speed = (e.width : ℚ) * PIPE_SPEED_RATIO ∧
  (∃ l a, train ((e.width : ℚ) * e.pipe_spacing) e.pipes l a ∧
    0 ≤ a + (e.width : ℚ) * PIPE_WIDTH_RATIO ∧ a ≤ (e.width : ℚ) * 0.5) ∧
  unscored_near e

/-! ## The float32 counter -/

theorem round_even_intCast (z : ℤ) : round_even (z : ℚ) = z := by
  unfold round_even
  rw [Int.floor_intCast, sub_self, if_pos (by norm_num)]

/-- The whole numbers up to `2^24` are float32 values. -/
theorem f32_natCast (k : ℕ) (hk : k ≤ 16777216) : f32 (k : ℚ) = (k : ℚ) := by
  unfold f32
  by_cases h0 : (k : ℚ) = 0
  · rw [if_pos h0, h0]
  · rw [if_neg h0]
    have hk0 : k ≠ 0 := fun h => h0 (by rw [h]; simp)
    have hpos : (0 : ℚ) < (k : ℚ) := by exact_mod_cast Nat.pos_of_ne_zero hk0
    have habs : |(k : ℚ)| = (k : ℚ) := abs_of_pos hpos
    simp only [habs, if_neg (not_lt.mpr hpos.le), one_mul]
    rw [Int.log_natCast]
    have hL : Nat.log 2 k ≤ 24 := by
      have h25 : k < 2 ^ 25 := by omega
      have := Nat.log_lt_of_lt_pow hk0 h25
      omega
    have hpow : 2 ^ Nat.log 2 k ≤ k := Nat.pow_log_le_self 2 hk0
    obtain ⟨z, hz⟩ : ∃ z : ℤ, (k : ℚ) / (2 : ℚ) ^ ((Nat.log 2 k : ℤ) - 23) = (z : ℚ) := by
      rcases Nat.lt_or_ge (Nat.log 2 k) 24 with hlt | hge
      · refine ⟨(k : ℤ) * 2 ^ (23 - Nat.log 2 k), ?_⟩
        have he : ((Nat.log 2 k : ℤ) - 23) = -((23 - Nat.log 2 k : ℕ) : ℤ) := by omega
        rw [he, zpow_neg, zpow_natCast, div_inv_eq_mul]
        push_cast
        ring
      · have hL24 : Nat.log 2 k = 24 := by omega
        have hk24 : k = 16777216 := by
          rw [hL24] at hpow
          omega
        refine ⟨8388608, ?_⟩
        rw [hL24, hk24]
        norm_num
    rw [hz, round_even_intCast, ← hz]
    have hne : (2 : ℚ) ^ ((Nat.log 2 k : ℤ) - 23) ≠ 0 := zpow_ne_zero _ (by norm_num)
    field_simp

/-- Below `2^24` the float32 increment of a whole number is exact. -/
theorem f32_succ_of_lt (k : ℕ) (hk : k < 16777216) : f32 ((k : ℚ) + 1.0) = (k : ℚ) + 1 := by
  have h := f32_natCast (k + 1) (by omega)
  have e : ((k : ℚ) + 1.0) = ((k + 1 : ℕ) : ℚ) := by push_cast; norm_num
  rw [e, h]
  push_cast
  ring

/-- At `2^24` the float32 increment is lost: `16777217` lies half way between
the float32 values `16777216` and `16777218` and is rounded to the even one. -/
theorem f32_succ_sat : f32 ((16777216 : ℚ) + 1.0) = 16777216 := by
  have e : ((16777216 : ℚ) + 1.0) = ((16777217 : ℕ) : ℚ) := by norm_num
  have hlog : Nat.log 2 16777217 = 24 := by
    rw [Nat.log_eq_iff (Or.inl (by norm_num))]
    norm_num
  have hfl : ⌊((16777217 : ℚ) / 2)⌋ = 8388608 := by
    rw [Int.floor_eq_iff]
    norm_num
  unfold f32
  rw [e, if_neg (by norm_num), abs_of_pos (by norm_num), Int.log_natCast, hlog,
    if_neg (by norm_num)]
  have hu : (2 : ℚ) ^ (((24 : ℕ) : ℤ) - 23) = 2 := by norm_num
  have hr : round_even (((16777217 : ℕ) : ℚ) / 2) = 8388608 := by
    unfold round_even
    have e2 : (((16777217 : ℕ) : ℚ) / 2) = (16777217 : ℚ) / 2 := by norm_num
    rw [e2, hfl]
    norm_num
  simp only [hu, hr]
  norm_num

/-! ## Loops -/

theorem forLoop_inv {σ : Type} (P : σ → Prop) (lo : Nat) (body : Nat → σ → σ)
    (hb : ∀ i s, P s → P (body i s)) : ∀ k s, P s → P (forLoop lo body k s)
  | 0, _, h => h
  | k + 1, s, h => hb _ _ (forLoop_inv P lo body hb k s h)

theorem passed_upto_zero (env : Flappy) : passed_upto env 0 = 0 := by
  simp [passed_upto]

theorem passed_upto_succ (env : Flappy) (k : Nat) :
    passed_upto env (k + 1) = passed_upto env k + (if passed env k then 1 else 0) := by
  unfold passed_upto
  rw [Finset.range_succ, Finset.filter_insert]
  by_cases h : passed env k
  · rw [if_pos h, if_pos h, Finset.card_insert_of_not_mem]
    simp
  · rw [if_neg h, if_neg h]; simp

theorem clampf_bounds (v lo hi : ℚ) (h : lo ≤ hi) : lo ≤ clampf v lo hi ∧ clampf v lo hi ≤ hi := by
  unfold clampf
  split_ifs with h1 h2
  · exact ⟨le_refl _, h⟩
  · exact ⟨h, le_refl _⟩
  · exact ⟨not_lt.mp h1, not_lt.mp h2⟩

/-- What `move_pipes` does: every active slot moves left by `pipe_speed`. -/
theorem move_pipes_loop (env : Flappy) (k : Nat) :
    (forLoop 0 (fun i (e : Flappy) =>
        { e with pipes :=
            Function.update e.pipes i ({ e.pipes i with x := (e.pipes i).x - e.pipe_speed }) })
      k env).noPipes = env.noPipes ∧
    ∀ i, (forLoop 0 (fun i (e : Flappy) =>
        { e with pipes :=
            Function.update e.pipes i ({ e.pipes i with x := (e.pipes i).x - e.pipe_speed }) })
      k env).pipes i =
      if i < k then { env.pipes i with x := (env.pipes i).x - env.pipe_speed } else env.pipes i := by
  induction k with
  | zero => exact ⟨rfl, fun i => by simp [forLoop]⟩
  | succ k ih =>
    obtain ⟨ih1, ih2⟩ := ih
    refine ⟨ih1, fun i => ?_⟩
    have hs := congrArg Flappy.pipe_speed ih1
    simp only [Flappy.noPipes] at hs
    simp only [forLoop, Nat.zero_add]
    by_cases hik : i = k
    · subst hik
      simp [Function.update_same, ih2, hs]
    · rw [Function.update_noteq hik, ih2]
      by_cases hlt : i < k
      · simp [hlt, Nat.lt_succ_of_lt hlt]
      · have : ¬ i < k + 1 := by omega
        simp [hlt, this]

theorem move_pipes_noPipes (env : Flappy) : (move_pipes env).noPipes = env.noPipes :=
  (move_pipes_loop env _).1

theorem move_pipes_pipes (env : Flappy) (i : Nat) :
    (move_pipes env).pipes i =
      if i < env.num_pipes.toNat then { env.pipes i with x := (env.pipes i).x - env.pipe_speed }
      else env.pipes i :=
  (move_pipes_loop env _).2 i

/-- What the sparse scoring loop does: it marks the passed pipes, and adds their
number to the score and to the reward. -/
theorem sparse_score_pipes_spec (env : Flappy) :
    (Sparse.score_pipes env ((env.width : ℚ) * PIPE_WIDTH_RATIO)
        ((env.width : ℚ) * BIRD_X_RATIO)).frame = env.frame ∧
    (Sparse.score_pipes env ((env.width : ℚ) * PIPE_WIDTH_RATIO)
        ((env.width : ℚ) * BIRD_X_RATIO)).score = env.score + (passed_count env : Int) ∧
    (Sparse.score_pipes env ((env.width : ℚ) * PIPE_WIDTH_RATIO)
        ((env.width : ℚ) * BIRD_X_RATIO)).rewards = env.rewards + (passed_count env : ℚ) ∧
    ∀ i, (Sparse.score_pipes env ((env.width : ℚ) * PIPE_WIDTH_RATIO)
        ((env.width : ℚ) * BIRD_X_RATIO)).pipes i =
      if i < env.num_pipes.toNat ∧ passed env i then { env.pipes i with scored := 1 }
      else env.pipes i := by
  unfold Sparse.score_pipes passed_count
  generalize env.num_pipes.toNat = k
  induction k with
  | zero => simp [forLoop, passed_upto_zero]
  | succ k ih =>
    obtain ⟨ih1, ih2, ih3, ih4⟩ := ih
    simp only [forLoop, Nat.zero_add]
    have hk : (forLoop 0 (fun i (e : Flappy) =>
        if (e.pipes i).scored = 0 ∧
            (e.pipes i).x + (env.width : ℚ) * PIPE_WIDTH_RATIO < (env.width : ℚ) * BIRD_X_RATIO then
          { e with
            pipes := Function.update e.pipes i ({ e.pipes i with scored := 1 })
            rewards := e.rewards + 1.0
            score := e.score + 1 }
        else e) k env).pipes k = env.pipes k := by
      rw [ih4]; simp
    rw [hk, passed_upto_succ]
    by_cases hp : passed env k
    · have hp' := hp
      unfold passed at hp'
      rw [if_pos hp', if_pos hp]
      refine ⟨ih1, ?_, ?_, fun i => ?_⟩
      · show _ + 1 = _
        rw [ih2]; push_cast; ring
      · show _ + 1.0 = _
        rw [ih3]; push_cast; ring
      · show Function.update _ k _ i = _
        by_cases hik : i = k
        · subst hik
          simp [hp]
        · rw [Function.update_noteq hik, ih4]
          have : i < k + 1 ↔ i < k := by omega
          simp [this]
    · have hp' := hp
      unfold passed at hp'
      rw [if_neg hp', if_neg hp]
      refine ⟨ih1, by simpa using ih2, by simpa using ih3, fun i => ?_⟩
      rw [ih4]
      by_cases hik : i = k
      · subst hik
        simp [hp]
      · have : i < k + 1 ↔ i < k := by omega
        simp [this]

/-! ## Frame lemmas -/

theorem sparse_spawn_pipe_noPipes (e : Flappy) (i : Nat) (g : Rng) :
    (Sparse.spawn_pipe e i g).1.noPipes = e.noPipes := rfl

theorem dense_spawn_pipe_noPipes (e : Flappy) (i : Nat) (g : Rng) :
    (Dense.spawn_pipe e i g).1.noPipes = e.noPipes := rfl

theorem recycle_noPipes (spawn : Flappy → Nat → Rng → Flappy × Rng)
    (hs : ∀ e i g, (spawn e i g).1.noPipes = e.noPipes) (env : Flappy) (pw : ℚ) (g : Rng) :
    (recycle spawn env pw g).1.noPipes = env.noPipes := by
  unfold recycle
  simp only
  split_ifs
  · rw [hs]; exact move_pipes_noPipes env
  · exact move_pipes_noPipes env

theorem sparse_compute_observations_noObs (e : Flappy) :
    (Sparse.compute_observations e).noObs = e.noObs := by
  unfold Sparse.compute_observations
  simp only
  split <;> rfl

theorem dense_compute_observations_noObs (e : Flappy) :
    (Dense.compute_observations e).noObs = e.noObs := by
  unfold Dense.compute_observations
  simp only
  split <;> rfl

/-- What the pipe loop of `c_reset` does when three pipes are active. -/
theorem sparse_reset_pipes_spec (env : Flappy) (g : Rng) (hn : env.num_pipes = 3) :
    (Sparse.reset_pipes env g).1.noPipes = env.noPipes ∧
    (∀ i, i < 3 →
      ((Sparse.reset_pipes env g).1.pipes i).x =
        (env.width : ℚ) * 0.5 + (i : ℚ) * (env.width : ℚ) * env.pipe_spacing ∧
      ((Sparse.reset_pipes env g).1.pipes i).scored = 0 ∧
      ((Sparse.reset_pipes env g).1.pipes i).gap_height = env.gap_height) ∧
    (∀ i, 3 ≤ i → (Sparse.reset_pipes env g).1.pipes i = env.pipes i) := by
  unfold Sparse.reset_pipes
  rw [hn]
  refine ⟨forLoop_inv (fun s : Flappy × Rng => s.1.noPipes = env.noPipes) _ _ (fun i s h => by exact h) _ _ rfl,
    fun i hi => ?_, fun i hi => ?_⟩
  · interval_cases i <;> simp [forLoop, Sparse.spawn_pipe, Function.update]
  · have h0 : i ≠ 0 := by omega
    have h1 : i ≠ 1 := by omega
    have h2 : i ≠ 2 := by omega
    simp [forLoop, Sparse.spawn_pipe, Function.update, h0, h1, h2]

/-- What the pipe loop of `c_reset` does when three pipes are active. -/
theorem dense_reset_pipes_spec (env : Flappy) (g : Rng) (hn : env.num_pipes = 3) :
    (Dense.reset_pipes env g).1.noPipes = env.noPipes ∧
    (∀ i, i < 3 →
      ((Dense.reset_pipes env g).1.pipes i).x =
        (env.width : ℚ) * 0.5 + (i : ℚ) * (env.width : ℚ) * env.pipe_spacing ∧
      ((Dense.reset_pipes env g).1.pipes i).scored = 0 ∧
      ((Dense.reset_pipes env g).1.pipes i).gap_height = env.gap_height) ∧
    (∀ i, 3 ≤ i → (Dense.reset_pipes env g).1.pipes i = env.pipes i) := by
  unfold Dense.reset_pipes
  rw [hn]
  refine ⟨forLoop_inv (fun s : Flappy × Rng => s.1.noPipes = env.noPipes) _ _ (fun i s h => by exact h) _ _ rfl,
    fun i hi => ?_, fun i hi => ?_⟩
  · interval_cases i <;> simp [forLoop, Function.update]
  · have h0 : i ≠ 0 := by omega
    have h1 : i ≠ 1 := by omega
    have h2 : i ≠ 2 := by omega
    simp [forLoop, Function.update, h0, h1, h2]

theorem sparse_c_reset_eq (env : Flappy) (d : ℚ) (g : Rng) :
    Sparse.c_reset env d g =
      (Sparse.compute_observations (Sparse.reset_pipes (Sparse.reset_head env d) g).1,
        (Sparse.reset_pipes (Sparse.reset_head env d) g).2) := rfl

theorem dense_c_reset_eq (env : Flappy) (g : Rng) :
    Dense.c_reset env g =
      (Dense.compute_observations (Dense.reset_pipes (Dense.reset_head env) g).1,
        (Dense.reset_pipes (Dense.reset_head env) g).2) := rfl

/-- The state `c_reset` leaves agrees with `reset_head` outside the pipes and
the observation buffer. -/
theorem sparse_c_reset_frame (env : Flappy) (d : ℚ) (g : Rng) :
    (Sparse.c_reset env d g).1.noObs.noPipes = (Sparse.reset_head env d).noObs.noPipes := by
  rw [sparse_c_reset_eq]
  have ho := sparse_compute_observations_noObs (Sparse.reset_pipes (Sparse.reset_head env d) g).1
  have hp := (sparse_reset_pipes_spec (Sparse.reset_head env d) g rfl).1
  exact (congrArg Flappy.noPipes ho).trans (congrArg Flappy.noObs hp)

theorem dense_c_reset_frame (env : Flappy) (g : Rng) :
    (Dense.c_reset env g).1.noObs.noPipes = (Dense.reset_head env).noObs.noPipes := by
  rw [dense_c_reset_eq]
  have ho := dense_compute_observations_noObs (Dense.reset_pipes (Dense.reset_head env) g).1
  have hp := (dense_reset_pipes_spec (Dense.reset_head env) g rfl).1
  exact (congrArg Flappy.noPipes ho).trans (congrArg Flappy.noObs hp)

/-- The pipes `c_reset` leaves. -/
theorem sparse_c_reset_pipes (env : Flappy) (d : ℚ) (g : Rng) :
    (∀ i, i < 3 →
      ((Sparse.c_reset env d g).1.pipes i).x =
        (env.width : ℚ) * 0.5 + (i : ℚ) * (env.width : ℚ) * env.pipe_spacing ∧
      ((Sparse.c_reset env d g).1.pipes i).scored = 0 ∧
      ((Sparse.c_reset env d g).1.pipes i).gap_height = env.gap_height) ∧
    (∀ i, 3 ≤ i → (Sparse.c_reset env d g).1.pipes i = env.pipes i) := by
  have ho := congrArg Flappy.pipes
    (sparse_compute_observations_noObs (Sparse.reset_pipes (Sparse.reset_head env d) g).1)
  have hp := (sparse_reset_pipes_spec (Sparse.reset_head env d) g rfl).2
  have hpp : (Sparse.c_reset env d g).1.pipes =
      (Sparse.reset_pipes (Sparse.reset_head env d) g).1.pipes := ho
  rw [hpp]
  exact hp

theorem dense_c_reset_pipes (env : Flappy) (g : Rng) :
    (∀ i, i < 3 →
      ((Dense.c_reset env g).1.pipes i).x =
        (env.width : ℚ) * 0.5 + (i : ℚ) * (env.width : ℚ) * env.pipe_spacing ∧
      ((Dense.c_reset env g).1.pipes i).scored = 0 ∧
      ((Dense.c_reset env g).1.pipes i).gap_height = env.gap_height) ∧
    (∀ i, 3 ≤ i → (Dense.c_reset env g).1.pipes i = env.pipes i) := by
  have ho := congrArg Flappy.pipes
    (dense_compute_observations_noObs (Dense.reset_pipes (Dense.reset_head env) g).1)
  have hp := (dense_reset_pipes_spec (Dense.reset_head env) g rfl).2
  have hpp : (Dense.c_reset env g).1.pipes =
      (Dense.reset_pipes (Dense.reset_head env) g).1.pipes := ho
  rw [hpp]
  exact hp

theorem sparse_c_reset_bird_y (env : Flappy) (d : ℚ) (g : Rng) :
    (Sparse.c_reset env d g).1.bird_y = 0.5 :=
  congrArg Flappy.bird_y (sparse_c_reset_frame env d g)

theorem dense_c_reset_bird_y (env : Flappy) (g : Rng) :
    (Dense.c_reset env g).1.bird_y = 0.5 :=
  congrArg Flappy.bird_y (dense_c_reset_frame env g)

/-! ## The step, path by path -/

theorem collides_loop_congr (e e' : Flappy) (hp : e.pipes = e'.pipes) (hh : e.height = e'.height)
    (bx byy br pw : ℚ) : ∀ k i,
    collides_loop e bx byy br pw k i = collides_loop e' bx byy br pw k i
  | 0, _ => rfl
  | k + 1, i => by
    simp only [collides_loop, hp, hh, collides_loop_congr e e' hp hh bx byy br pw k (i + 1)]

theorem dies_pre (env : Flappy) : (hits_bounds (pre env) ∨ hits_pipe (pre env) = true) ↔ dies env := by
  unfold dies
  have h1 : hits_bounds (pre env) ↔ hits_bounds (physics env) := Iff.rfl
  have h2 : hits_pipe (pre env) = hits_pipe (physics env) := by
    unfold hits_pipe collides
    exact collides_loop_congr (pre env) (physics env) rfl rfl _ _ _ _ _ _
  rw [h1, h2]

theorem sparse_c_step_dead (env : Flappy) (g : Rng) (h : dies env) :
    Sparse.c_step env g = Sparse.finish { pre env with rewards := -1.0 } g := by
  have h' := (dies_pre env).mpr h
  unfold Sparse.c_step
  simp only
  by_cases hb : hits_bounds (pre env)
  · exact if_pos hb
  · have hp : hits_pipe (pre env) = true := h'.resolve_left hb
    exact (if_neg hb).trans (if_pos hp)

theorem sparse_c_step_alive (env : Flappy) (g : Rng) (h : ¬ dies env) :
    Sparse.c_step env g =
      if (Sparse.mid env g).1.step_count ≥ (Sparse.mid env g).1.max_steps then
        Sparse.finish (Sparse.mid env g).1 (Sparse.mid env g).2
      else
        (Sparse.compute_observations
          { (Sparse.mid env g).1 with log :=
              { (Sparse.mid env g).1.log with
                episode_return := (Sparse.mid env g).1.log.episode_return +
                  (Sparse.mid env g).1.rewards } },
         (Sparse.mid env g).2) := by
  have h' := (dies_pre env).not.mpr h
  have hb : ¬ hits_bounds (pre env) := fun hb => h' (Or.inl hb)
  have hp : ¬ hits_pipe (pre env) = true := fun hp => h' (Or.inr hp)
  unfold Sparse.c_step
  simp only
  exact (if_neg hb).trans (if_neg hp)

theorem sparse_mid_noPipes (env : Flappy) (g : Rng) :
    (Sparse.mid env g).1.noPipes =
      (Sparse.score_pipes (pre env) ((env.width : ℚ) * PIPE_WIDTH_RATIO)
        ((env.width : ℚ) * BIRD_X_RATIO)).noPipes :=
  recycle_noPipes _ sparse_spawn_pipe_noPipes _ _ _

theorem passed_count_pre (env : Flappy) : passed_count (pre env) = passed_count env := rfl

theorem sparse_mid_frame (env : Flappy) (g : Rng) :
    (Sparse.mid env g).1.frame = (pre env).frame :=
  (congrArg Flappy.frame (sparse_mid_noPipes env g)).trans (sparse_score_pipes_spec (pre env)).1

theorem sparse_mid_rewards (env : Flappy) (g : Rng) :
    (Sparse.mid env g).1.rewards = (passed_count env : ℚ) := by
  have h1 := congrArg Flappy.rewards (sparse_mid_noPipes env g)
  have h2 := (sparse_score_pipes_spec (pre env)).2.2.1
  have h3 : (Sparse.mid env g).1.rewards = (0.0 : ℚ) + (passed_count env : ℚ) := h1.trans h2
  rw [h3]
  norm_num

theorem sparse_mid_score (env : Flappy) (g : Rng) :
    (Sparse.mid env g).1.score = env.score + (passed_count env : Int) := by
  have h1 := congrArg Flappy.score (sparse_mid_noPipes env g)
  have h2 := (sparse_score_pipes_spec (pre env)).2.1
  exact h1.trans h2

/-- What the dense scoring loop does: it marks the passed pipes, adds their
number to the score and their streak rewards to the reward. -/
theorem dense_score_pipes_spec (env : Flappy) :
    (Dense.score_pipes env ((env.width : ℚ) * PIPE_WIDTH_RATIO)
        ((env.width : ℚ) * BIRD_X_RATIO)).frame = env.frame ∧
    (Dense.score_pipes env ((env.width : ℚ) * PIPE_WIDTH_RATIO)
        ((env.width : ℚ) * BIRD_X_RATIO)).score = env.score + (passed_count env : Int) ∧
    (Dense.score_pipes env ((env.width : ℚ) * PIPE_WIDTH_RATIO)
        ((env.width : ℚ) * BIRD_X_RATIO)).rewards =
      env.rewards + streak_sum env.score (passed_count env) ∧
    ∀ i, (Dense.score_pipes env ((env.width : ℚ) * PIPE_WIDTH_RATIO)
        ((env.width : ℚ) * BIRD_X_RATIO)).pipes i =
      if i < env.num_pipes.toNat ∧ passed env i then { env.pipes i with scored := 1 }
      else env.pipes i := by
  unfold Dense.score_pipes passed_count
  generalize env.num_pipes.toNat = k
  induction k with
  | zero => simp [forLoop, passed_upto_zero, streak_sum]
  | succ k ih =>
    obtain ⟨ih1, ih2, ih3, ih4⟩ := ih
    simp only [forLoop, Nat.zero_add]
    have hk : (forLoop 0 (fun i (e : Flappy) =>
        if (e.pipes i).scored = 0 ∧
            (e.pipes i).x + (env.width : ℚ) * PIPE_WIDTH_RATIO < (env.width : ℚ) * BIRD_X_RATIO then
          { e with
            pipes := Function.update e.pipes i ({ e.pipes i with scored := 1 })
            rewards := e.rewards + (1.0 + STREAK_BONUS * (e.score : ℚ))
            score := e.score + 1 }
        else e) k env).pipes k = env.pipes k := by
      rw [ih4]; simp
    rw [hk, passed_upto_succ]
    by_cases hp : passed env k
    · have hp' := hp
      unfold passed at hp'
      rw [if_pos hp', if_pos hp]
      refine ⟨ih1, ?_, ?_, fun i => ?_⟩
      · show _ + 1 = _
        rw [ih2]; push_cast; ring
      · show _ + (1.0 + STREAK_BONUS * _) = _
        rw [ih3, ih2]
        unfold streak_sum STREAK_BONUS
        rw [Finset.sum_range_succ]
        push_cast; ring
      · show Function.update _ k _ i = _
        by_cases hik : i = k
        · subst hik
          simp [hp]
        · rw [Function.update_noteq hik, ih4]
          have : i < k + 1 ↔ i < k := by omega
          simp [this]
    · have hp' := hp
      unfold passed at hp'
      rw [if_neg hp', if_neg hp]
      refine ⟨ih1, by simpa using ih2, by simpa using ih3, fun i => ?_⟩
      rw [ih4]
      by_cases hik : i = k
      · subst hik
        simp [hp]
      · have : i < k + 1 ↔ i < k := by omega
        simp [this]

theorem frame_set_rewards (e : Flappy) (r : ℚ) : ({ e with rewards := r } : Flappy).frame = e.frame :=
  rfl

theorem dense_pflap_frame (env : Flappy) : (Dense.pflap env).frame = (pre env).frame := by
  unfold Dense.pflap
  split_ifs
  · exact frame_set_rewards _ _
  · rfl

theorem dense_pflap_pipes (env : Flappy) : (Dense.pflap env).pipes = env.pipes := by
  unfold Dense.pflap
  split_ifs <;> rfl

theorem dense_pflap_score (env : Flappy) : (Dense.pflap env).score = env.score := by
  unfold Dense.pflap
  split_ifs <;> rfl

theorem dense_pflap_rewards (env : Flappy) :
    (Dense.pflap env).rewards = if env.actions = 1 then -FLAP_PENALTY else 0 := by
  unfold Dense.pflap
  split_ifs
  · show (0.0 : ℚ) - FLAP_PENALTY = _
    norm_num
  · show (0.0 : ℚ) = 0
    norm_num

theorem dense_dies_pflap (env : Flappy) :
    (hits_bounds (Dense.pflap env) ∨ hits_pipe (Dense.pflap env) = true) ↔ dies env := by
  rw [← dies_pre env]
  have hf := dense_pflap_frame env
  have h1 : hits_bounds (Dense.pflap env) ↔ hits_bounds (pre env) := by
    unfold hits_bounds
    have hy : (Dense.pflap env).bird_y = (pre env).bird_y := by
      have h := congrArg Flappy.bird_y hf; exact h
    have hh : (Dense.pflap env).height = (pre env).height := by
      have h := congrArg Flappy.height hf; exact h
    simp only [hy, hh]
  have h2 : hits_pipe (Dense.pflap env) = hits_pipe (pre env) := by
    unfold hits_pipe collides
    have hy : (Dense.pflap env).bird_y = (pre env).bird_y := by
      have h := congrArg Flappy.bird_y hf; exact h
    have hh : (Dense.pflap env).height = (pre env).height := by
      have h := congrArg Flappy.height hf; exact h
    have hw : (Dense.pflap env).width = (pre env).width := by
      have h := congrArg Flappy.width hf; exact h
    have hn : (Dense.pflap env).num_pipes = (pre env).num_pipes := by
      have h := congrArg Flappy.num_pipes hf; exact h
    simp only [hy, hh, hw, hn]
    exact collides_loop_congr (Dense.pflap env) (pre env) (dense_pflap_pipes env) hh _ _ _ _ _ _
  rw [h1, h2]

theorem dense_c_step_dead (env : Flappy) (g : Rng) (h : dies env) :
    Dense.c_step env g = Dense.finish { Dense.pflap env with rewards := -1.0 } g := by
  have h' := (dense_dies_pflap env).mpr h
  unfold Dense.c_step
  simp only
  by_cases hb : hits_bounds (Dense.pflap env)
  · exact if_pos hb
  · have hp : hits_pipe (Dense.pflap env) = true := h'.resolve_left hb
    exact (if_neg hb).trans (if_pos hp)

theorem dense_c_step_alive (env : Flappy) (g : Rng) (h : ¬ dies env) :
    Dense.c_step env g =
      if (Dense.shaped env g).step_count ≥ (Dense.shaped env g).max_steps then
        Dense.finish (Dense.shaped env g) (Dense.mid env g).2
      else
        (Dense.compute_observations
          { Dense.shaped env g with log :=
              { (Dense.shaped env g).log with
                episode_return := (Dense.shaped env g).log.episode_return +
                  (Dense.shaped env g).rewards } },
         (Dense.mid env g).2) := by
  have h' := (dense_dies_pflap env).not.mpr h
  have hb : ¬ hits_bounds (Dense.pflap env) := fun hb => h' (Or.inl hb)
  have hp : ¬ hits_pipe (Dense.pflap env) = true := fun hp => h' (Or.inr hp)
  unfold Dense.c_step
  simp only
  exact (if_neg hb).trans (if_neg hp)

theorem dense_mid_noPipes (env : Flappy) (g : Rng) :
    (Dense.mid env g).1.noPipes =
      (Dense.score_pipes (Dense.pflap env) (((Dense.pflap env).width : ℚ) * PIPE_WIDTH_RATIO)
        (((Dense.pflap env).width : ℚ) * BIRD_X_RATIO)).noPipes :=
  recycle_noPipes _ dense_spawn_pipe_noPipes _ _ _

theorem dense_mid_frame (env : Flappy) (g : Rng) :
    (Dense.mid env g).1.frame = (pre env).frame :=
  ((congrArg Flappy.frame (dense_mid_noPipes env g)).trans
    (dense_score_pipes_spec (Dense.pflap env)).1).trans (dense_pflap_frame env)

theorem passed_congr (e e' : Flappy) (hp : e.pipes = e'.pipes) (hw : e.width = e'.width) (i : Nat) :
    passed e i ↔ passed e' i := by
  unfold passed
  rw [hp, hw]

theorem passed_count_congr (e e' : Flappy) (hp : e.pipes = e'.pipes) (hw : e.width = e'.width)
    (hn : e.num_pipes = e'.num_pipes) : passed_count e = passed_count e' := by
  unfold passed_count passed_upto
  rw [hn]
  congr 1
  ext i
  simp only [Finset.mem_filter, passed_congr e e' hp hw i]

theorem dense_pflap_width (env : Flappy) : (Dense.pflap env).width = env.width := by
  have h := congrArg Flappy.width (dense_pflap_frame env); exact h

theorem dense_pflap_num_pipes (env : Flappy) : (Dense.pflap env).num_pipes = env.num_pipes := by
  have h := congrArg Flappy.num_pipes (dense_pflap_frame env); exact h

theorem dense_passed_count_pflap (env : Flappy) : passed_count (Dense.pflap env) = passed_count env :=
  passed_count_congr _ _ (dense_pflap_pipes env) (dense_pflap_width env) (dense_pflap_num_pipes env)

theorem dense_mid_rewards (env : Flappy) (g : Rng) :
    (Dense.mid env g).1.rewards =
      (if env.actions = 1 then -FLAP_PENALTY else 0) + streak_sum env.score (passed_count env) := by
  have h1 := congrArg Flappy.rewards (dense_mid_noPipes env g)
  have h2 := (dense_score_pipes_spec (Dense.pflap env)).2.2.1
  have h3 : (Dense.mid env g).1.rewards = _ := h1.trans h2
  rw [h3, dense_pflap_rewards, dense_pflap_score, dense_passed_count_pflap]

theorem dense_mid_score (env : Flappy) (g : Rng) :
    (Dense.mid env g).1.score = env.score + (passed_count env : Int) := by
  have h1 := congrArg Flappy.score (dense_mid_noPipes env g)
  have h2 := (dense_score_pipes_spec (Dense.pflap env)).2.1
  have h3 : (Dense.mid env g).1.score = _ := h1.trans h2
  rw [h3, dense_pflap_score, dense_passed_count_pflap]

theorem dense_shaping_frame (e : Flappy) (pw : ℚ) :
    (Dense.shaping e pw).frame = e.frame ∧ (Dense.shaping e pw).pipes = e.pipes ∧
      (Dense.shaping e pw).score = e.score := by
  unfold Dense.shaping
  simp only
  split
  · split_ifs <;> exact ⟨rfl, rfl, rfl⟩
  · exact ⟨rfl, rfl, rfl⟩

theorem dense_shaped_frame (env : Flappy) (g : Rng) :
    (Dense.shaped env g).frame = (pre env).frame :=
  (dense_shaping_frame _ _).1.trans (dense_mid_frame env g)

/-! ## Invariants along a run -/

theorem sparse_run_inv (P : Flappy × Rng → Prop)
    (hstep : ∀ s a, P s → P (Sparse.step_with s a)) :
    ∀ (acts : List Int) (s : Flappy × Rng), P s → P (Sparse.run s acts)
  | [], _, h => h
  | a :: acts, s, h => sparse_run_inv P hstep acts (Sparse.step_with s a) (hstep s a h)

theorem dense_run_inv (P : Flappy × Rng → Prop)
    (hstep : ∀ s a, P s → P (Dense.step_with s a)) :
    ∀ (acts : List Int) (s : Flappy × Rng), P s → P (Dense.run s acts)
  | [], _, h => h
  | a :: acts, s, h => dense_run_inv P hstep acts (Dense.step_with s a) (hstep s a h)

theorem sparse_finish_frame (e : Flappy) (g : Rng) :
    (Sparse.finish e g).1.noObs.noPipes =
      (Sparse.reset_head
        (Sparse.add_log
          { e with
            terminals := 1
            log := { e.log with episode_return := e.log.episode_return + e.rewards } })
        e.curriculum_difficulty).noObs.noPipes :=
  sparse_c_reset_frame _ _ g

theorem dense_finish_frame (e : Flappy) (g : Rng) :
    (Dense.finish e g).1.noObs.noPipes =
      (Dense.reset_head
        (Dense.add_log
          { e with
            terminals := 1
            log := { e.log with episode_return := e.log.episode_return + e.rewards } })).noObs.noPipes :=
  dense_c_reset_frame _ g

theorem pre_bird_y_bounds (env : Flappy) : 0 ≤ (pre env).bird_y ∧ (pre env).bird_y ≤ 1 := by
  have h := clampf_bounds
    (env.bird_y + ((if env.actions = 1 then -env.flap_velocity else env.bird_vy) + env.gravity))
    0.0 1.0 (by norm_num)
  have h0 : (0.0 : ℚ) = 0 := by norm_num
  have h1 : (1.0 : ℚ) = 1 := by norm_num
  rw [h0, h1] at h
  have he : (pre env).bird_y = clampf
    (env.bird_y + ((if env.actions = 1 then -env.flap_velocity else env.bird_vy) + env.gravity))
    0 1 := by
    show clampf _ 0.0 1.0 = _
    rw [h0, h1]
  rw [he]
  exact h

theorem sparse_c_step_bird_y (env : Flappy) (g : Rng) :
    0 ≤ (Sparse.c_step env g).1.bird_y ∧ (Sparse.c_step env g).1.bird_y ≤ 1 := by
  have hfin : ∀ e g', 0 ≤ (Sparse.finish e g').1.bird_y ∧ (Sparse.finish e g').1.bird_y ≤ 1 := by
    intro e g'
    have h : (Sparse.finish e g').1.bird_y = 0.5 := by
      have h := congrArg Flappy.bird_y (sparse_finish_frame e g'); exact h
    rw [h]; norm_num
  by_cases hd : dies env
  · rw [sparse_c_step_dead env g hd]
    exact hfin _ _
  · rw [sparse_c_step_alive env g hd]
    split_ifs
    · exact hfin _ _
    · have h1 := congrArg Flappy.bird_y (sparse_compute_observations_noObs
        { (Sparse.mid env g).1 with log :=
            { (Sparse.mid env g).1.log with
              episode_return := (Sparse.mid env g).1.log.episode_return +
                (Sparse.mid env g).1.rewards } })
      have h2 := congrArg Flappy.bird_y (sparse_mid_frame env g)
      have h3 : (Sparse.compute_observations
        { (Sparse.mid env g).1 with log :=
            { (Sparse.mid env g).1.log with
              episode_return := (Sparse.mid env g).1.log.episode_return +
                (Sparse.mid env g).1.rewards } }).bird_y = (pre env).bird_y := h1.trans h2
      show 0 ≤ Flappy.bird_y _ ∧ Flappy.bird_y _ ≤ 1
      rw [h3]
      exact pre_bird_y_bounds env

theorem dense_c_step_bird_y (env : Flappy) (g : Rng) :
    0 ≤ (Dense.c_step env g).1.bird_y ∧ (Dense.c_step env g).1.bird_y ≤ 1 := by
  have hfin : ∀ e g', 0 ≤ (Dense.finish e g').1.bird_y ∧ (Dense.finish e g').1.bird_y ≤ 1 := by
    intro e g'
    have h : (Dense.finish e g').1.bird_y = 0.5 := by
      have h := congrArg Flappy.bird_y (dense_finish_frame e g'); exact h
    rw [h]; norm_num
  by_cases hd : dies env
  · rw [dense_c_step_dead env g hd]
    exact hfin _ _
  · rw [dense_c_step_alive env g hd]
    split_ifs
    · exact hfin _ _
    · have h1 := congrArg Flappy.bird_y (dense_compute_observations_noObs
        { Dense.shaped env g with log :=
            { (Dense.shaped env g).log with
              episode_return := (Dense.shaped env g).log.episode_return +
                (Dense.shaped env g).rewards } })
      have h2 := congrArg Flappy.bird_y (dense_shaped_frame env g)
      have h3 : (Dense.compute_observations
        { Dense.shaped env g with log :=
            { (Dense.shaped env g).log with
              episode_return := (Dense.shaped env g).log.episode_return +
                (Dense.shaped env g).rewards } }).bird_y = (pre env).bird_y := h1.trans h2
      show 0 ≤ Flappy.bird_y _ ∧ Flappy.bird_y _ ≤ 1
      rw [h3]
      exact pre_bird_y_bounds env

/-- C1: in both variants the state `c_step` leaves has `bird_y` in `[0, 1]`,
whatever the state it starts from (in particular from every state with `bird_y`
in `[0, 1]`, `width > 0` and `height > 0`); `c_reset` sets `bird_y = 0.5`; hence
`bird_y` is in `[0, 1]` in every state reached from a reset by any sequence of
steps. -/
theorem C1_bird_y_in_unit_interval :
    (∀ (env : Flappy) (g : Rng),
      0 ≤ (Sparse.c_step env g).1.bird_y ∧ (Sparse.c_step env g).1.bird_y ≤ 1) ∧
    (∀ (env : Flappy) (g : Rng),
      0 ≤ (Dense.c_step env g).1.bird_y ∧ (Dense.c_step env g).1.bird_y ≤ 1) ∧
    (∀ (env : Flappy) (d : ℚ) (g : Rng), (Sparse.c_reset env d g).1.bird_y = 0.5) ∧
    (∀ (env : Flappy) (g : Rng), (Dense.c_reset env g).1.bird_y = 0.5) ∧
    (∀ (env : Flappy) (d : ℚ) (g : Rng) (acts : List Int),
      0 ≤ (Sparse.run (Sparse.c_reset env d g) acts).1.bird_y ∧
        (Sparse.run (Sparse.c_reset env d g) acts).1.bird_y ≤ 1) ∧
    (∀ (env : Flappy) (g : Rng) (acts : List Int),
      0 ≤ (Dense.run (Dense.c_reset env g) acts).1.bird_y ∧
        (Dense.run (Dense.c_reset env g) acts).1.bird_y ≤ 1) := by
  refine ⟨sparse_c_step_bird_y, dense_c_step_bird_y, sparse_c_reset_bird_y, dense_c_reset_bird_y,
    fun env d g acts => ?_, fun env g acts => ?_⟩
  · refine sparse_run_inv (fun s => 0 ≤ s.1.bird_y ∧ s.1.bird_y ≤ 1)
      (fun s a _ => sparse_c_step_bird_y _ _) acts _ ?_
    show 0 ≤ (Sparse.c_reset env d g).1.bird_y ∧ (Sparse.c_reset env d g).1.bird_y ≤ 1
    rw [sparse_c_reset_bird_y]; norm_num
  · refine dense_run_inv (fun s => 0 ≤ s.1.bird_y ∧ s.1.bird_y ≤ 1)
      (fun s a _ => dense_c_step_bird_y _ _) acts _ ?_
    show 0 ≤ (Dense.c_reset env g).1.bird_y ∧ (Dense.c_reset env g).1.bird_y ≤ 1
    rw [dense_c_reset_bird_y]; norm_num

theorem sparse_finish_rewards (e : Flappy) (g : Rng) : (Sparse.finish e g).1.rewards = e.rewards := by
  have h := congrArg Flappy.rewards (sparse_finish_frame e g); exact h

theorem sparse_finish_terminals (e : Flappy) (g : Rng) : (Sparse.finish e g).1.terminals = 1 := by
  have h := congrArg Flappy.terminals (sparse_finish_frame e g); exact h

theorem sparse_finish_log (e : Flappy) (g : Rng) :
    (Sparse.finish e g).1.log =
      { perf := if e.score > 0 then 1.0 else 0.0
        score := (e.score : ℚ)
        episode_return := 0.0
        episode_length := (e.step_count : ℚ)
        difficulty := e.curriculum_difficulty
        n := f32 (e.log.n + 1.0) } := by
  have h := congrArg Flappy.log (sparse_finish_frame e g); exact h

theorem dense_finish_rewards (e : Flappy) (g : Rng) : (Dense.finish e g).1.rewards = e.rewards := by
  have h := congrArg Flappy.rewards (dense_finish_frame e g); exact h

theorem dense_finish_terminals (e : Flappy) (g : Rng) : (Dense.finish e g).1.terminals = 1 := by
  have h := congrArg Flappy.terminals (dense_finish_frame e g); exact h

theorem dense_finish_log (e : Flappy) (g : Rng) :
    (Dense.finish e g).1.log =
      { perf := if e.score > 0 then 1.0 else 0.0
        score := (e.score : ℚ)
        episode_return := 0.0
        episode_length := (e.step_count : ℚ)
        difficulty := e.log.difficulty
        n := f32 (e.log.n + 1.0) } := by
  have h := congrArg Flappy.log (dense_finish_frame e g); exact h

theorem dense_pflap_step_count (env : Flappy) :
    (Dense.pflap env).step_count = env.step_count + 1 := by
  have h := congrArg Flappy.step_count (dense_pflap_frame env); exact h

theorem hits_bounds_of_touch (env : Flappy)
    (h : (physics env).bird_y * (env.height : ℚ) - 0.025 * (env.height : ℚ) ≤ 0 ∨
      (physics env).bird_y * (env.height : ℚ) + 0.025 * (env.height : ℚ) ≥ (env.height : ℚ)) :
    dies env := by
  left
  unfold hits_bounds BIRD_RADIUS_RATIO
  have e : (physics env).height = env.height := rfl
  simp only [e]
  have h0 : (0.0 : ℚ) = 0 := by norm_num
  rw [h0, mul_comm (env.height : ℚ) 0.025]
  exact h

/-- C2: if after the physics update the bird touches the ceiling or the floor
(`bird_y*height - radius <= 0` or `bird_y*height + radius >= height`, with
`radius = 0.025*height`), then `c_step` writes reward `-1`, terminal flag `1`, and
the log's `episode_length` is the step count before the call plus one; in the
sparse variant and in the dense variant alike, whatever the action. -/
theorem C2_bounds_contact (env : Flappy) (g : Rng)
    (h : (physics env).bird_y * (env.height : ℚ) - 0.025 * (env.height : ℚ) ≤ 0 ∨
      (physics env).bird_y * (env.height : ℚ) + 0.025 * (env.height : ℚ) ≥ (env.height : ℚ)) :
    ((Sparse.c_step env g).1.rewards = -1 ∧ (Sparse.c_step env g).1.terminals = 1 ∧
      (Sparse.c_step env g).1.log.episode_length = (env.step_count : ℚ) + 1) ∧
    ((Dense.c_step env g).1.rewards = -1 ∧ (Dense.c_step env g).1.terminals = 1 ∧
      (Dense.c_step env g).1.log.episode_length = (env.step_count : ℚ) + 1) := by
  have hd := hits_bounds_of_touch env h
  rw [sparse_c_step_dead env g hd, dense_c_step_dead env g hd]
  refine ⟨⟨?_, sparse_finish_terminals _ _, ?_⟩, ⟨?_, dense_finish_terminals _ _, ?_⟩⟩
  · rw [sparse_finish_rewards]
    show (-1.0 : ℚ) = -1
    norm_num
  · rw [sparse_finish_log]
    show ((env.step_count + 1 : Int) : ℚ) = _
    push_cast; ring
  · rw [dense_finish_rewards]
    show (-1.0 : ℚ) = -1
    norm_num
  · rw [dense_finish_log]
    show (((Dense.pflap env).step_count : Int) : ℚ) = _
    rw [dense_pflap_step_count]
    push_cast; ring

/-- C2 at `rising_env`, whose action is a flap: the bird reaches the ceiling, and
both variants return reward `-1`, terminal flag `1` and `episode_length = 7 + 1`. -/
theorem C2_bounds_contact_witness :
    ((physics rising_env).bird_y * ((512 : Int) : ℚ) - 0.025 * ((512 : Int) : ℚ) ≤ 0) ∧
    ((Sparse.c_step rising_env const_rng).1.rewards = -1 ∧
      (Sparse.c_step rising_env const_rng).1.terminals = 1 ∧
      (Sparse.c_step rising_env const_rng).1.log.episode_length = ((7 : Int) : ℚ) + 1) ∧
    ((Dense.c_step rising_env const_rng).1.rewards = -1 ∧
      (Dense.c_step rising_env const_rng).1.terminals = 1 ∧
      (Dense.c_step rising_env const_rng).1.log.episode_length = ((7 : Int) : ℚ) + 1) :=
  ⟨by norm_num [physics, clampf, rising_env, fresh_env, init, GRAVITY, FLAP_VEL],
   C2_bounds_contact rising_env const_rng
      (Or.inl (by norm_num [physics, clampf, rising_env, fresh_env, init, GRAVITY, FLAP_VEL]))⟩

theorem sparse_c_step_alive_rewards (env : Flappy) (g : Rng) (h : ¬ dies env) :
    (Sparse.c_step env g).1.rewards = (Sparse.mid env g).1.rewards := by
  rw [sparse_c_step_alive env g h]
  split_ifs
  · exact sparse_finish_rewards _ _
  · have h1 := congrArg Flappy.rewards (sparse_compute_observations_noObs
      { (Sparse.mid env g).1 with log :=
          { (Sparse.mid env g).1.log with
            episode_return := (Sparse.mid env g).1.log.episode_return +
              (Sparse.mid env g).1.rewards } })
    exact h1

/-- C3: in the sparse variant the reward `c_step` writes is `-1` if the step ends
by collision (ceiling, floor or pipe), and otherwise the number of pipes passed
in this step (`0` when none is), with no other term, also on a truncation step. -/
theorem C3_sparse_reward (env : Flappy) (g : Rng) :
    (Sparse.c_step env g).1.rewards = if dies env then -1 else (passed_count env : ℚ) := by
  by_cases hd : dies env
  · rw [if_pos hd, sparse_c_step_dead env g hd, sparse_finish_rewards]
    show (-1.0 : ℚ) = -1
    norm_num
  · rw [if_neg hd, sparse_c_step_alive_rewards env g hd, sparse_mid_rewards]

/-! ## The target scan -/

/-- What the scan of `find_next` has found after `k` slots: either nothing, and
then no visited pipe ahead of the bird lies left of the initial bound, or the
first slot of minimal `x` among the visited pipes ahead of the bird, which lies
left of the initial bound. -/
theorem find_next_loop (env : Flappy) (bx pw : ℚ) (k : Nat) :
    ((forLoop 0
        (fun i (s : Option Nat × ℚ) =>
          if (env.pipes i).x + pw > bx ∧ (env.pipes i).x < s.2 then (some i, (env.pipes i).x)
          else s) k (none, 1000000000)).1 = none →
      (forLoop 0
        (fun i (s : Option Nat × ℚ) =>
          if (env.pipes i).x + pw > bx ∧ (env.pipes i).x < s.2 then (some i, (env.pipes i).x)
          else s) k (none, 1000000000)).2 = 1000000000 ∧
      ∀ j, j < k → (env.pipes j).x + pw > bx → 1000000000 ≤ (env.pipes j).x) ∧
    (∀ t, (forLoop 0
        (fun i (s : Option Nat × ℚ) =>
          if (env.pipes i).x + pw > bx ∧ (env.pipes i).x < s.2 then (some i, (env.pipes i).x)
          else s) k (none, 1000000000)).1 = some t →
      t < k ∧ (env.pipes t).x + pw > bx ∧ (env.pipes t).x < 1000000000 ∧
      (forLoop 0
        (fun i (s : Option Nat × ℚ) =>
          if (env.pipes i).x + pw > bx ∧ (env.pipes i).x < s.2 then (some i, (env.pipes i).x)
          else s) k (none, 1000000000)).2 = (env.pipes t).x ∧
      (∀ j, j < k → (env.pipes j).x + pw > bx → (env.pipes t).x ≤ (env.pipes j).x) ∧
      (∀ j, j < t → (env.pipes j).x + pw > bx → (env.pipes t).x < (env.pipes j).x)) := by
  induction k with
  | zero =>
    refine ⟨fun _ => ⟨rfl, fun j hj => absurd hj (Nat.not_lt_zero j)⟩, fun t ht => ?_⟩
    simp [forLoop] at ht
  | succ k ih =>
    simp only [forLoop, Nat.zero_add]
    generalize forLoop 0
        (fun i (s : Option Nat × ℚ) =>
          if (env.pipes i).x + pw > bx ∧ (env.pipes i).x < s.2 then (some i, (env.pipes i).x)
          else s) k (none, 1000000000) = r at ih ⊢
    obtain ⟨r1, r2⟩ := r
    obtain ⟨ihn, ihs⟩ := ih
    simp only at ihn ihs ⊢
    by_cases hc : (env.pipes k).x + pw > bx ∧ (env.pipes k).x < r2
    · rw [if_pos hc]
      refine ⟨fun h => by simp at h, fun t ht => ?_⟩
      have htk : k = t := by simpa using ht
      subst htk
      have hlt : (env.pipes k).x < 1000000000 := by
        cases r1 with
        | none => have := (ihn rfl).1; rw [this] at hc; exact hc.2
        | some t' =>
          obtain ⟨_, _, h3, h4, _, _⟩ := ihs t' rfl
          rw [h4] at hc; exact lt_trans hc.2 h3
      have hall : ∀ j, j < k → (env.pipes j).x + pw > bx → (env.pipes k).x < (env.pipes j).x := by
        intro j hj ha
        cases r1 with
        | none => exact lt_of_lt_of_le hlt ((ihn rfl).2 j hj ha)
        | some t' =>
          obtain ⟨_, _, _, h4, h5, _⟩ := ihs t' rfl
          rw [h4] at hc
          exact lt_of_lt_of_le hc.2 (h5 j hj ha)
      refine ⟨Nat.lt_succ_self k, hc.1, hlt, rfl, fun j hj ha => ?_, hall⟩
      rcases Nat.lt_succ_iff_lt_or_eq.mp hj with hj' | hj'
      · exact le_of_lt (hall j hj' ha)
      · rw [hj']
    · rw [if_neg hc]
      refine ⟨fun h => ?_, fun t ht => ?_⟩
      · obtain ⟨h1, h2⟩ := ihn h
        refine ⟨h1, fun j hj ha => ?_⟩
        rcases Nat.lt_succ_iff_lt_or_eq.mp hj with hj' | hj'
        · exact h2 j hj' ha
        · subst hj'
          rw [h1] at hc
          exact not_lt.mp (fun hlt => hc ⟨ha, hlt⟩)
      · obtain ⟨h1, h2, h3, h4, h5, h6⟩ := ihs t ht
        refine ⟨Nat.lt_succ_of_lt h1, h2, h3, h4, fun j hj ha => ?_, h6⟩
        rcases Nat.lt_succ_iff_lt_or_eq.mp hj with hj' | hj'
        · exact h5 j hj' ha
        · subst hj'
          rw [h4] at hc
          exact not_lt.mp (fun hlt => hc ⟨ha, hlt⟩)

theorem find_next_some (env : Flappy) (t : Nat) :
    (find_next env ((env.width : ℚ) * BIRD_X_RATIO) ((env.width : ℚ) * PIPE_WIDTH_RATIO)).1 = some t ↔
      scan_target env t := by
  have h := find_next_loop env ((env.width : ℚ) * BIRD_X_RATIO) ((env.width : ℚ) * PIPE_WIDTH_RATIO)
    env.num_pipes.toNat
  unfold find_next
  constructor
  · intro ht
    obtain ⟨h1, h2, h3, _, h5, h6⟩ := h.2 t ht
    exact ⟨⟨h1, h2, h5⟩, h3, h6⟩
  · rintro ⟨⟨h1, h2, h5⟩, h3, h6⟩
    rcases hr : (forLoop 0
        (fun i (s : Option Nat × ℚ) =>
          if (env.pipes i).x + (env.width : ℚ) * PIPE_WIDTH_RATIO > (env.width : ℚ) * BIRD_X_RATIO ∧
              (env.pipes i).x < s.2 then (some i, (env.pipes i).x)
          else s) env.num_pipes.toNat (none, 1000000000)).1 with _ | t'
    · exact absurd ((h.1 hr).2 t h1 h2) (not_le.mpr h3)
    · obtain ⟨k1, k2, _, _, k5, k6⟩ := h.2 t' hr
      rcases Nat.lt_trichotomy t t' with hlt | heq | hgt
      · exact absurd (k6 t hlt h2) (not_lt.mpr (h5 t' k1 k2))
      · rw [heq]
      · exact absurd (h6 t' hgt k2) (not_lt.mpr (k5 t h1 h2))

theorem find_next_none (env : Flappy) :
    (find_next env ((env.width : ℚ) * BIRD_X_RATIO) ((env.width : ℚ) * PIPE_WIDTH_RATIO)).1 = none ↔
      no_scan_target env := by
  have h := find_next_loop env ((env.width : ℚ) * BIRD_X_RATIO) ((env.width : ℚ) * PIPE_WIDTH_RATIO)
    env.num_pipes.toNat
  unfold find_next
  constructor
  · intro hn
    exact (h.1 hn).2
  · intro hno
    rcases hr : (forLoop 0
        (fun i (s : Option Nat × ℚ) =>
          if (env.pipes i).x + (env.width : ℚ) * PIPE_WIDTH_RATIO > (env.width : ℚ) * BIRD_X_RATIO ∧
              (env.pipes i).x < s.2 then (some i, (env.pipes i).x)
          else s) env.num_pipes.toNat (none, 1000000000)).1 with _ | t'
    · rfl
    · obtain ⟨k1, k2, k3, _, _, _⟩ := h.2 t' hr
      exact absurd (hno t' k1 k2) (not_le.mpr k3)

theorem scan_target_or_none (env : Flappy) : (∃ t, scan_target env t) ∨ no_scan_target env := by
  rcases hr : (find_next env ((env.width : ℚ) * BIRD_X_RATIO)
      ((env.width : ℚ) * PIPE_WIDTH_RATIO)).1 with _ | t
  · exact Or.inr ((find_next_none env).mp hr)
  · exact Or.inl ⟨t, (find_next_some env t).mp hr⟩

theorem dense_shaping_rewards (e : Flappy) :
    (∀ t, scan_target e t →
      (Dense.shaping e ((e.width : ℚ) * PIPE_WIDTH_RATIO)).rewards =
        e.rewards + 0.01 + gap_bonus e t + align_bonus e t) ∧
    (no_scan_target e →
      (Dense.shaping e ((e.width : ℚ) * PIPE_WIDTH_RATIO)).rewards = e.rewards + 0.01) := by
  have hfn : find_next { e with rewards := e.rewards + SURVIVAL_BONUS }
      ((e.width : ℚ) * BIRD_X_RATIO) ((e.width : ℚ) * PIPE_WIDTH_RATIO) =
      find_next e ((e.width : ℚ) * BIRD_X_RATIO) ((e.width : ℚ) * PIPE_WIDTH_RATIO) := rfl
  constructor
  · intro t ht
    have h := (find_next_some e t).mpr ht
    unfold Dense.shaping
    simp only [hfn, h]
    unfold gap_bonus align_bonus SURVIVAL_BONUS IN_GAP_BONUS ALIGNMENT_BONUS ALIGNMENT_TOLERANCE
    have e1 : (e.pipes t).gap_height * 0.5 = (e.pipes t).gap_height / 2 := by norm_num; ring
    have z0 : (0.0 : ℚ) = 0 := by norm_num
    have z1 : (1.0 : ℚ) = 1 := by norm_num
    simp only [e1, z0, z1, ge_iff_le]
    split_ifs
    · show e.rewards + 0.01 + _ + _ = _
      ring
    · show e.rewards + 0.01 + _ = _
      ring
  · intro hno
    have h := (find_next_none e).mpr hno
    unfold Dense.shaping
    simp only [hfn, h]
    rfl

theorem dense_c_step_alive_rewards (env : Flappy) (g : Rng) (h : ¬ dies env) :
    (Dense.c_step env g).1.rewards = (Dense.shaped env g).rewards := by
  rw [dense_c_step_alive env g h]
  split_ifs
  · exact dense_finish_rewards _ _
  · have h1 := congrArg Flappy.rewards (dense_compute_observations_noObs
      { Dense.shaped env g with log :=
          { (Dense.shaped env g).log with
            episode_return := (Dense.shaped env g).log.episode_return +
              (Dense.shaped env g).rewards } })
    exact h1

theorem dense_mid_width (env : Flappy) (g : Rng) :
    (Dense.mid env g).1.width = (Dense.pflap env).width := by
  have h := congrArg Flappy.width (dense_mid_frame env g)
  have h' := congrArg Flappy.width (dense_pflap_frame env)
  exact h.trans h'.symm

theorem streak_sum_succ (s : Int) (k : Nat) :
    streak_sum s (k + 1) = streak_sum s k + (1 + 0.1 * ((s : ℚ) + (k : ℚ))) := by
  unfold streak_sum
  rw [Finset.sum_range_succ]
  norm_num

/-- The dense reward of a step that does not end by collision, term by term. -/
theorem dense_c_step_rewards_spec (env : Flappy) (g : Rng) (h : ¬ dies env) :
    (∀ t, scan_target (Dense.mid env g).1 t →
      (Dense.c_step env g).1.rewards =
        dense_base env + gap_bonus (Dense.mid env g).1 t + align_bonus (Dense.mid env g).1 t) ∧
    (no_scan_target (Dense.mid env g).1 → (Dense.c_step env g).1.rewards = dense_base env) := by
  rw [dense_c_step_alive_rewards env g h]
  unfold Dense.shaped
  rw [← dense_mid_width env g]
  have hs := dense_shaping_rewards (Dense.mid env g).1
  have hb : (Dense.mid env g).1.rewards + 0.01 = dense_base env := by
    rw [dense_mid_rewards]
    unfold dense_base FLAP_PENALTY
    ring
  refine ⟨fun t ht => ?_, fun hno => ?_⟩
  · rw [hs.1 t ht, hb]
  · rw [hs.2 hno, hb]

/-- The reward of a dense step that does not end by collision, by the outcome of
the scan for the target in the state after the pipes have moved and been
recycled: the flap penalty, the pass rewards and the survival bonus, and the
in-gap and alignment bonuses of the pipe the scan selects when it selects one.
One of the two cases always holds, and each further pipe passed adds
`1.0 + 0.1 * (score before it)` to the pass reward. -/
theorem dense_reward_by_scan (env : Flappy) (g : Rng) (h : ¬ dies env) :
    (∀ t, scan_target (Dense.mid env g).1 t →
      (Dense.c_step env g).1.rewards =
        dense_base env + gap_bonus (Dense.mid env g).1 t + align_bonus (Dense.mid env g).1 t) ∧
    (no_scan_target (Dense.mid env g).1 → (Dense.c_step env g).1.rewards = dense_base env) ∧
    ((∃ t, scan_target (Dense.mid env g).1 t) ∨ no_scan_target (Dense.mid env g).1) ∧
    (∀ (s : Int) (k : Nat),
      streak_sum s (k + 1) = streak_sum s k + (1 + 0.1 * ((s : ℚ) + (k : ℚ)))) :=
  ⟨(dense_c_step_rewards_spec env g h).1, (dense_c_step_rewards_spec env g h).2,
    scan_target_or_none _, streak_sum_succ⟩

theorem cruising_env_alive : ¬ dies cruising_env := by
  norm_num [dies, hits_bounds, hits_pipe, collides, collides_loop, physics, clampf, cruising_env,
    fresh_env, init, GRAVITY, FLAP_VEL, BIRD_RADIUS_RATIO, BIRD_X_RATIO, PIPE_WIDTH_RATIO]

set_option maxRecDepth 4000 in
theorem cruising_env_target : scan_target (Dense.mid cruising_env const_rng).1 0 := by
  norm_num [scan_target, is_target, ahead, Dense.mid, recycle, move_pipes, find_leftmost,
    find_rightmost, Dense.score_pipes, Dense.pflap, pre, forLoop, physics, clampf, cruising_env,
    fresh_env, init, GRAVITY, FLAP_VEL, BIRD_RADIUS_RATIO, BIRD_X_RATIO, PIPE_WIDTH_RATIO,
    PIPE_SPEED_RATIO, Function.update]
  intro j hj
  interval_cases j <;> norm_num

/-- At `cruising_env` the step does not end by collision, the scan selects slot
`0`, and the reward is the sum of the terms for that target. -/
theorem dense_reward_cruising :
    ¬ dies cruising_env ∧
    (Dense.c_step cruising_env const_rng).1.rewards =
      dense_base cruising_env + gap_bonus (Dense.mid cruising_env const_rng).1 0 +
        align_bonus (Dense.mid cruising_env const_rng).1 0 :=
  ⟨cruising_env_alive,
    (dense_reward_by_scan cruising_env const_rng cruising_env_alive).1 0 cruising_env_target⟩

set_option maxRecDepth 8000 in
theorem wide_env_reset :
    (Dense.c_reset (fresh_env 2100000000 512 5000) const_rng).1 = wide_env := by
  rw [dense_c_reset_eq]
  simp only [Dense.compute_observations, find_next, Dense.reset_pipes, Dense.reset_head, fresh_env,
    init, forLoop, rand, const_rng, wide_env, Function.update, clampf, BIRD_X_RATIO,
    PIPE_WIDTH_RATIO, GAP_HEIGHT_RATIO, PIPE_SPACING_RATIO, GRAVITY, FLAP_VEL, PIPE_SPEED_RATIO]
  norm_num
  funext i
  rcases Nat.lt_or_ge i 3 with h | h
  · interval_cases i <;> norm_num
  · have h0 : i ≠ 0 := by omega
    have h1 : i ≠ 1 := by omega
    have h2 : i ≠ 2 := by omega
    have h3 : ¬ i < 3 := by omega
    simp [h0, h1, h2, h3]

theorem wide_env_alive : ¬ dies wide_env := by
  norm_num [dies, hits_bounds, hits_pipe, collides, collides_loop, physics, clampf, wide_env,
    fresh_env, init, GRAVITY, FLAP_VEL, BIRD_RADIUS_RATIO, BIRD_X_RATIO, PIPE_WIDTH_RATIO]

set_option maxRecDepth 8000 in
theorem wide_env_mid (j : Nat) (hj : j < 3) :
    (Dense.mid wide_env const_rng).1.num_pipes = 3 ∧
    (Dense.mid wide_env const_rng).1.width = 2100000000 ∧
    (Dense.mid wide_env const_rng).1.bird_y = 0.5018 ∧
    ((Dense.mid wide_env const_rng).1.pipes j).x = 1037400000 + 945000000 * (j : ℚ) ∧
    ((Dense.mid wide_env const_rng).1.pipes j).gap_center_y = 0.5 ∧
    ((Dense.mid wide_env const_rng).1.pipes j).gap_height = 0.28 := by
  interval_cases j <;>
  norm_num [Dense.mid, recycle, move_pipes, find_leftmost,
    find_rightmost, Dense.score_pipes, Dense.pflap, pre, forLoop, physics, clampf, wide_env,
    fresh_env, init, GRAVITY, FLAP_VEL, BIRD_RADIUS_RATIO, BIRD_X_RATIO, PIPE_WIDTH_RATIO,
    PIPE_SPEED_RATIO, Function.update]

theorem wide_env_passed : passed_count wide_env = 0 := by
  unfold passed_count passed_upto
  rw [Finset.card_eq_zero, Finset.filter_eq_empty_iff]
  intro i hi hp
  have hi3 : i < 3 := Finset.mem_range.mp hi
  have hx : (wide_env.pipes i).x = 1050000000 + 945000000 * (i : ℚ) := by
    show (if i < 3 then (⟨1050000000 + 945000000 * (i : ℚ), 0.5, 0.28, 0⟩ : Pipe)
      else ⟨0, 0, 0, 0⟩).x = _
    rw [if_pos hi3]
  have hw : wide_env.width = 2100000000 := rfl
  have h2 := hp.2
  rw [hx, hw] at h2
  have : (0 : ℚ) ≤ (i : ℚ) := Nat.cast_nonneg i
  norm_num [ PIPE_WIDTH_RATIO, BIRD_X_RATIO] at h2
  linarith

/-- C4 fails on the code, on the first step after a reset of an environment of
width `2100000000` (`wide_env`, the no-op action): the step does not end by
collision, slot `0` holds the target pipe of C4 (minimal `x` among the pipes
with `x + pipe_width > bird_x`, after the move), and the reward is the survival
bonus `0.01` alone, not the sum with the in-gap and alignment terms of that
pipe.  The scan of the shaping block starts from `best_x = 1e9f` and the pipe
lies to the right of that value, so the scan selects nothing. -/
theorem C4_target_terms_missing :
    (Dense.c_reset (fresh_env 2100000000 512 5000) const_rng).1 = wide_env ∧
    ¬ dies wide_env ∧
    is_target (Dense.mid wide_env const_rng).1 0 ∧
    (Dense.c_step wide_env const_rng).1.rewards = 0.01 ∧
    (Dense.c_step wide_env const_rng).1.rewards = dense_base wide_env ∧
    (Dense.c_step wide_env const_rng).1.rewards ≠
      dense_base wide_env + gap_bonus (Dense.mid wide_env const_rng).1 0 +
        align_bonus (Dense.mid wide_env const_rng).1 0 := by
  obtain ⟨hn, hw, hy, hx0, hc0, hh0⟩ := wide_env_mid 0 (by norm_num)
  rw [Nat.cast_zero, mul_zero, add_zero] at hx0
  have hxj : ∀ j, j < 3 →
      ((Dense.mid wide_env const_rng).1.pipes j).x = 1037400000 + 945000000 * (j : ℚ) :=
    fun j hj => (wide_env_mid j hj).2.2.2.1
  have hno : no_scan_target (Dense.mid wide_env const_rng).1 := by
    intro j hj _
    rw [hn] at hj
    have hj3 : j < 3 := by simpa using hj
    rw [hxj j hj3]
    have : (0 : ℚ) ≤ (j : ℚ) := Nat.cast_nonneg j
    linarith
  have hrew := (dense_c_step_rewards_spec wide_env const_rng wide_env_alive).2 hno
  have hbase : dense_base wide_env = 0.01 := by
    have hp : passed_count wide_env = 0 := wide_env_passed
    unfold dense_base
    rw [hp]
    norm_num [streak_sum, wide_env, fresh_env, init]
  refine ⟨wide_env_reset, wide_env_alive, ⟨?_, ?_, ?_⟩, hrew.trans hbase, hrew, ?_⟩
  · rw [hn]; norm_num
  · unfold ahead
    rw [hw, hx0]
    norm_num [ PIPE_WIDTH_RATIO, BIRD_X_RATIO]
  · intro j hj _
    rw [hn] at hj
    have hj3 : j < 3 := by simpa using hj
    rw [hxj j hj3, hx0]
    have : (0 : ℚ) ≤ (j : ℚ) := Nat.cast_nonneg j
    linarith
  · rw [hrew]
    have hg : gap_bonus (Dense.mid wide_env const_rng).1 0 = 0.02 * (1 - 0.294) := by
      unfold gap_bonus
      rw [hy, hx0, hc0, hh0, hw]
      norm_num [clampf, BIRD_X_RATIO]
    have ha : align_bonus (Dense.mid wide_env const_rng).1 0 = 0.008 * (1 - 0.009) := by
      unfold align_bonus
      rw [hy, hc0]
      have habs : |(0.5018 : ℚ) - 0.5| = 0.0018 := by
        rw [abs_of_nonneg (by norm_num)]; norm_num
      rw [habs]
      norm_num [clampf]
    rw [hg, ha]
    intro heq
    have : (0.02 : ℚ) * (1 - 0.294) + 0.008 * (1 - 0.009) = 0 := by linarith
    norm_num at this

/-! ## The leftmost and rightmost scans -/

theorem find_leftmost_loop (env : Flappy) (k : Nat) :
    forLoop 1 (fun i l => if (env.pipes i).x < (env.pipes l).x then i else l) k 0 ≤ k ∧
    (∀ j, j ≤ k →
      (env.pipes (forLoop 1 (fun i l => if (env.pipes i).x < (env.pipes l).x then i else l) k 0)).x ≤
        (env.pipes j).x) ∧
    (∀ j, j < forLoop 1 (fun i l => if (env.pipes i).x < (env.pipes l).x then i else l) k 0 →
      (env.pipes (forLoop 1 (fun i l => if (env.pipes i).x < (env.pipes l).x then i else l) k 0)).x <
        (env.pipes j).x) := by
  induction k with
  | zero =>
    refine ⟨le_refl _, fun j hj => ?_, fun j hj => absurd hj (Nat.not_lt_zero j)⟩
    have : j = 0 := Nat.le_zero.mp hj
    subst this
    exact le_refl _
  | succ k ih =>
    simp only [forLoop]
    generalize forLoop 1 (fun i l => if (env.pipes i).x < (env.pipes l).x then i else l) k 0 = l
      at ih ⊢
    obtain ⟨h1, h2, h3⟩ := ih
    by_cases hc : (env.pipes (1 + k)).x < (env.pipes l).x
    · rw [if_pos hc]
      refine ⟨by omega, fun j hj => ?_, fun j hj => ?_⟩
      · rcases Nat.lt_or_ge j (1 + k) with hlt | hge
        · exact le_of_lt (lt_of_lt_of_le hc (h2 j (by omega)))
        · have : j = 1 + k := by omega
          rw [this]
      · exact lt_of_lt_of_le hc (h2 j (by omega))
    · rw [if_neg hc]
      refine ⟨by omega, fun j hj => ?_, h3⟩
      rcases Nat.lt_or_ge j (1 + k) with hlt | hge
      · exact h2 j (by omega)
      · have : j = 1 + k := by omega
        rw [this]
        exact not_lt.mp hc

/-- The slot `find_leftmost` returns is the first active slot of minimal `x`. -/
theorem find_leftmost_spec (env : Flappy) (hn : 0 < env.num_pipes.toNat) :
    find_leftmost env < env.num_pipes.toNat ∧
    (∀ j, j < env.num_pipes.toNat → (env.pipes (find_leftmost env)).x ≤ (env.pipes j).x) ∧
    (∀ j, j < find_leftmost env → (env.pipes (find_leftmost env)).x < (env.pipes j).x) := by
  obtain ⟨h1, h2, h3⟩ := find_leftmost_loop env (env.num_pipes.toNat - 1)
  unfold find_leftmost
  exact ⟨by omega, fun j hj => h2 j (by omega), h3⟩

theorem find_rightmost_loop (env : Flappy) (k : Nat) :
    (∃ j, j ≤ k ∧
      (env.pipes j).x =
        forLoop 1 (fun i r => if (env.pipes i).x > r then (env.pipes i).x else r) k (env.pipes 0).x) ∧
    (∀ j, j ≤ k →
      (env.pipes j).x ≤
        forLoop 1 (fun i r => if (env.pipes i).x > r then (env.pipes i).x else r) k (env.pipes 0).x) := by
  induction k with
  | zero =>
    refine ⟨⟨0, le_refl _, rfl⟩, fun j hj => ?_⟩
    have : j = 0 := Nat.le_zero.mp hj
    subst this
    exact le_refl _
  | succ k ih =>
    simp only [forLoop]
    generalize forLoop 1 (fun i r => if (env.pipes i).x > r then (env.pipes i).x else r) k
      (env.pipes 0).x = r at ih ⊢
    obtain ⟨⟨j0, hj0, hj0e⟩, h2⟩ := ih
    by_cases hc : (env.pipes (1 + k)).x > r
    · rw [if_pos hc]
      refine ⟨⟨1 + k, by omega, rfl⟩, fun j hj => ?_⟩
      rcases Nat.lt_or_ge j (1 + k) with hlt | hge
      · exact le_of_lt (lt_of_le_of_lt (h2 j (by omega)) hc)
      · have : j = 1 + k := by omega
        rw [this]
    · rw [if_neg hc]
      refine ⟨⟨j0, by omega, hj0e⟩, fun j hj => ?_⟩
      rcases Nat.lt_or_ge j (1 + k) with hlt | hge
      · exact h2 j (by omega)
      · have : j = 1 + k := by omega
        rw [this]
        exact not_lt.mp hc

/-- The value `find_rightmost` returns is the maximal `x` over the active slots. -/
theorem find_rightmost_spec (env : Flappy) (hn : 0 < env.num_pipes.toNat) :
    (∃ j, j < env.num_pipes.toNat ∧ (env.pipes j).x = find_rightmost env) ∧
    (∀ j, j < env.num_pipes.toNat → (env.pipes j).x ≤ find_rightmost env) := by
  obtain ⟨⟨j0, hj0, hj0e⟩, h2⟩ := find_rightmost_loop env (env.num_pipes.toNat - 1)
  unfold find_rightmost
  exact ⟨⟨j0, by omega, hj0e⟩, fun j hj => h2 j (by omega)⟩

/-! ## Scoring, moving and recycling, slot by slot -/

theorem leftmost_slot_unique (env : Flappy) (l l' : Nat) (h : leftmost_slot env l)
    (h' : leftmost_slot env l') : l = l' := by
  obtain ⟨h1, h2, h3⟩ := h
  obtain ⟨k1, k2, k3⟩ := h'
  rcases Nat.lt_trichotomy l l' with hlt | heq | hgt
  · exact absurd (k3 l hlt) (not_lt.mpr (h2 l' k1))
  · exact heq
  · exact absurd (h3 l' hgt) (not_lt.mpr (k2 l h1))

theorem rightmost_x_unique (env : Flappy) (m m' : ℚ) (h : rightmost_x env m)
    (h' : rightmost_x env m') : m = m' := by
  obtain ⟨⟨j, hj, hje⟩, h2⟩ := h
  obtain ⟨⟨j', hj', hje'⟩, k2⟩ := h'
  exact le_antisymm (hje ▸ k2 j hj) (hje' ▸ h2 j' hj')

/-- What the recycle block does to the pipes, for a `spawn` that rewrites the
gap and the scored flag of one slot. -/
theorem recycle_pipes_spec (spawn : Flappy → Nat → Rng → Flappy × Rng) (sample : ℚ → Rng → ℚ)
    (hs : ∀ e i g, (spawn e i g).1.pipes =
      Function.update e.pipes i
        { e.pipes i with
          gap_center_y := sample e.curriculum_difficulty g
          gap_height := e.gap_height
          scored := 0 })
    (env : Flappy) (pw : ℚ) (g : Rng) :
    (((move_pipes env).pipes (find_leftmost (move_pipes env))).x + pw < 0 →
      (recycle spawn env pw g).1.pipes =
        Function.update (move_pipes env).pipes (find_leftmost (move_pipes env))
          { x := find_rightmost (move_pipes env) + (env.width : ℚ) * env.pipe_spacing
            gap_center_y := sample env.curriculum_difficulty g
            gap_height := env.gap_height
            scored := 0 }) ∧
    (¬ ((move_pipes env).pipes (find_leftmost (move_pipes env))).x + pw < 0 →
      recycle spawn env pw g = (move_pipes env, g)) := by
  have hf := move_pipes_noPipes env
  have hw : (move_pipes env).width = env.width := by
    have h := congrArg Flappy.width hf; exact h
  have hp : (move_pipes env).pipe_spacing = env.pipe_spacing := by
    have h := congrArg Flappy.pipe_spacing hf; exact h
  have hg : (move_pipes env).gap_height = env.gap_height := by
    have h := congrArg Flappy.gap_height hf; exact h
  have hd : (move_pipes env).curriculum_difficulty = env.curriculum_difficulty := by
    have h := congrArg Flappy.curriculum_difficulty hf; exact h
  constructor
  · intro h
    unfold recycle
    simp only [if_pos h]
    rw [hs]
    simp only [hw, hp, hg, hd]
    funext j
    by_cases hj : j = find_leftmost (move_pipes env)
    · subst hj
      simp
    · simp [Function.update_noteq hj]
  · intro h
    unfold recycle
    simp only [if_neg h]

theorem sparse_spawn_pipes (e : Flappy) (i : Nat) (g : Rng) :
    (Sparse.spawn_pipe e i g).1.pipes =
      Function.update e.pipes i
        { e.pipes i with
          gap_center_y := Sparse.fresh_gap e.curriculum_difficulty g
          gap_height := e.gap_height
          scored := 0 } := rfl

theorem dense_spawn_pipes (e : Flappy) (i : Nat) (g : Rng) :
    (Dense.spawn_pipe e i g).1.pipes =
      Function.update e.pipes i
        { e.pipes i with
          gap_center_y := Dense.fresh_gap e.curriculum_difficulty g
          gap_height := e.gap_height
          scored := 0 } := rfl

/-- After the scoring loop and the move, slot `j` holds `stepped_pipe env j`. -/
theorem moved_pipes_eq (env sp : Flappy) (hf : sp.frame = (pre env).frame)
    (hp : ∀ i, sp.pipes i =
      if i < env.num_pipes.toNat ∧ passed env i then { env.pipes i with scored := 1 }
      else env.pipes i) :
    (move_pipes sp).pipes = stepped_pipe env := by
  have hn : sp.num_pipes = env.num_pipes := by
    have h := congrArg Flappy.num_pipes hf; exact h
  have hs : sp.pipe_speed = env.pipe_speed := by
    have h := congrArg Flappy.pipe_speed hf; exact h
  funext j
  rw [move_pipes_pipes, hn, hs, hp]
  unfold stepped_pipe
  by_cases hj : j < env.num_pipes.toNat
  · by_cases hpj : passed env j
    · simp [hj, hpj]
    · simp [hj, hpj]
  · simp [hj]

/-- The pipes after scoring, moving and recycling, in terms of the state before
the step: the first slot of minimal `x` is respawned past the rightmost pipe if
its right edge is left of the screen, and no slot is respawned otherwise. -/
theorem mid_pipes_spec (spawn : Flappy → Nat → Rng → Flappy × Rng) (sample : ℚ → Rng → ℚ)
    (hs : ∀ e i g, (spawn e i g).1.pipes =
      Function.update e.pipes i
        { e.pipes i with
          gap_center_y := sample e.curriculum_difficulty g
          gap_height := e.gap_height
          scored := 0 })
    (env sp : Flappy) (g : Rng) (hf : sp.frame = (pre env).frame)
    (hp : ∀ i, sp.pipes i =
      if i < env.num_pipes.toNat ∧ passed env i then { env.pipes i with scored := 1 }
      else env.pipes i)
    (hn : 0 < env.num_pipes.toNat) :
    ∃ l m, leftmost_slot env l ∧ rightmost_x env m ∧
      ((stepped_pipe env l).x + (env.width : ℚ) * PIPE_WIDTH_RATIO < 0 →
        (recycle spawn sp ((env.width : ℚ) * PIPE_WIDTH_RATIO) g).1.pipes =
          Function.update (stepped_pipe env) l
            { x := m + (env.width : ℚ) * env.pipe_spacing
              gap_center_y := sample env.curriculum_difficulty g
              gap_height := env.gap_height
              scored := 0 }) ∧
      (¬ (stepped_pipe env l).x + (env.width : ℚ) * PIPE_WIDTH_RATIO < 0 →
        (recycle spawn sp ((env.width : ℚ) * PIPE_WIDTH_RATIO) g).1.pipes = stepped_pipe env ∧
        (recycle spawn sp ((env.width : ℚ) * PIPE_WIDTH_RATIO) g).2 = g) := by
  have hmp := moved_pipes_eq env sp hf hp
  have hnum : (move_pipes sp).num_pipes = env.num_pipes := by
    have h := congrArg Flappy.num_pipes ((congrArg Flappy.frame (move_pipes_noPipes sp)).trans hf)
    exact h
  have hw : sp.width = env.width := by
    have h := congrArg Flappy.width hf; exact h
  have hps : sp.pipe_spacing = env.pipe_spacing := by
    have h := congrArg Flappy.pipe_spacing hf; exact h
  have hgh : sp.gap_height = env.gap_height := by
    have h := congrArg Flappy.gap_height hf; exact h
  have hcd : sp.curriculum_difficulty = env.curriculum_difficulty := by
    have h := congrArg Flappy.curriculum_difficulty hf; exact h
  have hl := find_leftmost_spec (move_pipes sp) (by rw [hnum]; exact hn)
  have hr := find_rightmost_spec (move_pipes sp) (by rw [hnum]; exact hn)
  rw [hnum, hmp] at hl hr
  have hrec := recycle_pipes_spec spawn sample hs sp ((env.width : ℚ) * PIPE_WIDTH_RATIO) g
  rw [hmp, hw, hps, hgh, hcd] at hrec
  refine ⟨find_leftmost (move_pipes sp), find_rightmost (move_pipes sp), hl, hr, hrec.1, fun h => ?_⟩
  have h2 := hrec.2 h
  rw [h2]
  exact ⟨hmp, rfl⟩

/-! ## Truncated and continuing steps -/

theorem core_of_frame (a b : Flappy) (h : a.frame = b.frame) : a.core = b.core := by
  have h' := congrArg Flappy.core h
  exact h'

theorem core_of_noObs (a b : Flappy) (h : a.noObs = b.noObs) : a.core = b.core := by
  have h' := congrArg Flappy.core h
  exact h'

theorem sparse_mid_step_count (env : Flappy) (g : Rng) :
    (Sparse.mid env g).1.step_count = env.step_count + 1 ∧
      (Sparse.mid env g).1.max_steps = env.max_steps := by
  have h := sparse_mid_frame env g
  exact ⟨by have h1 := congrArg Flappy.step_count h; exact h1,
    by have h1 := congrArg Flappy.max_steps h; exact h1⟩

theorem dense_shaped_step_count (env : Flappy) (g : Rng) :
    (Dense.shaped env g).step_count = env.step_count + 1 ∧
      (Dense.shaped env g).max_steps = env.max_steps := by
  have h := dense_shaped_frame env g
  exact ⟨by have h1 := congrArg Flappy.step_count h; exact h1,
    by have h1 := congrArg Flappy.max_steps h; exact h1⟩

/-- A step that does not end by collision and reaches the horizon is the
finalize-and-reset sequence applied to the state after scoring and recycling. -/
theorem sparse_c_step_trunc (env : Flappy) (g : Rng) (h : ¬ dies env)
    (ht : env.max_steps ≤ env.step_count + 1) :
    Sparse.c_step env g = Sparse.finish (Sparse.mid env g).1 (Sparse.mid env g).2 := by
  rw [sparse_c_step_alive env g h, (sparse_mid_step_count env g).1, (sparse_mid_step_count env g).2,
    if_pos ht]

theorem dense_c_step_trunc (env : Flappy) (g : Rng) (h : ¬ dies env)
    (ht : env.max_steps ≤ env.step_count + 1) :
    Dense.c_step env g = Dense.finish (Dense.shaped env g) (Dense.mid env g).2 := by
  rw [dense_c_step_alive env g h, (dense_shaped_step_count env g).1,
    (dense_shaped_step_count env g).2, if_pos ht]

/-- A step that neither ends by collision nor reaches the horizon. -/
theorem sparse_c_step_cont (env : Flappy) (g : Rng) (h : ¬ dies env)
    (ht : env.step_count + 1 < env.max_steps) :
    (Sparse.c_step env g).1.core = (pre env).core ∧
    (Sparse.c_step env g).1.pipes = (Sparse.mid env g).1.pipes ∧
    (Sparse.c_step env g).1.score = env.score + (passed_count env : Int) ∧
    (Sparse.c_step env g).1.log =
      { env.log with episode_return := env.log.episode_return + (passed_count env : ℚ) } ∧
    (Sparse.c_step env g).2 = (Sparse.mid env g).2 := by
  have hlog : (Sparse.mid env g).1.log = env.log := by
    have h1 := congrArg Flappy.log (sparse_mid_frame env g); exact h1
  rw [sparse_c_step_alive env g h, (sparse_mid_step_count env g).1,
    (sparse_mid_step_count env g).2, if_neg (not_le.mpr ht)]
  have ho := sparse_compute_observations_noObs
    { (Sparse.mid env g).1 with log :=
        { (Sparse.mid env g).1.log with
          episode_return := (Sparse.mid env g).1.log.episode_return +
            (Sparse.mid env g).1.rewards } }
  refine ⟨?_, ?_, ?_, ?_, rfl⟩
  · exact (core_of_noObs _ _ ho).trans
      (core_of_frame (Sparse.mid env g).1 (pre env) (sparse_mid_frame env g))
  · have h1 := congrArg Flappy.pipes ho; exact h1
  · have h1 := congrArg Flappy.score ho
    exact h1.trans (sparse_mid_score env g)
  · have h1 := congrArg Flappy.log ho
    refine h1.trans ?_
    show ({ (Sparse.mid env g).1.log with
      episode_return := (Sparse.mid env g).1.log.episode_return +
        (Sparse.mid env g).1.rewards } : Log) = _
    rw [hlog, sparse_mid_rewards]

theorem dense_c_step_cont (env : Flappy) (g : Rng) (h : ¬ dies env)
    (ht : env.step_count + 1 < env.max_steps) :
    (Dense.c_step env g).1.core = (pre env).core ∧
    (Dense.c_step env g).1.pipes = (Dense.mid env g).1.pipes ∧
    (Dense.c_step env g).1.score = env.score + (passed_count env : Int) ∧
    (Dense.c_step env g).2 = (Dense.mid env g).2 := by
  rw [dense_c_step_alive env g h, (dense_shaped_step_count env g).1,
    (dense_shaped_step_count env g).2, if_neg (not_le.mpr ht)]
  have ho := dense_compute_observations_noObs
    { Dense.shaped env g with log :=
        { (Dense.shaped env g).log with
          episode_return := (Dense.shaped env g).log.episode_return +
            (Dense.shaped env g).rewards } }
  refine ⟨?_, ?_, ?_, rfl⟩
  · exact (core_of_noObs _ _ ho).trans
      (core_of_frame (Dense.shaped env g) (pre env) (dense_shaped_frame env g))
  · have h1 := congrArg Flappy.pipes ho
    exact h1.trans (dense_shaping_frame _ _).2.1
  · have h1 := congrArg Flappy.score ho
    exact (h1.trans (dense_shaping_frame _ _).2.2).trans (dense_mid_score env g)

/-! ## Runs of no-op steps -/

theorem sparse_noop_run_succ (s : Flappy × Rng) (n : Nat) :
    Sparse.noop_run s (n + 1) = Sparse.step_with (Sparse.noop_run s n) 0 := by
  unfold Sparse.noop_run Sparse.run
  rw [List.replicate_succ', List.foldl_append]
  rfl

theorem clampf_id (v lo hi : ℚ) (h0 : lo ≤ v) (h1 : v ≤ hi) : clampf v lo hi = v := by
  unfold clampf
  rw [if_neg (not_lt.mpr h0), if_neg (not_lt.mpr h1)]

theorem passed_count_zero (env : Flappy)
    (h : ∀ i, i < env.num_pipes.toNat → ¬ passed env i) : passed_count env = 0 := by
  unfold passed_count passed_upto
  rw [Finset.card_eq_zero, Finset.filter_eq_empty_iff]
  intro i hi
  exact h i (Finset.mem_range.mp hi)

/-- The state the finalize-and-reset sequence leaves in the sparse variant. -/
theorem sparse_finish_spec (e : Flappy) (g : Rng) :
    (∃ e', Sparse.finish e g = Sparse.c_reset e' e.curriculum_difficulty g) ∧
    (Sparse.finish e g).1.bird_y = 0.5 ∧
    (Sparse.finish e g).1.bird_vy = 0 ∧
    (Sparse.finish e g).1.score = 0 ∧
    (Sparse.finish e g).1.step_count = 0 ∧
    (Sparse.finish e g).1.num_pipes = 3 ∧
    (Sparse.finish e g).1.config = e.config ∧
    (∀ i, i < 3 →
      ((Sparse.finish e g).1.pipes i).x =
        (e.width : ℚ) * 0.5 + (i : ℚ) * (e.width : ℚ) * e.pipe_spacing ∧
      ((Sparse.finish e g).1.pipes i).scored = 0 ∧
      ((Sparse.finish e g).1.pipes i).gap_height = e.gap_height) := by
  have hf := sparse_finish_frame e g
  refine ⟨⟨_, rfl⟩, ?_, ?_, ?_, ?_, ?_, ?_, ?_⟩
  · have h := congrArg Flappy.bird_y hf; exact h
  · have h := congrArg Flappy.bird_vy hf
    refine h.trans ?_
    show (0.0 : ℚ) = 0
    norm_num
  · have h := congrArg Flappy.score hf; exact h
  · have h := congrArg Flappy.step_count hf; exact h
  · have h := congrArg Flappy.num_pipes hf; exact h
  · have h := congrArg Flappy.config hf; exact h
  · exact (sparse_c_reset_pipes _ _ g).1

/-- The state the finalize-and-reset sequence leaves in the dense variant. -/
theorem dense_finish_spec (e : Flappy) (g : Rng) :
    (∃ e', Dense.finish e g = Dense.c_reset e' g) ∧
    (Dense.finish e g).1.bird_y = 0.5 ∧
    (Dense.finish e g).1.bird_vy = 0 ∧
    (Dense.finish e g).1.score = 0 ∧
    (Dense.finish e g).1.step_count = 0 ∧
    (Dense.finish e g).1.num_pipes = 3 ∧
    (Dense.finish e g).1.config = e.config ∧
    (∀ i, i < 3 →
      ((Dense.finish e g).1.pipes i).x =
        (e.width : ℚ) * 0.5 + (i : ℚ) * (e.width : ℚ) * e.pipe_spacing ∧
      ((Dense.finish e g).1.pipes i).scored = 0 ∧
      ((Dense.finish e g).1.pipes i).gap_height = e.gap_height) := by
  have hf := dense_finish_frame e g
  refine ⟨⟨_, rfl⟩, ?_, ?_, ?_, ?_, ?_, ?_, ?_⟩
  · have h := congrArg Flappy.bird_y hf; exact h
  · have h := congrArg Flappy.bird_vy hf
    refine h.trans ?_
    show (0.0 : ℚ) = 0
    norm_num
  · have h := congrArg Flappy.score hf; exact h
  · have h := congrArg Flappy.step_count hf; exact h
  · have h := congrArg Flappy.num_pipes hf; exact h
  · have h := congrArg Flappy.config hf; exact h
  · exact (dense_c_reset_pipes _ g).1

/-- Along a run of no-op steps from a reset in which no step ends by collision,
the step counter counts the calls and no call before the horizon is terminal. -/
theorem sparse_noop_inv (env : Flappy) (d : ℚ) (g : Rng) (N : Nat)
    (hmax : env.max_steps = (N : Int))
    (halive : ∀ k, k < N →
      ¬ dies { (Sparse.noop_run (Sparse.c_reset env d g) k).1 with actions := 0 }) :
    ∀ k, k < N →
      (Sparse.noop_run (Sparse.c_reset env d g) k).1.step_count = (k : Int) ∧
      (Sparse.noop_run (Sparse.c_reset env d g) k).1.max_steps = (N : Int) ∧
      (Sparse.noop_run (Sparse.c_reset env d g) k).1.curriculum_difficulty = d ∧
      (0 < k → (Sparse.noop_run (Sparse.c_reset env d g) k).1.terminals = 0) := by
  intro k
  induction k with
  | zero =>
    intro _
    have hf := sparse_c_reset_frame env d g
    refine ⟨?_, ?_, ?_, fun h => absurd h (Nat.lt_irrefl 0)⟩
    · have h := congrArg Flappy.step_count hf; exact h
    · have h := congrArg Flappy.max_steps hf; exact h.trans hmax
    · have h := congrArg Flappy.curriculum_difficulty hf; exact h
  | succ k ih =>
    intro hk
    obtain ⟨h1, h2, h3, _⟩ := ih (Nat.lt_of_succ_lt hk)
    have ha := halive k (Nat.lt_of_succ_lt hk)
    have ht : ({ (Sparse.noop_run (Sparse.c_reset env d g) k).1 with actions := 0 } : Flappy).step_count
        + 1 < ({ (Sparse.noop_run (Sparse.c_reset env d g) k).1 with actions := 0 } : Flappy).max_steps := by
      show (Sparse.noop_run (Sparse.c_reset env d g) k).1.step_count + 1 <
        (Sparse.noop_run (Sparse.c_reset env d g) k).1.max_steps
      rw [h1, h2]
      exact_mod_cast hk
    have hc := (sparse_c_step_cont _ (Sparse.noop_run (Sparse.c_reset env d g) k).2 ha ht).1
    rw [sparse_noop_run_succ]
    refine ⟨?_, ?_, ?_, fun _ => ?_⟩
    · have h := congrArg Flappy.step_count hc
      have h' : (Sparse.step_with (Sparse.noop_run (Sparse.c_reset env d g) k) 0).1.step_count =
        (Sparse.noop_run (Sparse.c_reset env d g) k).1.step_count + 1 := h
      rw [h', h1]
      push_cast; ring
    · have h := congrArg Flappy.max_steps hc
      have h' : (Sparse.step_with (Sparse.noop_run (Sparse.c_reset env d g) k) 0).1.max_steps =
        (Sparse.noop_run (Sparse.c_reset env d g) k).1.max_steps := h
      rw [h', h2]
    · have h := congrArg Flappy.curriculum_difficulty hc
      have h' : (Sparse.step_with (Sparse.noop_run (Sparse.c_reset env d g) k) 0).1.curriculum_difficulty
        = (Sparse.noop_run (Sparse.c_reset env d g) k).1.curriculum_difficulty := h
      rw [h', h3]
    · have h := congrArg Flappy.terminals hc
      exact h

/-- C5, amended: start from a freshly reset sparse environment with horizon
`max_steps = N > 0` and call `c_step` with the no-op action; if none of the
first `N` calls ends by collision, then no call before the `N`-th sets the
terminal flag, the `N`-th call sets it at `step_count == max_steps` (logged as
`episode_length`), its reward is the number of pipes passed and not the death
penalty `-1`, and it leaves a freshly reset episode (`step_count = 0`), so that
the next call runs with `step_count == 1`. -/
theorem C5_truncation_at_horizon (env : Flappy) (d : ℚ) (g : Rng) (N : Nat) (hN : 0 < N)
    (hmax : env.max_steps = (N : Int))
    (halive : ∀ k, k < N →
      ¬ dies { (Sparse.noop_run (Sparse.c_reset env d g) k).1 with actions := 0 }) :
    (∀ k, 0 < k → k < N → (Sparse.noop_run (Sparse.c_reset env d g) k).1.terminals = 0) ∧
    (Sparse.noop_run (Sparse.c_reset env d g) N).1.terminals = 1 ∧
    (Sparse.noop_run (Sparse.c_reset env d g) N).1.log.episode_length = (N : ℚ) ∧
    (Sparse.noop_run (Sparse.c_reset env d g) N).1.rewards =
      (passed_count { (Sparse.noop_run (Sparse.c_reset env d g) (N - 1)).1 with actions := 0 } : ℚ) ∧
    (Sparse.noop_run (Sparse.c_reset env d g) N).1.rewards ≠ -1 ∧
    (∃ e' g', Sparse.noop_run (Sparse.c_reset env d g) N = Sparse.c_reset e' d g') ∧
    (Sparse.noop_run (Sparse.c_reset env d g) N).1.step_count = 0 ∧
    (pre { (Sparse.noop_run (Sparse.c_reset env d g) N).1 with actions := 0 }).step_count = 1 := by
  have hinv := sparse_noop_inv env d g N hmax halive
  obtain ⟨M, rfl⟩ : ∃ M, N = M + 1 := ⟨N - 1, by omega⟩
  obtain ⟨h1, h2, h3, _⟩ := hinv M (Nat.lt_succ_self M)
  have ha := halive M (Nat.lt_succ_self M)
  have ht : ({ (Sparse.noop_run (Sparse.c_reset env d g) M).1 with actions := 0 } : Flappy).max_steps ≤
      ({ (Sparse.noop_run (Sparse.c_reset env d g) M).1 with actions := 0 } : Flappy).step_count + 1 := by
    show (Sparse.noop_run (Sparse.c_reset env d g) M).1.max_steps ≤
      (Sparse.noop_run (Sparse.c_reset env d g) M).1.step_count + 1
    rw [h1, h2]
    push_cast
    exact le_refl _
  have hstep := sparse_c_step_trunc _ (Sparse.noop_run (Sparse.c_reset env d g) M).2 ha ht
  have hrun : Sparse.noop_run (Sparse.c_reset env d g) (M + 1) =
      Sparse.finish
        (Sparse.mid { (Sparse.noop_run (Sparse.c_reset env d g) M).1 with actions := 0 }
          (Sparse.noop_run (Sparse.c_reset env d g) M).2).1
        (Sparse.mid { (Sparse.noop_run (Sparse.c_reset env d g) M).1 with actions := 0 }
          (Sparse.noop_run (Sparse.c_reset env d g) M).2).2 := by
    rw [sparse_noop_run_succ]
    exact hstep
  have hsc := (sparse_mid_step_count { (Sparse.noop_run (Sparse.c_reset env d g) M).1 with actions := 0 }
    (Sparse.noop_run (Sparse.c_reset env d g) M).2).1
  have hcd : (Sparse.mid { (Sparse.noop_run (Sparse.c_reset env d g) M).1 with actions := 0 }
      (Sparse.noop_run (Sparse.c_reset env d g) M).2).1.curriculum_difficulty = d := by
    have h := congrArg Flappy.curriculum_difficulty
      (sparse_mid_frame { (Sparse.noop_run (Sparse.c_reset env d g) M).1 with actions := 0 }
        (Sparse.noop_run (Sparse.c_reset env d g) M).2)
    exact h.trans h3
  have hrw : (Sparse.noop_run (Sparse.c_reset env d g) (M + 1)).1.rewards =
      (passed_count { (Sparse.noop_run (Sparse.c_reset env d g) M).1 with actions := 0 } : ℚ) := by
    rw [hrun, sparse_finish_rewards, sparse_mid_rewards]
  obtain ⟨⟨e', he'⟩, _, _, _, hs0, _, _, _⟩ := sparse_finish_spec
    (Sparse.mid { (Sparse.noop_run (Sparse.c_reset env d g) M).1 with actions := 0 }
      (Sparse.noop_run (Sparse.c_reset env d g) M).2).1
    (Sparse.mid { (Sparse.noop_run (Sparse.c_reset env d g) M).1 with actions := 0 }
      (Sparse.noop_run (Sparse.c_reset env d g) M).2).2
  rw [hcd] at he'
  refine ⟨fun k hk0 hk => (hinv k hk).2.2.2 hk0, ?_, ?_, ?_, ?_, ⟨e', _, hrun.trans he'⟩, ?_, ?_⟩
  · rw [hrun]; exact sparse_finish_terminals _ _
  · rw [hrun, sparse_finish_log]
    show ((Sparse.mid _ _).1.step_count : ℚ) = _
    rw [hsc]
    show (((Sparse.noop_run (Sparse.c_reset env d g) M).1.step_count + 1 : Int) : ℚ) = _
    rw [h1]
    push_cast; ring
  · rw [hrw]; simp
  · rw [hrw]
    intro h
    have h0 : (0 : ℚ) ≤ (passed_count
      { (Sparse.noop_run (Sparse.c_reset env d g) M).1 with actions := 0 } : ℚ) := Nat.cast_nonneg _
    rw [h] at h0
    norm_num at h0
  · rw [hrun]; exact hs0
  · show (Sparse.noop_run (Sparse.c_reset env d g) (M + 1)).1.step_count + 1 = 1
    rw [hrun, hs0]
    norm_num

theorem sparse_mid_pipes (env : Flappy) (g : Rng) (hn : 0 < env.num_pipes.toNat) :
    ∃ l m, leftmost_slot env l ∧ rightmost_x env m ∧
      ((stepped_pipe env l).x + (env.width : ℚ) * PIPE_WIDTH_RATIO < 0 →
        (Sparse.mid env g).1.pipes =
          Function.update (stepped_pipe env) l
            { x := m + (env.width : ℚ) * env.pipe_spacing
              gap_center_y := Sparse.fresh_gap env.curriculum_difficulty g
              gap_height := env.gap_height
              scored := 0 }) ∧
      (¬ (stepped_pipe env l).x + (env.width : ℚ) * PIPE_WIDTH_RATIO < 0 →
        (Sparse.mid env g).1.pipes = stepped_pipe env ∧ (Sparse.mid env g).2 = g) :=
  mid_pipes_spec Sparse.spawn_pipe Sparse.fresh_gap sparse_spawn_pipes env
    (Sparse.score_pipes (pre env) ((env.width : ℚ) * PIPE_WIDTH_RATIO)
      ((env.width : ℚ) * BIRD_X_RATIO)) g
    (sparse_score_pipes_spec (pre env)).1 (sparse_score_pipes_spec (pre env)).2.2.2 hn

theorem dense_mid_pipes (env : Flappy) (g : Rng) (hn : 0 < env.num_pipes.toNat) :
    ∃ l m, leftmost_slot env l ∧ rightmost_x env m ∧
      ((stepped_pipe env l).x + (env.width : ℚ) * PIPE_WIDTH_RATIO < 0 →
        (Dense.mid env g).1.pipes =
          Function.update (stepped_pipe env) l
            { x := m + (env.width : ℚ) * env.pipe_spacing
              gap_center_y := Dense.fresh_gap env.curriculum_difficulty g
              gap_height := env.gap_height
              scored := 0 }) ∧
      (¬ (stepped_pipe env l).x + (env.width : ℚ) * PIPE_WIDTH_RATIO < 0 →
        (Dense.mid env g).1.pipes = stepped_pipe env ∧ (Dense.mid env g).2 = g) := by
  have hsp := dense_score_pipes_spec (Dense.pflap env)
  have hp : ∀ i, (Dense.score_pipes (Dense.pflap env)
      (((Dense.pflap env).width : ℚ) * PIPE_WIDTH_RATIO)
      (((Dense.pflap env).width : ℚ) * BIRD_X_RATIO)).pipes i =
      if i < env.num_pipes.toNat ∧ passed env i then { env.pipes i with scored := 1 }
      else env.pipes i := by
    intro i
    rw [hsp.2.2.2 i, dense_pflap_pipes, dense_pflap_num_pipes]
    have hpi := passed_congr (Dense.pflap env) env (dense_pflap_pipes env) (dense_pflap_width env) i
    simp only [hpi]
  have h := mid_pipes_spec Dense.spawn_pipe Dense.fresh_gap dense_spawn_pipes env
    (Dense.score_pipes (Dense.pflap env) (((Dense.pflap env).width : ℚ) * PIPE_WIDTH_RATIO)
      (((Dense.pflap env).width : ℚ) * BIRD_X_RATIO)) g
    (hsp.1.trans (dense_pflap_frame env)) hp hn
  unfold Dense.mid
  rw [dense_pflap_width] at h ⊢
  exact h

theorem collides_loop_clear (env : Flappy) (bx byy br pw : ℚ) :
    ∀ k i, (∀ j, i ≤ j → j < i + k → (env.pipes j).x > bx + br) →
      collides_loop env bx byy br pw k i = false
  | 0, _, _ => rfl
  | k + 1, i, h => by
    have hi : (env.pipes i).x > bx + br := h i (le_refl i) (by omega)
    have hrec := collides_loop_clear env bx byy br pw k (i + 1)
      (fun j h1 h2 => h j (by omega) (by omega))
    simp only [collides_loop, hi, or_true, if_true, hrec]

/-! ## Free fall in a 512 by 512 environment -/

theorem fall_physics (M : Int) (n : Nat) (e : Flappy) (h : fall_inv M n e) (hn : n ≤ 22) :
    (physics { e with actions := 0 }).bird_vy = 0.0018 * ((n : ℚ) + 1) ∧
    (physics { e with actions := 0 }).bird_y =
      0.5 + 0.0018 * (((n : ℚ) + 1) * ((n : ℚ) + 2) / 2) := by
  obtain ⟨_, _, _, hg, _, _, _, hvy, hy, _⟩ := h
  have hq : (n : ℚ) ≤ 22 := by exact_mod_cast hn
  have h0 : (0 : ℚ) ≤ (n : ℚ) := Nat.cast_nonneg n
  have hv : (physics { e with actions := 0 }).bird_vy = e.bird_vy + e.gravity := by
    unfold physics
    simp
  have hyy : (physics { e with actions := 0 }).bird_y =
      clampf (e.bird_y + (e.bird_vy + e.gravity)) 0 1 := by
    unfold physics
    simp only [zero_ne_one, if_false]
    norm_num
  rw [hv, hyy, hvy, hy, hg]
  refine ⟨by ring, ?_⟩
  rw [clampf_id _ _ _ (by nlinarith) (by nlinarith)]
  ring

theorem fall_clear (M : Int) (n : Nat) (e : Flappy) (h : fall_inv M n e) (hn : n ≤ 22) :
    hits_pipe (physics { e with actions := 0 }) = false := by
  obtain ⟨hw, hh, _, _, _, hnp, _, _, _, hp⟩ := h
  have hq : (n : ℚ) ≤ 22 := by exact_mod_cast hn
  unfold hits_pipe collides
  apply collides_loop_clear
  intro j _ hj
  have hnp' : (physics { e with actions := 0 }).num_pipes.toNat = 3 := by
    show e.num_pipes.toNat = 3
    rw [hnp]; rfl
  rw [hnp'] at hj
  have hj3 : j < 3 := by omega
  have hx : ((physics { e with actions := 0 }).pipes j).x =
      256 + 230.4 * (j : ℚ) - 3.072 * (n : ℚ) := (hp j hj3).1
  have hw' : (physics { e with actions := 0 }).width = 512 := hw
  have hh' : (physics { e with actions := 0 }).height = 512 := hh
  rw [hx, hw', hh']
  have hj0 : (0 : ℚ) ≤ (j : ℚ) := Nat.cast_nonneg j
  norm_num [ BIRD_X_RATIO, BIRD_RADIUS_RATIO]
  linarith

theorem fall_alive (M : Int) (n : Nat) (e : Flappy) (h : fall_inv M n e) (hn : n ≤ 21) :
    ¬ dies { e with actions := 0 } := by
  have hph := fall_physics M n e h (by omega)
  have hcl := fall_clear M n e h (by omega)
  obtain ⟨_, hh, _⟩ := h
  have hq : (n : ℚ) ≤ 21 := by exact_mod_cast hn
  have h0 : (0 : ℚ) ≤ (n : ℚ) := Nat.cast_nonneg n
  unfold dies
  rw [hcl]
  have hh' : (physics { e with actions := 0 }).height = 512 := hh
  unfold hits_bounds
  rw [hph.2, hh']
  norm_num [ BIRD_RADIUS_RATIO]
  constructor <;> nlinarith

theorem fall_dead (M : Int) (e : Flappy) (h : fall_inv M 22 e) : dies { e with actions := 0 } := by
  have hph := fall_physics M 22 e h (le_refl _)
  obtain ⟨_, hh, _⟩ := h
  left
  have hh' : (physics { e with actions := 0 }).height = 512 := hh
  unfold hits_bounds
  rw [hph.2, hh']
  norm_num [ BIRD_RADIUS_RATIO]

theorem fall_unpassed (M : Int) (n : Nat) (e : Flappy) (h : fall_inv M n e) (hn : n ≤ 22)
    (i : Nat) (hi : i < 3) : ¬ passed { e with actions := 0 } i := by
  obtain ⟨hw, _, _, _, _, _, _, _, _, hp⟩ := h
  have hq : (n : ℚ) ≤ 22 := by exact_mod_cast hn
  have hi0 : (0 : ℚ) ≤ (i : ℚ) := Nat.cast_nonneg i
  unfold passed
  have hx : (({ e with actions := 0 } : Flappy).pipes i).x =
      256 + 230.4 * (i : ℚ) - 3.072 * (n : ℚ) := (hp i hi).1
  have hw' : ({ e with actions := 0 } : Flappy).width = 512 := hw
  rw [hx, hw']
  norm_num [ PIPE_WIDTH_RATIO, BIRD_X_RATIO]
  intro _
  linarith

theorem fall_reset (env : Flappy) (d : ℚ) (g : Rng) (hw : env.width = 512) (hh : env.height = 512)
    (hg : env.gravity = 0.0018) (hs : env.pipe_speed = 3.072) (hps : env.pipe_spacing = 0.45) :
    fall_inv env.max_steps 0 (Sparse.c_reset env d g).1 := by
  have hf := sparse_c_reset_frame env d g
  have hp := (sparse_c_reset_pipes env d g).1
  refine ⟨?_, ?_, ?_, ?_, ?_, ?_, ?_, ?_, ?_, fun i hi => ⟨?_, ((hp i hi).2).1⟩⟩
  · have h := congrArg Flappy.width hf; exact h.trans hw
  · have h := congrArg Flappy.height hf; exact h.trans hh
  · have h := congrArg Flappy.max_steps hf; exact h
  · have h := congrArg Flappy.gravity hf; exact h.trans hg
  · have h := congrArg Flappy.pipe_speed hf; exact h.trans hs
  · have h := congrArg Flappy.num_pipes hf; exact h
  · have h := congrArg Flappy.step_count hf; exact h
  · have h := congrArg Flappy.bird_vy hf
    refine h.trans ?_
    show (0.0 : ℚ) = _
    norm_num
  · have h := congrArg Flappy.bird_y hf
    refine h.trans ?_
    show (0.5 : ℚ) = _
    norm_num
  · rw [(hp i hi).1, hw, hps]
    push_cast
    ring

theorem fall_step (M : Int) (n : Nat) (e : Flappy) (g : Rng) (h : fall_inv M n e) (hn : n ≤ 21)
    (hM : (n : Int) + 1 < M) :
    fall_inv M (n + 1) (Sparse.step_with (e, g) 0).1 ∧
    (Sparse.step_with (e, g) 0).1.terminals = 0 ∧
    (Sparse.step_with (e, g) 0).1.rewards = 0 := by
  have ha := fall_alive M n e h hn
  have hph := fall_physics M n e h (by omega)
  have hun := fall_unpassed M n e h (by omega)
  obtain ⟨hw, hh, hms, hg, hs, hnp, hsc, hvy, hy, hp⟩ := h
  have hq : (n : ℚ) ≤ 21 := by exact_mod_cast hn
  have hnat : ({ e with actions := 0 } : Flappy).num_pipes.toNat = 3 := by
    show e.num_pipes.toNat = 3
    rw [hnp]; rfl
  have ht : ({ e with actions := 0 } : Flappy).step_count + 1 <
      ({ e with actions := 0 } : Flappy).max_steps := by
    show e.step_count + 1 < e.max_steps
    rw [hsc, hms]; exact hM
  obtain ⟨hcore, hpipes, _, _, _⟩ := sparse_c_step_cont { e with actions := 0 } g ha ht
  have hpc : passed_count { e with actions := 0 } = 0 :=
    passed_count_zero _ (fun i hi => hun i (by rw [hnat] at hi; exact hi))
  have hrew : (Sparse.c_step { e with actions := 0 } g).1.rewards = 0 := by
    rw [sparse_c_step_alive_rewards _ g ha, sparse_mid_rewards, hpc]
    norm_num
  obtain ⟨l, m, hl, _, _, hno⟩ := sparse_mid_pipes { e with actions := 0 } g (by rw [hnat]; norm_num)
  have hl3 : l < 3 := by have := hl.1; rw [hnat] at this; exact this
  have hstep : ∀ i, i < 3 → (stepped_pipe { e with actions := 0 } i).x =
      256 + 230.4 * (i : ℚ) - 3.072 * ((n : ℚ) + 1) ∧
      (stepped_pipe { e with actions := 0 } i).scored = 0 := by
    intro i hi
    unfold stepped_pipe
    rw [if_pos (by rw [hnat]; exact hi), if_neg (hun i hi)]
    refine ⟨?_, (hp i hi).2⟩
    show (e.pipes i).x - e.pipe_speed = _
    rw [(hp i hi).1, hs]
    ring
  have hnr : ¬ (stepped_pipe { e with actions := 0 } l).x +
      ((({ e with actions := 0 } : Flappy).width : Int) : ℚ) * PIPE_WIDTH_RATIO < 0 := by
    rw [(hstep l hl3).1]
    have hw' : ({ e with actions := 0 } : Flappy).width = 512 := hw
    rw [hw']
    have hl0 : (0 : ℚ) ≤ (l : ℚ) := Nat.cast_nonneg l
    norm_num [ PIPE_WIDTH_RATIO]
    linarith
  have hpp : (Sparse.c_step { e with actions := 0 } g).1.pipes = stepped_pipe { e with actions := 0 } :=
    hpipes.trans (hno hnr).1
  refine ⟨⟨?_, ?_, ?_, ?_, ?_, ?_, ?_, ?_, ?_, fun i hi => ?_⟩, ?_, hrew⟩
  · have h := congrArg Flappy.width hcore; exact h.trans hw
  · have h := congrArg Flappy.height hcore; exact h.trans hh
  · have h := congrArg Flappy.max_steps hcore; exact h.trans hms
  · have h := congrArg Flappy.gravity hcore; exact h.trans hg
  · have h := congrArg Flappy.pipe_speed hcore; exact h.trans hs
  · have h := congrArg Flappy.num_pipes hcore; exact h.trans hnp
  · have h := congrArg Flappy.step_count hcore
    have h' : (Sparse.step_with (e, g) 0).1.step_count = e.step_count + 1 := h
    rw [h', hsc]
    push_cast; ring
  · have h := congrArg Flappy.bird_vy hcore
    have h' : (Sparse.step_with (e, g) 0).1.bird_vy = (physics { e with actions := 0 }).bird_vy := h
    rw [h', hph.1]
    push_cast; ring
  · have h := congrArg Flappy.bird_y hcore
    have h' : (Sparse.step_with (e, g) 0).1.bird_y = (physics { e with actions := 0 }).bird_y := h
    rw [h', hph.2]
    push_cast; ring
  · have h' : (Sparse.step_with (e, g) 0).1.pipes = stepped_pipe { e with actions := 0 } := hpp
    rw [h']
    have := hstep i hi
    refine ⟨?_, this.2⟩
    rw [this.1]
    push_cast; ring
  · have h := congrArg Flappy.terminals hcore; exact h

theorem fall_run (env : Flappy) (d : ℚ) (g : Rng) (hw : env.width = 512) (hh : env.height = 512)
    (hg : env.gravity = 0.0018) (hs : env.pipe_speed = 3.072) (hps : env.pipe_spacing = 0.45) :
    ∀ k : Nat, k ≤ 22 → (k : Int) < env.max_steps →
      fall_inv env.max_steps k (Sparse.noop_run (Sparse.c_reset env d g) k).1 ∧
      (0 < k → (Sparse.noop_run (Sparse.c_reset env d g) k).1.terminals = 0 ∧
        (Sparse.noop_run (Sparse.c_reset env d g) k).1.rewards = 0) := by
  intro k
  induction k with
  | zero =>
    intro _ _
    exact ⟨fall_reset env d g hw hh hg hs hps, fun h => absurd h (Nat.lt_irrefl 0)⟩
  | succ k ih =>
    intro hk hM
    have hM' : (k : Int) + 1 < env.max_steps := by push_cast at hM; exact hM
    obtain ⟨hinv, _⟩ := ih (by omega) (by omega)
    have hst := fall_step env.max_steps k (Sparse.noop_run (Sparse.c_reset env d g) k).1
      (Sparse.noop_run (Sparse.c_reset env d g) k).2 hinv (by omega) hM'
    rw [sparse_noop_run_succ]
    exact ⟨hst.1, fun _ => hst.2⟩

theorem fresh_env_fields (M : Int) (hM : 0 < M) :
    (fresh_env 512 512 M).width = 512 ∧ (fresh_env 512 512 M).height = 512 ∧
    (fresh_env 512 512 M).gravity = 0.0018 ∧ (fresh_env 512 512 M).pipe_speed = 3.072 ∧
    (fresh_env 512 512 M).pipe_spacing = 0.45 ∧ (fresh_env 512 512 M).max_steps = M := by
  refine ⟨rfl, rfl, ?_, ?_, ?_, ?_⟩
  · show GRAVITY = _
    norm_num [GRAVITY]
  · show ((512 : Int) : ℚ) * PIPE_SPEED_RATIO = _
    norm_num [ PIPE_SPEED_RATIO]
  · show PIPE_SPACING_RATIO = _
    norm_num [ PIPE_SPACING_RATIO]
  · show (if M ≤ 0 then 5000 else M) = M
    rw [if_neg (not_le.mpr hM)]

/-- C5, amended, at a 512 by 512 environment with horizon `3`: the three no-op
steps after the reset do not end by collision, and the third call is terminal
by truncation with `episode_length = 3`. -/
theorem C5_truncation_at_horizon_witness :
    (0 < 3) ∧ (fresh_env 512 512 3).max_steps = ((3 : Nat) : Int) ∧
    (∀ k, k < 3 →
      ¬ dies { (Sparse.noop_run (Sparse.c_reset (fresh_env 512 512 3) 1 const_rng) k).1 with
        actions := 0 }) ∧
    (Sparse.noop_run (Sparse.c_reset (fresh_env 512 512 3) 1 const_rng) 3).1.terminals = 1 ∧
    (Sparse.noop_run (Sparse.c_reset (fresh_env 512 512 3) 1 const_rng) 3).1.log.episode_length =
      ((3 : Nat) : ℚ) ∧
    (Sparse.noop_run (Sparse.c_reset (fresh_env 512 512 3) 1 const_rng) 3).1.rewards ≠ -1 :=
  have hf := fresh_env_fields 3 (by norm_num)
  have halive : ∀ k, k < 3 →
      ¬ dies { (Sparse.noop_run (Sparse.c_reset (fresh_env 512 512 3) 1 const_rng) k).1 with
        actions := 0 } := fun k hk =>
    fall_alive _ k _
      ((fall_run (fresh_env 512 512 3) 1 const_rng hf.1 hf.2.1 hf.2.2.1 hf.2.2.2.1 hf.2.2.2.2.1 k
        (by omega) (by rw [hf.2.2.2.2.2]; exact_mod_cast hk)).1) (by omega)
  have h := C5_truncation_at_horizon (fresh_env 512 512 3) 1 const_rng 3 (by norm_num)
    hf.2.2.2.2.2 halive
  ⟨by norm_num, hf.2.2.2.2.2, halive, h.2.1, h.2.2.1, h.2.2.2.2.1⟩

/-- C5 as stated fails for width = height = 512 and `max_steps = 5000`: stepping
with the no-op action from a reset, the calls 1 to 22 are not terminal and the
23rd call sets the terminal flag by floor contact, at `step_count = 23` and not
at `step_count == max_steps`, with the death penalty `-1` as its reward. -/
theorem C5_counterexample :
    (fresh_env 512 512 5000).max_steps = 5000 ∧
    (∀ k, 0 < k → k ≤ 22 →
      (Sparse.noop_run (Sparse.c_reset (fresh_env 512 512 5000) 1 const_rng) k).1.terminals = 0) ∧
    (Sparse.noop_run (Sparse.c_reset (fresh_env 512 512 5000) 1 const_rng) 23).1.terminals = 1 ∧
    (Sparse.noop_run (Sparse.c_reset (fresh_env 512 512 5000) 1 const_rng) 23).1.rewards = -1 ∧
    (Sparse.noop_run (Sparse.c_reset (fresh_env 512 512 5000) 1 const_rng) 23).1.log.episode_length
      = 23 := by
  have hf := fresh_env_fields 5000 (by norm_num)
  have hrun := fall_run (fresh_env 512 512 5000) 1 const_rng hf.1 hf.2.1 hf.2.2.1 hf.2.2.2.1
    hf.2.2.2.2.1
  have h22 := (hrun 22 (le_refl _) (by rw [hf.2.2.2.2.2]; norm_num)).1
  have hd := fall_dead _ _ h22
  have hsc : (Sparse.noop_run (Sparse.c_reset (fresh_env 512 512 5000) 1 const_rng) 22).1.step_count
      = ((22 : Nat) : Int) := h22.2.2.2.2.2.2.1
  have hstep : Sparse.noop_run (Sparse.c_reset (fresh_env 512 512 5000) 1 const_rng) 23 = _ :=
    (sparse_noop_run_succ _ 22).trans (sparse_c_step_dead _ _ hd)
  refine ⟨hf.2.2.2.2.2, fun k hk0 hk =>
    ((hrun k hk (by rw [hf.2.2.2.2.2]; have : (k : Int) ≤ 22 := by exact_mod_cast hk
                    omega)).2 hk0).1, ?_, ?_, ?_⟩
  · rw [hstep]; exact sparse_finish_terminals _ _
  · rw [hstep, sparse_finish_rewards]
    show (-1.0 : ℚ) = -1
    norm_num
  · rw [hstep, sparse_finish_log]
    show (((Sparse.noop_run (Sparse.c_reset (fresh_env 512 512 5000) 1 const_rng) 22).1.step_count + 1
      : Int) : ℚ) = 23
    rw [hsc]
    norm_num

/-! ## Truncation -/

theorem dense_shaped_score (env : Flappy) (g : Rng) :
    (Dense.shaped env g).score = env.score + (passed_count env : Int) :=
  (dense_shaping_frame _ _).2.2.trans (dense_mid_score env g)

theorem sparse_mid_log (env : Flappy) (g : Rng) : (Sparse.mid env g).1.log = env.log := by
  have h := congrArg Flappy.log (sparse_mid_frame env g); exact h

theorem dense_shaped_log (env : Flappy) (g : Rng) : (Dense.shaped env g).log = env.log := by
  have h := congrArg Flappy.log (dense_shaped_frame env g); exact h

/-- C6: if the step does not end by collision and the incremented `step_count`
is at least `max_steps`, then `c_step` sets the terminal flag, runs the same
finalize-and-reset sequence `finish` as on death (the log gets the episode's
score and length and the counter `n + 1` as a float32, which is `n + 1` for
every whole `n` below `2^24`, and the state is a reset state), and the reward
is not overwritten with `-1`: it is the number of pipes passed in the sparse
variant and the full shaping sum in the dense variant.  If the same step is also
a collision, the reward is `-1` in both variants. -/
theorem C6_truncation (env : Flappy) (g : Rng) (ht : env.max_steps ≤ env.step_count + 1) :
    (¬ dies env →
      (Sparse.c_step env g = Sparse.finish (Sparse.mid env g).1 (Sparse.mid env g).2 ∧
        (Sparse.c_step env g).1.terminals = 1 ∧
        (Sparse.c_step env g).1.rewards = (passed_count env : ℚ) ∧
        ((Sparse.c_step env g).1.log.n = f32 (env.log.n + 1) ∧
          ∀ k : ℕ, env.log.n = (k : ℚ) → k < 16777216 →
            (Sparse.c_step env g).1.log.n = (k : ℚ) + 1) ∧
        (Sparse.c_step env g).1.log.episode_length = (env.step_count : ℚ) + 1 ∧
        (Sparse.c_step env g).1.log.score = (env.score : ℚ) + (passed_count env : ℚ) ∧
        (Sparse.c_step env g).1.step_count = 0 ∧
        ∃ e' g', Sparse.c_step env g = Sparse.c_reset e' env.curriculum_difficulty g') ∧
      (Dense.c_step env g = Dense.finish (Dense.shaped env g) (Dense.mid env g).2 ∧
        (Dense.c_step env g).1.terminals = 1 ∧
        (∀ t, scan_target (Dense.mid env g).1 t →
          (Dense.c_step env g).1.rewards =
            dense_base env + gap_bonus (Dense.mid env g).1 t + align_bonus (Dense.mid env g).1 t) ∧
        (no_scan_target (Dense.mid env g).1 → (Dense.c_step env g).1.rewards = dense_base env) ∧
        ((Dense.c_step env g).1.log.n = f32 (env.log.n + 1) ∧
          ∀ k : ℕ, env.log.n = (k : ℚ) → k < 16777216 →
            (Dense.c_step env g).1.log.n = (k : ℚ) + 1) ∧
        (Dense.c_step env g).1.log.episode_length = (env.step_count : ℚ) + 1 ∧
        (Dense.c_step env g).1.log.score = (env.score : ℚ) + (passed_count env : ℚ) ∧
        (Dense.c_step env g).1.step_count = 0 ∧
        ∃ e' g', Dense.c_step env g = Dense.c_reset e' g')) ∧
    (dies env →
      (Sparse.c_step env g).1.rewards = -1 ∧ (Sparse.c_step env g).1.terminals = 1 ∧
      (Dense.c_step env g).1.rewards = -1 ∧ (Dense.c_step env g).1.terminals = 1) := by
  refine ⟨fun hd => ⟨?_, ?_⟩, fun hd => ?_⟩
  · have hs := sparse_c_step_trunc env g hd ht
    have hcd : (Sparse.mid env g).1.curriculum_difficulty = env.curriculum_difficulty := by
      have h := congrArg Flappy.curriculum_difficulty (sparse_mid_frame env g); exact h
    obtain ⟨⟨e', he'⟩, _, _, _, hs0, _, _, _⟩ :=
      sparse_finish_spec (Sparse.mid env g).1 (Sparse.mid env g).2
    rw [hcd] at he'
    refine ⟨hs, ?_, ?_, ?_, ?_, ?_, ?_, ⟨e', _, hs.trans he'⟩⟩
    · rw [hs]; exact sparse_finish_terminals _ _
    · rw [hs, sparse_finish_rewards, sparse_mid_rewards]
    · have hn : (Sparse.c_step env g).1.log.n = f32 (env.log.n + 1) := by
        rw [hs, sparse_finish_log, sparse_mid_log]
        show f32 (env.log.n + 1.0) = _
        norm_num
      refine ⟨hn, fun k hk hlt => ?_⟩
      rw [hn, hk]
      have h := f32_succ_of_lt k hlt
      norm_num at h ⊢
      exact h
    · rw [hs, sparse_finish_log, (sparse_mid_step_count env g).1]
      push_cast; ring
    · rw [hs, sparse_finish_log, sparse_mid_score]
      push_cast; ring
    · rw [hs]; exact hs0
  · have hs := dense_c_step_trunc env g hd ht
    obtain ⟨⟨e', he'⟩, _, _, _, hs0, _, _, _⟩ :=
      dense_finish_spec (Dense.shaped env g) (Dense.mid env g).2
    refine ⟨hs, ?_, (dense_c_step_rewards_spec env g hd).1, (dense_c_step_rewards_spec env g hd).2,
      ?_, ?_, ?_, ?_, ⟨e', _, hs.trans he'⟩⟩
    · rw [hs]; exact dense_finish_terminals _ _
    · have hn : (Dense.c_step env g).1.log.n = f32 (env.log.n + 1) := by
        rw [hs, dense_finish_log, dense_shaped_log]
        show f32 (env.log.n + 1.0) = _
        norm_num
      refine ⟨hn, fun k hk hlt => ?_⟩
      rw [hn, hk]
      have h := f32_succ_of_lt k hlt
      norm_num at h ⊢
      exact h
    · rw [hs, dense_finish_log, (dense_shaped_step_count env g).1]
      push_cast; ring
    · rw [hs, dense_finish_log, dense_shaped_score]
      push_cast; ring
    · rw [hs]; exact hs0
  · rw [sparse_c_step_dead env g hd, dense_c_step_dead env g hd]
    refine ⟨?_, sparse_finish_terminals _ _, ?_, dense_finish_terminals _ _⟩
    · rw [sparse_finish_rewards]
      show (-1.0 : ℚ) = -1
      norm_num
    · rw [dense_finish_rewards]
      show (-1.0 : ℚ) = -1
      norm_num

theorem last_step_env_alive : ¬ dies last_step_env := by
  norm_num [dies, hits_bounds, hits_pipe, collides, collides_loop, physics, clampf, last_step_env,
    cruising_env, fresh_env, init, GRAVITY, FLAP_VEL, BIRD_RADIUS_RATIO, BIRD_X_RATIO,
    PIPE_WIDTH_RATIO]

/-- C6 at `last_step_env`, whose horizon is `1`: the step does not end by
collision, and both variants set the terminal flag and log `episode_length = 1`
without the death penalty. -/
theorem C6_truncation_witness :
    last_step_env.max_steps ≤ last_step_env.step_count + 1 ∧ ¬ dies last_step_env ∧
    (Sparse.c_step last_step_env const_rng).1.terminals = 1 ∧
    (Sparse.c_step last_step_env const_rng).1.rewards = (passed_count last_step_env : ℚ) ∧
    (Dense.c_step last_step_env const_rng).1.terminals = 1 ∧
    (Dense.c_step last_step_env const_rng).1.log.episode_length =
      (last_step_env.step_count : ℚ) + 1 :=
  ⟨by decide, last_step_env_alive,
    ((C6_truncation last_step_env const_rng (by decide)).1 last_step_env_alive).1.2.1,
    ((C6_truncation last_step_env const_rng (by decide)).1 last_step_env_alive).1.2.2.1,
    ((C6_truncation last_step_env const_rng (by decide)).1 last_step_env_alive).2.2.1,
    ((C6_truncation last_step_env const_rng (by decide)).1 last_step_env_alive).2.2.2.2.2.2.1⟩

/-! ## The state after a terminal step -/

theorem pre_config (env : Flappy) : (pre env).config = env.config := rfl

theorem sparse_mid_config (env : Flappy) (g : Rng) : (Sparse.mid env g).1.config = env.config := by
  have h := congrArg Flappy.config (sparse_mid_frame env g); exact h

/-- The sparse `c_step` never changes the fields fixed at construction nor the
curriculum difficulty. -/
theorem sparse_c_step_config (env : Flappy) (g : Rng) :
    (Sparse.c_step env g).1.config = env.config := by
  by_cases hd : dies env
  · rw [sparse_c_step_dead env g hd]
    exact (sparse_finish_spec _ g).2.2.2.2.2.2.1
  · by_cases ht : env.max_steps ≤ env.step_count + 1
    · rw [sparse_c_step_trunc env g hd ht]
      exact ((sparse_finish_spec _ _).2.2.2.2.2.2.1).trans (sparse_mid_config env g)
    · have hc := (sparse_c_step_cont env g hd (not_le.mp ht)).1
      have h := congrArg Flappy.config hc
      exact h

theorem sparse_c_step_terminal_cases (env : Flappy) (g : Rng)
    (h : (Sparse.c_step env g).1.terminals = 1) :
    (dies env ∧ Sparse.c_step env g = Sparse.finish { pre env with rewards := -1.0 } g) ∨
    (¬ dies env ∧ env.max_steps ≤ env.step_count + 1 ∧
      Sparse.c_step env g = Sparse.finish (Sparse.mid env g).1 (Sparse.mid env g).2) := by
  by_cases hd : dies env
  · exact Or.inl ⟨hd, sparse_c_step_dead env g hd⟩
  · by_cases ht : env.max_steps ≤ env.step_count + 1
    · exact Or.inr ⟨hd, ht, sparse_c_step_trunc env g hd ht⟩
    · have hc := (sparse_c_step_cont env g hd (not_le.mp ht)).1
      have h0 : (Sparse.c_step env g).1.terminals = 0 := by
        have h' := congrArg Flappy.terminals hc; exact h'
      rw [h0] at h
      exact absurd h (by decide)

/-- C7: whenever the sparse `c_step` sets the terminal flag, by death or by
truncation, the state it leaves is the one `c_reset` produces with the
curriculum difficulty of before the step, from the generator as it stands when
the reset is reached (the incoming generator on death): `bird_y = 0.5`,
`bird_vy = 0`, `score = 0`, `step_count = 0`, `num_pipes = 3`, the three pipes
at the reset positions and unscored, the difficulty unchanged.  And no call of
`c_step` changes `curriculum_difficulty`, `width`, `height`, `max_steps` or the
derived physics constants. -/
theorem C7_terminal_state_is_reset (env : Flappy) (g : Rng) :
    ((Sparse.c_step env g).1.terminals = 1 →
      (∃ e' g', Sparse.c_step env g = Sparse.c_reset e' env.curriculum_difficulty g' ∧
        (dies env → g' = g) ∧ (¬ dies env → g' = (Sparse.mid env g).2)) ∧
      (Sparse.c_step env g).1.bird_y = 0.5 ∧
      (Sparse.c_step env g).1.bird_vy = 0 ∧
      (Sparse.c_step env g).1.score = 0 ∧
      (Sparse.c_step env g).1.step_count = 0 ∧
      (Sparse.c_step env g).1.num_pipes = 3 ∧
      (∀ i, i < 3 →
        ((Sparse.c_step env g).1.pipes i).x =
          (env.width : ℚ) * 0.5 + (i : ℚ) * (env.width : ℚ) * env.pipe_spacing ∧
        ((Sparse.c_step env g).1.pipes i).scored = 0) ∧
      (Sparse.c_step env g).1.curriculum_difficulty = env.curriculum_difficulty) ∧
    (Sparse.c_step env g).1.config = env.config := by
  refine ⟨fun h => ?_, sparse_c_step_config env g⟩
  have hcfg := sparse_c_step_config env g
  have hcd : (Sparse.c_step env g).1.curriculum_difficulty = env.curriculum_difficulty := by
    have h' := congrArg (fun c => c.2.2.2.2.2.2.2.2) hcfg; exact h'
  rcases sparse_c_step_terminal_cases env g h with ⟨hd, hs⟩ | ⟨hd, _, hs⟩
  · obtain ⟨_, h1, h2, h3, h4, h5, _, h7⟩ := sparse_finish_spec { pre env with rewards := -1.0 } g
    rw [← hs] at h1 h2 h3 h4 h5 h7
    exact ⟨⟨_, g, hs, fun _ => rfl, fun hn => absurd hd hn⟩, h1, h2, h3, h4, h5,
      fun i hi => ⟨(h7 i hi).1, (h7 i hi).2.1⟩, hcd⟩
  · obtain ⟨⟨e', he'⟩, h1, h2, h3, h4, h5, _, h7⟩ :=
      sparse_finish_spec (Sparse.mid env g).1 (Sparse.mid env g).2
    rw [← hs] at h1 h2 h3 h4 h5 h7
    have hmc := sparse_mid_config env g
    have hw : (Sparse.mid env g).1.width = env.width := by
      have h' := congrArg (fun c => c.1) hmc; exact h'
    have hps : (Sparse.mid env g).1.pipe_spacing = env.pipe_spacing := by
      have h' := congrArg (fun c => c.2.2.2.2.2.2.1) hmc; exact h'
    have hmcd : (Sparse.mid env g).1.curriculum_difficulty = env.curriculum_difficulty := by
      have h' := congrArg (fun c => c.2.2.2.2.2.2.2.2) hmc; exact h'
    rw [hmcd] at he'
    rw [hw, hps] at h7
    exact ⟨⟨e', _, hs.trans he', fun hn => absurd hn hd, fun _ => rfl⟩, h1, h2, h3, h4, h5,
      fun i hi => ⟨(h7 i hi).1, (h7 i hi).2.1⟩, hcd⟩

theorem rising_env_dies : dies rising_env :=
  hits_bounds_of_touch rising_env
    (Or.inl (by norm_num [physics, clampf, rising_env, fresh_env, init, GRAVITY, FLAP_VEL]))

theorem rising_env_terminal : (Sparse.c_step rising_env const_rng).1.terminals = 1 := by
  rw [sparse_c_step_dead rising_env const_rng rising_env_dies]
  exact sparse_finish_terminals _ _

/-- C7 at `rising_env`: the step is terminal by ceiling contact and leaves a
reset state with the step counter and the score at zero. -/
theorem C7_terminal_state_is_reset_witness :
    (Sparse.c_step rising_env const_rng).1.terminals = 1 ∧
    (Sparse.c_step rising_env const_rng).1.bird_y = 0.5 ∧
    (Sparse.c_step rising_env const_rng).1.step_count = 0 ∧
    (Sparse.c_step rising_env const_rng).1.num_pipes = 3 :=
  ⟨rising_env_terminal,
    ((C7_terminal_state_is_reset rising_env const_rng).1 rising_env_terminal).2.1,
    ((C7_terminal_state_is_reset rising_env const_rng).1 rising_env_terminal).2.2.2.2.1,
    ((C7_terminal_state_is_reset rising_env const_rng).1 rising_env_terminal).2.2.2.2.2.1⟩

/-! ## Non-terminal steps, slot by slot -/

theorem sparse_step_nonterminal (env : Flappy) (g : Rng)
    (h : (Sparse.c_step env g).1.terminals = 0) :
    ¬ dies env ∧ env.step_count + 1 < env.max_steps := by
  by_cases hd : dies env
  · rw [sparse_c_step_dead env g hd, sparse_finish_terminals] at h
    exact absurd h (by decide)
  · refine ⟨hd, not_le.mp (fun ht => ?_)⟩
    rw [sparse_c_step_trunc env g hd ht, sparse_finish_terminals] at h
    exact absurd h (by decide)

theorem dense_step_nonterminal (env : Flappy) (g : Rng)
    (h : (Dense.c_step env g).1.terminals = 0) :
    ¬ dies env ∧ env.step_count + 1 < env.max_steps := by
  by_cases hd : dies env
  · rw [dense_c_step_dead env g hd, dense_finish_terminals] at h
    exact absurd h (by decide)
  · refine ⟨hd, not_le.mp (fun ht => ?_)⟩
    rw [dense_c_step_trunc env g hd ht, dense_finish_terminals] at h
    exact absurd h (by decide)

/-- The pipes a non-terminal sparse step leaves. -/
theorem sparse_step_pipes_spec (env : Flappy) (g : Rng)
    (h : (Sparse.c_step env g).1.terminals = 0) (hn : 0 < env.num_pipes.toNat) :
    ∃ l m, leftmost_slot env l ∧ rightmost_x env m ∧
      ((stepped_pipe env l).x + (env.width : ℚ) * PIPE_WIDTH_RATIO < 0 →
        (Sparse.c_step env g).1.pipes =
          Function.update (stepped_pipe env) l
            { x := m + (env.width : ℚ) * env.pipe_spacing
              gap_center_y := Sparse.fresh_gap env.curriculum_difficulty g
              gap_height := env.gap_height
              scored := 0 }) ∧
      (¬ (stepped_pipe env l).x + (env.width : ℚ) * PIPE_WIDTH_RATIO < 0 →
        (Sparse.c_step env g).1.pipes = stepped_pipe env) := by
  obtain ⟨hd, ht⟩ := sparse_step_nonterminal env g h
  have hp := (sparse_c_step_cont env g hd ht).2.1
  obtain ⟨l, m, hl, hm, h1, h2⟩ := sparse_mid_pipes env g hn
  exact ⟨l, m, hl, hm, fun hc => hp.trans (h1 hc), fun hc => hp.trans (h2 hc).1⟩

/-- The pipes a non-terminal dense step leaves. -/
theorem dense_step_pipes_spec (env : Flappy) (g : Rng)
    (h : (Dense.c_step env g).1.terminals = 0) (hn : 0 < env.num_pipes.toNat) :
    ∃ l m, leftmost_slot env l ∧ rightmost_x env m ∧
      ((stepped_pipe env l).x + (env.width : ℚ) * PIPE_WIDTH_RATIO < 0 →
        (Dense.c_step env g).1.pipes =
          Function.update (stepped_pipe env) l
            { x := m + (env.width : ℚ) * env.pipe_spacing
              gap_center_y := Dense.fresh_gap env.curriculum_difficulty g
              gap_height := env.gap_height
              scored := 0 }) ∧
      (¬ (stepped_pipe env l).x + (env.width : ℚ) * PIPE_WIDTH_RATIO < 0 →
        (Dense.c_step env g).1.pipes = stepped_pipe env) := by
  obtain ⟨hd, ht⟩ := dense_step_nonterminal env g h
  have hp := (dense_c_step_cont env g hd ht).2.1
  obtain ⟨l, m, hl, hm, h1, h2⟩ := dense_mid_pipes env g hn
  exact ⟨l, m, hl, hm, fun hc => hp.trans (h1 hc), fun hc => hp.trans (h2 hc).1⟩

/-- A slot that is not respawned holds its stepped pipe after a non-terminal step. -/
theorem sparse_step_pipe_kept (env : Flappy) (g : Rng)
    (h : (Sparse.c_step env g).1.terminals = 0) (hn : 0 < env.num_pipes.toNat) (i : Nat)
    (hi : ¬ recycled env i) : (Sparse.c_step env g).1.pipes i = stepped_pipe env i := by
  obtain ⟨l, m, hl, _, h1, h2⟩ := sparse_step_pipes_spec env g h hn
  by_cases hc : (stepped_pipe env l).x + (env.width : ℚ) * PIPE_WIDTH_RATIO < 0
  · have hil : i ≠ l := fun e => hi (e ▸ ⟨hl, hc⟩)
    rw [h1 hc, Function.update_noteq hil]
  · rw [h2 hc]

theorem dense_step_pipe_kept (env : Flappy) (g : Rng)
    (h : (Dense.c_step env g).1.terminals = 0) (hn : 0 < env.num_pipes.toNat) (i : Nat)
    (hi : ¬ recycled env i) : (Dense.c_step env g).1.pipes i = stepped_pipe env i := by
  obtain ⟨l, m, hl, _, h1, h2⟩ := dense_step_pipes_spec env g h hn
  by_cases hc : (stepped_pipe env l).x + (env.width : ℚ) * PIPE_WIDTH_RATIO < 0
  · have hil : i ≠ l := fun e => hi (e ▸ ⟨hl, hc⟩)
    rw [h1 hc, Function.update_noteq hil]
  · rw [h2 hc]

theorem sparse_step_num_pipes (env : Flappy) (g : Rng)
    (h : (Sparse.c_step env g).1.terminals = 0) :
    (Sparse.c_step env g).1.num_pipes = env.num_pipes := by
  obtain ⟨hd, ht⟩ := sparse_step_nonterminal env g h
  have h' := congrArg Flappy.num_pipes (sparse_c_step_cont env g hd ht).1
  exact h'

theorem dense_step_num_pipes (env : Flappy) (g : Rng)
    (h : (Dense.c_step env g).1.terminals = 0) :
    (Dense.c_step env g).1.num_pipes = env.num_pipes := by
  obtain ⟨hd, ht⟩ := dense_step_nonterminal env g h
  have h' := congrArg Flappy.num_pipes (dense_c_step_cont env g hd ht).1
  exact h'

theorem sparse_step_width (env : Flappy) (g : Rng) :
    (Sparse.c_step env g).1.width = env.width := by
  have h := congrArg (fun c => c.1) (sparse_c_step_config env g); exact h

theorem slot_gain_scored (env : Flappy) (i : Nat) (h : (env.pipes i).scored ≠ 0) :
    slot_gain env i = 0 := by
  unfold slot_gain
  rw [if_neg]
  exact fun hp => h hp.2.1

theorem stepped_pipe_scored (env : Flappy) (i : Nat)
    (h : (env.pipes i).scored ≠ 0 ∨ slot_gain env i = 1) : (stepped_pipe env i).scored ≠ 0 := by
  unfold stepped_pipe
  by_cases hi : i < env.num_pipes.toNat
  · rw [if_pos hi]
    by_cases hp : passed env i
    · show (if passed env i then (1 : Int) else _) ≠ 0
      rw [if_pos hp]; decide
    · show (if passed env i then (1 : Int) else _) ≠ 0
      rw [if_neg hp]
      rcases h with h | h
      · exact h
      · unfold slot_gain at h
        rw [if_neg (fun hh => hp hh.2)] at h
        exact absurd h (by decide)
  · rw [if_neg hi]
    rcases h with h | h
    · exact h
    · unfold slot_gain at h
      rw [if_neg (fun hh => hi hh.1)] at h
      exact absurd h (by decide)

theorem slot_gain_le_one (env : Flappy) (i : Nat) : slot_gain env i ≤ 1 := by
  unfold slot_gain
  split_ifs <;> decide

/-- Over a run of non-terminal steps that do not respawn slot `i`, the slot
adds to the score at most once, and not at all if it is already scored. -/
theorem run_gain_le_one (step : Flappy × Rng → Int → Flappy × Rng) (i : Nat)
    (hnum : ∀ s a, (step s a).1.terminals = 0 → (step s a).1.num_pipes = s.1.num_pipes)
    (hkeep : ∀ s a, (step s a).1.terminals = 0 → 0 < s.1.num_pipes.toNat →
      ¬ recycled { s.1 with actions := a } i →
      (step s a).1.pipes i = stepped_pipe { s.1 with actions := a } i) :
    ∀ (acts : List Int) (s : Flappy × Rng), quiet_run step i s acts →
      run_gain step i s acts ≤ 1 ∧
      ((s.1.pipes i).scored ≠ 0 → run_gain step i s acts = 0) ∧
      (s.1.num_pipes.toNat = 0 → run_gain step i s acts = 0)
  | [], _, _ => ⟨Nat.zero_le 1, fun _ => rfl, fun _ => rfl⟩
  | a :: acts, s, hq => by
    obtain ⟨ht, hr, hq'⟩ := hq
    obtain ⟨ih1, ih2, ih3⟩ := run_gain_le_one step i hnum hkeep acts (step s a) hq'
    have hn' := hnum s a ht
    show slot_gain { s.1 with actions := a } i + run_gain step i (step s a) acts ≤ 1 ∧
      ((s.1.pipes i).scored ≠ 0 →
        slot_gain { s.1 with actions := a } i + run_gain step i (step s a) acts = 0) ∧
      (s.1.num_pipes.toNat = 0 →
        slot_gain { s.1 with actions := a } i + run_gain step i (step s a) acts = 0)
    have hz : s.1.num_pipes.toNat = 0 →
        slot_gain { s.1 with actions := a } i + run_gain step i (step s a) acts = 0 := by
      intro h0
      have hg : slot_gain { s.1 with actions := a } i = 0 := by
        unfold slot_gain
        rw [if_neg]
        intro hh
        have : i < s.1.num_pipes.toNat := hh.1
        omega
      rw [hg, ih3 (by rw [hn']; exact h0)]
    rcases Nat.eq_zero_or_pos s.1.num_pipes.toNat with h0 | hpos
    · have := hz h0
      exact ⟨by omega, fun _ => this, hz⟩
    · have hp := hkeep s a ht hpos hr
      have hsc : ((s.1.pipes i).scored ≠ 0 ∨ slot_gain { s.1 with actions := a } i = 1) →
          run_gain step i (step s a) acts = 0 := by
        intro h
        apply ih2
        rw [hp]
        exact stepped_pipe_scored { s.1 with actions := a } i h
      have hle := slot_gain_le_one { s.1 with actions := a } i
      refine ⟨?_, fun h => ?_, hz⟩
      · rcases Nat.lt_or_ge (slot_gain { s.1 with actions := a } i) 1 with hlt | hge
        · omega
        · have h1 : slot_gain { s.1 with actions := a } i = 1 := by omega
          rw [hsc (Or.inr h1)]
          omega
      · have hg : slot_gain { s.1 with actions := a } i = 0 :=
          slot_gain_scored { s.1 with actions := a } i h
        rw [hsc (Or.inl h), hg]

theorem passed_count_eq_sum (env : Flappy) :
    passed_count env = ∑ i in Finset.range env.num_pipes.toNat, slot_gain env i := by
  unfold passed_count passed_upto
  rw [Finset.card_filter]
  apply Finset.sum_congr rfl
  intro i hi
  have hi' : i < env.num_pipes.toNat := Finset.mem_range.mp hi
  unfold slot_gain
  by_cases hp : passed env i
  · rw [if_pos hp, if_pos ⟨hi', hp⟩]
  · rw [if_neg hp, if_neg (fun h => hp h.2)]

/-- Over a run of non-terminal steps the score grows by what the active slots add. -/
theorem live_run_score (step : Flappy × Rng → Int → Flappy × Rng)
    (hnum : ∀ s a, (step s a).1.terminals = 0 → (step s a).1.num_pipes = s.1.num_pipes)
    (hscore : ∀ s a, (step s a).1.terminals = 0 →
      (step s a).1.score = s.1.score + (passed_count { s.1 with actions := a } : Int)) :
    ∀ (acts : List Int) (s : Flappy × Rng), live_run step s acts →
      (acts.foldl step s).1.score =
        s.1.score + ((∑ i in Finset.range s.1.num_pipes.toNat, run_gain step i s acts : Nat) : Int)
  | [], s, _ => by simp [run_gain]
  | a :: acts, s, hl => by
    obtain ⟨ht, hl'⟩ := hl
    have ih := live_run_score step hnum hscore acts (step s a) hl'
    rw [List.foldl_cons, ih, hscore s a ht, hnum s a ht, passed_count_eq_sum]
    simp only [run_gain]
    rw [Finset.sum_add_distrib]
    push_cast
    ring

theorem sparse_step_score (s : Flappy × Rng) (a : Int)
    (h : (Sparse.step_with s a).1.terminals = 0) :
    (Sparse.step_with s a).1.score = s.1.score + (passed_count { s.1 with actions := a } : Int) := by
  obtain ⟨hd, ht⟩ := sparse_step_nonterminal _ _ h
  exact (sparse_c_step_cont _ _ hd ht).2.2.1

theorem dense_step_score (s : Flappy × Rng) (a : Int)
    (h : (Dense.step_with s a).1.terminals = 0) :
    (Dense.step_with s a).1.score = s.1.score + (passed_count { s.1 with actions := a } : Int) := by
  obtain ⟨hd, ht⟩ := dense_step_nonterminal _ _ h
  exact (dense_c_step_cont _ _ hd ht).2.2.1

/-- C8: in both variants, in every non-terminal step the score grows by the
number of active pipes that were unscored with `x + pipe_width < bird_x` before
the step, so it never decreases, and each of these pipes is marked scored by the
scoring loop (and is still so after the step unless its slot is respawned in
the same step); a pipe already scored adds nothing.  The growth of the score is the sum of what
the active slots add, and over any run of non-terminal steps in which a slot is
not respawned, the slot adds to the score at most once. -/
theorem C8_scoring_once_per_pipe :
    (∀ (env : Flappy) (g : Rng), (Sparse.c_step env g).1.terminals = 0 →
      (Sparse.c_step env g).1.score = env.score + (passed_count env : Int) ∧
      env.score ≤ (Sparse.c_step env g).1.score ∧
      ∀ i, i < env.num_pipes.toNat → passed env i → ¬ recycled env i →
        ((Sparse.c_step env g).1.pipes i).scored = 1) ∧
    (∀ (env : Flappy) (g : Rng), (Dense.c_step env g).1.terminals = 0 →
      (Dense.c_step env g).1.score = env.score + (passed_count env : Int) ∧
      env.score ≤ (Dense.c_step env g).1.score ∧
      ∀ i, i < env.num_pipes.toNat → passed env i → ¬ recycled env i →
        ((Dense.c_step env g).1.pipes i).scored = 1) ∧
    (∀ (env : Flappy) (i : Nat), (env.pipes i).scored ≠ 0 → slot_gain env i = 0) ∧
    (∀ env : Flappy,
      passed_count env = ∑ i in Finset.range env.num_pipes.toNat, slot_gain env i) ∧
    (∀ (s : Flappy × Rng) (acts : List Int), live_run Sparse.step_with s acts →
      (Sparse.run s acts).1.score = s.1.score +
        ((∑ i in Finset.range s.1.num_pipes.toNat, run_gain Sparse.step_with i s acts : Nat) : Int)) ∧
    (∀ (s : Flappy × Rng) (acts : List Int), live_run Dense.step_with s acts →
      (Dense.run s acts).1.score = s.1.score +
        ((∑ i in Finset.range s.1.num_pipes.toNat, run_gain Dense.step_with i s acts : Nat) : Int)) ∧
    (∀ (i : Nat) (s : Flappy × Rng) (acts : List Int), quiet_run Sparse.step_with i s acts →
      run_gain Sparse.step_with i s acts ≤ 1) ∧
    (∀ (i : Nat) (s : Flappy × Rng) (acts : List Int), quiet_run Dense.step_with i s acts →
      run_gain Dense.step_with i s acts ≤ 1) ∧
    (∀ (env : Flappy) (i : Nat), i < env.num_pipes.toNat → passed env i →
      ((Sparse.score_pipes env ((env.width : ℚ) * PIPE_WIDTH_RATIO)
        ((env.width : ℚ) * BIRD_X_RATIO)).pipes i).scored = 1 ∧
      ((Dense.score_pipes env ((env.width : ℚ) * PIPE_WIDTH_RATIO)
        ((env.width : ℚ) * BIRD_X_RATIO)).pipes i).scored = 1) := by
  have hmark : ∀ (env : Flappy) (i : Nat), i < env.num_pipes.toNat → passed env i →
      (stepped_pipe env i).scored = 1 := by
    intro env i hi hp
    unfold stepped_pipe
    rw [if_pos hi]
    show (if passed env i then (1 : Int) else _) = 1
    rw [if_pos hp]
  refine ⟨fun env g h => ?_, fun env g h => ?_, slot_gain_scored, passed_count_eq_sum,
    fun s acts hl => ?_, fun s acts hl => ?_, fun i s acts hq => ?_, fun i s acts hq => ?_,
    fun env i hi hp => ?_⟩
  · obtain ⟨hd, ht⟩ := sparse_step_nonterminal env g h
    have hs := (sparse_c_step_cont env g hd ht).2.2.1
    refine ⟨hs, by rw [hs]; omega, fun i hi hp hr => ?_⟩
    rw [sparse_step_pipe_kept env g h (by omega) i hr]
    exact hmark env i hi hp
  · obtain ⟨hd, ht⟩ := dense_step_nonterminal env g h
    have hs := (dense_c_step_cont env g hd ht).2.2.1
    refine ⟨hs, by rw [hs]; omega, fun i hi hp hr => ?_⟩
    rw [dense_step_pipe_kept env g h (by omega) i hr]
    exact hmark env i hi hp
  · exact live_run_score Sparse.step_with (fun s a h => sparse_step_num_pipes _ _ h)
      sparse_step_score acts s hl
  · exact live_run_score Dense.step_with (fun s a h => dense_step_num_pipes _ _ h)
      dense_step_score acts s hl
  · exact (run_gain_le_one Sparse.step_with i (fun s a h => sparse_step_num_pipes _ _ h)
      (fun s a h hn hr => sparse_step_pipe_kept _ _ h hn i hr) acts s hq).1
  · exact (run_gain_le_one Dense.step_with i (fun s a h => dense_step_num_pipes _ _ h)
      (fun s a h hn hr => dense_step_pipe_kept _ _ h hn i hr) acts s hq).1
  · rw [(sparse_score_pipes_spec env).2.2.2 i, (dense_score_pipes_spec env).2.2.2 i,
      if_pos ⟨hi, hp⟩]
    exact ⟨rfl, rfl⟩

theorem passing_env_alive : ¬ dies passing_env := by
  norm_num [dies, hits_bounds, hits_pipe, collides, collides_loop, physics, clampf, passing_env,
    fresh_env, init, GRAVITY, FLAP_VEL, BIRD_RADIUS_RATIO, BIRD_X_RATIO, PIPE_WIDTH_RATIO,
    GAP_HEIGHT_RATIO]

theorem passing_env_live : (Sparse.c_step passing_env const_rng).1.terminals = 0 := by
  have h := congrArg Flappy.terminals
    (sparse_c_step_cont passing_env const_rng passing_env_alive (by decide)).1
  exact h

theorem passing_env_count : passed_count passing_env = 1 := by
  show passed_upto passing_env 3 = 1
  rw [passed_upto_succ, passed_upto_succ, passed_upto_succ, passed_upto_zero]
  norm_num [passed, passing_env, fresh_env, init, BIRD_X_RATIO, PIPE_WIDTH_RATIO]

/-- C8 at `passing_env`: the step is not terminal, exactly one pipe is passed, and
the score grows by one. -/
theorem C8_scoring_once_per_pipe_witness :
    (Sparse.c_step passing_env const_rng).1.terminals = 0 ∧
    passed_count passing_env = 1 ∧
    (Sparse.c_step passing_env const_rng).1.score = passing_env.score + (passed_count passing_env : Int) ∧
    passing_env.score ≤ (Sparse.c_step passing_env const_rng).1.score :=
  ⟨passing_env_live, passing_env_count,
    (C8_scoring_once_per_pipe.1 passing_env const_rng passing_env_live).1,
    (C8_scoring_once_per_pipe.1 passing_env const_rng passing_env_live).2.1⟩

/-! ## Recycling -/

theorem sparse_c_step_num_pipes (env : Flappy) (g : Rng) (hn : env.num_pipes = 3) :
    (Sparse.c_step env g).1.num_pipes = 3 := by
  by_cases hd : dies env
  · rw [sparse_c_step_dead env g hd]
    exact (sparse_finish_spec _ g).2.2.2.2.2.1
  · by_cases ht : env.max_steps ≤ env.step_count + 1
    · rw [sparse_c_step_trunc env g hd ht]
      exact (sparse_finish_spec _ _).2.2.2.2.2.1
    · have h := congrArg Flappy.num_pipes (sparse_c_step_cont env g hd (not_le.mp ht)).1
      exact h.trans hn

theorem dense_c_step_num_pipes (env : Flappy) (g : Rng) (hn : env.num_pipes = 3) :
    (Dense.c_step env g).1.num_pipes = 3 := by
  by_cases hd : dies env
  · rw [dense_c_step_dead env g hd]
    exact (dense_finish_spec _ g).2.2.2.2.2.1
  · by_cases ht : env.max_steps ≤ env.step_count + 1
    · rw [dense_c_step_trunc env g hd ht]
      exact (dense_finish_spec _ _).2.2.2.2.2.1
    · have h := congrArg Flappy.num_pipes (dense_c_step_cont env g hd (not_le.mp ht)).1
      exact h.trans hn

/-- The respawn of slot `l` past the rightmost pipe `m` rewrites that slot alone,
and for `width > 0` and the spacing `0.45` of `init` the respawned pipe lies to
the right of every other active pipe's right edge. -/
theorem respawn_clear (env : Flappy) (P : Nat → Pipe) (l : Nat) (m c : ℚ)
    (hm : rightmost_x env m)
    (hP : P = Function.update (stepped_pipe env) l
      { x := m + (env.width : ℚ) * env.pipe_spacing
        gap_center_y := c
        gap_height := env.gap_height
        scored := 0 }) :
    P l = { x := m + (env.width : ℚ) * env.pipe_spacing
            gap_center_y := c
            gap_height := env.gap_height
            scored := 0 } ∧
    (∀ j, j ≠ l → P j = stepped_pipe env j) ∧
    (0 < env.width → env.pipe_spacing = PIPE_SPACING_RATIO →
      ∀ j, j < env.num_pipes.toNat → j ≠ l →
        (P j).x + (env.width : ℚ) * PIPE_WIDTH_RATIO < (P l).x) := by
  refine ⟨by rw [hP, Function.update_same], fun j hj => by rw [hP, Function.update_noteq hj],
    fun hw hps j hj hjl => ?_⟩
  rw [hP, Function.update_same, Function.update_noteq hjl, hps]
  have h1 := hm.2 j hj
  have hw' : (0 : ℚ) < (env.width : ℚ) := by exact_mod_cast hw
  show (stepped_pipe env j).x + (env.width : ℚ) * PIPE_WIDTH_RATIO <
    m + (env.width : ℚ) * PIPE_SPACING_RATIO
  norm_num [ PIPE_WIDTH_RATIO, PIPE_SPACING_RATIO]
  linarith

/-- C9: `num_pipes` stays `3` along every run from a reset, in both variants.
In a non-terminal step from a state with three active pipes, after the pipes
have moved left by `pipe_speed`, if the first slot `l` of minimal `x` has
`x + pipe_width < 0` then exactly that slot is rewritten, with
`x = (maximal x over the active pipes) + width*pipe_spacing`, the scored flag
cleared and a fresh gap, and for `width > 0` (and the spacing `0.45` set by
`init`) it lies to the right of the right edge of every other active pipe;
otherwise no slot is respawned. -/
theorem C9_recycling :
    (∀ (env : Flappy) (d : ℚ) (g : Rng) (acts : List Int),
      (Sparse.run (Sparse.c_reset env d g) acts).1.num_pipes = 3) ∧
    (∀ (env : Flappy) (g : Rng) (acts : List Int),
      (Dense.run (Dense.c_reset env g) acts).1.num_pipes = 3) ∧
    (∀ (env : Flappy) (g : Rng), env.num_pipes = 3 → (Sparse.c_step env g).1.terminals = 0 →
      ∃ l m, leftmost_slot env l ∧ rightmost_x env m ∧
        ((stepped_pipe env l).x + (env.width : ℚ) * PIPE_WIDTH_RATIO < 0 →
          (Sparse.c_step env g).1.pipes l =
            { x := m + (env.width : ℚ) * env.pipe_spacing
              gap_center_y := Sparse.fresh_gap env.curriculum_difficulty g
              gap_height := env.gap_height
              scored := 0 } ∧
          (∀ j, j ≠ l → (Sparse.c_step env g).1.pipes j = stepped_pipe env j) ∧
          (0 < env.width → env.pipe_spacing = PIPE_SPACING_RATIO →
            ∀ j, j < env.num_pipes.toNat → j ≠ l →
              ((Sparse.c_step env g).1.pipes j).x + (env.width : ℚ) * PIPE_WIDTH_RATIO <
                ((Sparse.c_step env g).1.pipes l).x)) ∧
        (¬ (stepped_pipe env l).x + (env.width : ℚ) * PIPE_WIDTH_RATIO < 0 →
          ∀ j, (Sparse.c_step env g).1.pipes j = stepped_pipe env j)) ∧
    (∀ (env : Flappy) (g : Rng), env.num_pipes = 3 → (Dense.c_step env g).1.terminals = 0 →
      ∃ l m, leftmost_slot env l ∧ rightmost_x env m ∧
        ((stepped_pipe env l).x + (env.width : ℚ) * PIPE_WIDTH_RATIO < 0 →
          (Dense.c_step env g).1.pipes l =
            { x := m + (env.width : ℚ) * env.pipe_spacing
              gap_center_y := Dense.fresh_gap env.curriculum_difficulty g
              gap_height := env.gap_height
              scored := 0 } ∧
          (∀ j, j ≠ l → (Dense.c_step env g).1.pipes j = stepped_pipe env j) ∧
          (0 < env.width → env.pipe_spacing = PIPE_SPACING_RATIO →
            ∀ j, j < env.num_pipes.toNat → j ≠ l →
              ((Dense.c_step env g).1.pipes j).x + (env.width : ℚ) * PIPE_WIDTH_RATIO <
                ((Dense.c_step env g).1.pipes l).x)) ∧
        (¬ (stepped_pipe env l).x + (env.width : ℚ) * PIPE_WIDTH_RATIO < 0 →
          ∀ j, (Dense.c_step env g).1.pipes j = stepped_pipe env j)) := by
  refine ⟨fun env d g acts => ?_, fun env g acts => ?_, fun env g hn h => ?_, fun env g hn h => ?_⟩
  · refine sparse_run_inv (fun s => s.1.num_pipes = 3)
      (fun s a hs => sparse_c_step_num_pipes _ _ hs) acts _ ?_
    have h := congrArg Flappy.num_pipes (sparse_c_reset_frame env d g)
    exact h
  · refine dense_run_inv (fun s => s.1.num_pipes = 3)
      (fun s a hs => dense_c_step_num_pipes _ _ hs) acts _ ?_
    have h := congrArg Flappy.num_pipes (dense_c_reset_frame env g)
    exact h
  · obtain ⟨l, m, hl, hm, h1, h2⟩ := sparse_step_pipes_spec env g h (by rw [hn]; decide)
    exact ⟨l, m, hl, hm, fun hc => respawn_clear env _ l m _ hm (h1 hc),
      fun hc j => by rw [h2 hc]⟩
  · obtain ⟨l, m, hl, hm, h1, h2⟩ := dense_step_pipes_spec env g h (by rw [hn]; decide)
    exact ⟨l, m, hl, hm, fun hc => respawn_clear env _ l m _ hm (h1 hc),
      fun hc j => by rw [h2 hc]⟩

theorem recycling_env_alive : ¬ dies recycling_env := by
  norm_num [dies, hits_bounds, hits_pipe, collides, collides_loop, physics, clampf, recycling_env,
    fresh_env, init, GRAVITY, FLAP_VEL, BIRD_RADIUS_RATIO, BIRD_X_RATIO, PIPE_WIDTH_RATIO,
    GAP_HEIGHT_RATIO]

theorem recycling_env_live : (Dense.c_step recycling_env const_rng).1.terminals = 0 := by
  have h := congrArg Flappy.terminals
    (dense_c_step_cont recycling_env const_rng recycling_env_alive (by decide)).1
  exact h

theorem recycling_env_leftmost : leftmost_slot recycling_env 0 ∧
    (stepped_pipe recycling_env 0).x + (recycling_env.width : ℚ) * PIPE_WIDTH_RATIO < 0 := by
  refine ⟨⟨by decide, fun j hj => ?_, fun j hj => absurd hj (Nat.not_lt_zero j)⟩, ?_⟩
  · have hj3 : j < 3 := hj
    interval_cases j <;>
      norm_num [stepped_pipe, recycling_env, fresh_env, init, PIPE_SPEED_RATIO]
  · norm_num [stepped_pipe, recycling_env, fresh_env, init, PIPE_SPEED_RATIO, PIPE_WIDTH_RATIO]

/-- C9 at `recycling_env`: the step is not terminal, slot `0` is the leftmost
and has left the screen, and it is the one slot that is respawned, unscored. -/
theorem C9_recycling_witness :
    recycling_env.num_pipes = 3 ∧ (Dense.c_step recycling_env const_rng).1.terminals = 0 ∧
    ((Dense.c_step recycling_env const_rng).1.pipes 0).scored = 0 ∧
    (∀ j, j ≠ 0 → (Dense.c_step recycling_env const_rng).1.pipes j = stepped_pipe recycling_env j) := by
  obtain ⟨l, m, hl, _, h1, _⟩ := C9_recycling.2.2.2 recycling_env const_rng rfl recycling_env_live
  have hl0 : l = 0 := leftmost_slot_unique recycling_env l 0 hl recycling_env_leftmost.1
  subst hl0
  obtain ⟨ha, hb, _⟩ := h1 recycling_env_leftmost.2
  exact ⟨rfl, recycling_env_live, by rw [ha], hb⟩

/-! ## The observation encoding -/

/-- The observation the sparse `compute_observations` writes, by target. -/
theorem sparse_compute_observations_spec (s : Flappy) :
    (∀ t, scan_target s t →
      (Sparse.compute_observations s).observations =
        [clampf s.bird_y 0 1, clampf (s.bird_vy / 0.1) (-1) 1,
          clampf (((s.pipes t).x - (s.width : ℚ) * BIRD_X_RATIO) / (s.width : ℚ)) 0 1,
          (s.pipes t).gap_center_y, (s.pipes t).gap_height]) ∧
    (no_scan_target s →
      (Sparse.compute_observations s).observations =
        [clampf s.bird_y 0 1, clampf (s.bird_vy / 0.1) (-1) 1, 1, 0.5, s.gap_height]) := by
  have z0 : (0.0 : ℚ) = 0 := by norm_num
  have z1 : (1.0 : ℚ) = 1 := by norm_num
  constructor
  · intro t ht
    have h := (find_next_some s t).mpr ht
    unfold Sparse.compute_observations
    simp only [h, z0, z1]
  · intro hno
    have h := (find_next_none s).mpr hno
    unfold Sparse.compute_observations
    simp only [h, z0, z1]

/-- The observation the dense `compute_observations` writes, by target. -/
theorem dense_compute_observations_spec (s : Flappy) :
    (∀ t, scan_target s t →
      (Dense.compute_observations s).observations =
        [clampf s.bird_y 0 1, clampf (s.bird_vy / 0.1) (-1) 1,
          clampf (((s.pipes t).x - (s.width : ℚ) * BIRD_X_RATIO) / (s.width : ℚ)) 0 1,
          (s.pipes t).gap_center_y, (s.pipes t).gap_height, 1,
          clampf ((s.pipes t).gap_center_y - s.bird_y) (-1) 1,
          if (s.pipes t).gap_height * 0.5 > 0.000001 then
            clampf (((s.pipes t).gap_center_y - (s.pipes t).gap_height * 0.5 - s.bird_y) /
              ((s.pipes t).gap_height * 0.5)) (-1) 1
          else 0,
          if (s.pipes t).gap_height * 0.5 > 0.000001 then
            clampf ((s.bird_y - ((s.pipes t).gap_center_y + (s.pipes t).gap_height * 0.5)) /
              ((s.pipes t).gap_height * 0.5)) (-1) 1
          else 0]) ∧
    (no_scan_target s →
      (Dense.compute_observations s).observations =
        [clampf s.bird_y 0 1, clampf (s.bird_vy / 0.1) (-1) 1, 1, 0.5, s.gap_height, 0, 0, 0, 0]) := by
  have z0 : (0.0 : ℚ) = 0 := by norm_num
  have z1 : (1.0 : ℚ) = 1 := by norm_num
  constructor
  · intro t ht
    have h := (find_next_some s t).mpr ht
    unfold Dense.compute_observations
    simp only [h, z0, z1]
  · intro hno
    have h := (find_next_none s).mpr hno
    unfold Dense.compute_observations
    simp only [h, z0, z1]

theorem find_next_congr (a b : Flappy) (hp : a.pipes = b.pipes) (hn : a.num_pipes = b.num_pipes)
    (bx pw : ℚ) : find_next a bx pw = find_next b bx pw := by
  unfold find_next
  rw [hp, hn]

/-- The observation depends on the state outside the observation buffer only. -/
theorem sparse_compute_observations_congr (a b : Flappy) (h : a.noObs = b.noObs) :
    Sparse.compute_observations a = Sparse.compute_observations b := by
  cases a
  cases b
  simp only [Flappy.noObs, Flappy.mk.injEq] at h
  obtain ⟨h1, _, h2, h3, h4, h5, h6, h7, h8, h9, h10, h11, h12, h13, h14, h15, h16, h17, h18, h19⟩ := h
  subst h1 h2 h3 h4 h5 h6 h7 h8 h9 h10 h11 h12 h13 h14 h15 h16 h17 h18 h19
  rfl

theorem dense_compute_observations_congr (a b : Flappy) (h : a.noObs = b.noObs) :
    Dense.compute_observations a = Dense.compute_observations b := by
  cases a
  cases b
  simp only [Flappy.noObs, Flappy.mk.injEq] at h
  obtain ⟨h1, _, h2, h3, h4, h5, h6, h7, h8, h9, h10, h11, h12, h13, h14, h15, h16, h17, h18, h19⟩ := h
  subst h1 h2 h3 h4 h5 h6 h7 h8 h9 h10 h11 h12 h13 h14 h15 h16 h17 h18 h19
  rfl

/-- Computing the observation twice changes nothing: the buffer holds the
encoding of the state it is part of. -/
theorem sparse_compute_observations_idem (s : Flappy) :
    Sparse.compute_observations (Sparse.compute_observations s) = Sparse.compute_observations s :=
  sparse_compute_observations_congr _ _ (sparse_compute_observations_noObs s)

theorem dense_compute_observations_idem (s : Flappy) :
    Dense.compute_observations (Dense.compute_observations s) = Dense.compute_observations s :=
  dense_compute_observations_congr _ _ (dense_compute_observations_noObs s)

/-! ## The state and the observation after a reset -/

theorem reset_scan_target (r : Flappy) (w : Int) (ps : ℚ) (hw : r.width = w) (hn : r.num_pipes = 3)
    (hx : ∀ i, i < 3 → (r.pipes i).x = (w : ℚ) * 0.5 + (i : ℚ) * (w : ℚ) * ps)
    (hps : ps = PIPE_SPACING_RATIO) (h0 : 0 < w) (h1 : w < 2000000000) : scan_target r 0 := by
  have hw0 : (0 : ℚ) < (w : ℚ) := by exact_mod_cast h0
  have hw1 : (w : ℚ) < 2000000000 := by exact_mod_cast h1
  have hx0 : (r.pipes 0).x = (w : ℚ) * 0.5 := by
    rw [hx 0 (by decide)]; push_cast; ring
  refine ⟨⟨by rw [hn]; decide, ?_, fun j hj _ => ?_⟩, ?_, fun j hj => absurd hj (Nat.not_lt_zero j)⟩
  · unfold ahead
    rw [hx0, hw]
    norm_num [ PIPE_WIDTH_RATIO, BIRD_X_RATIO]
    linarith
  · rw [hn] at hj
    have hj3 : j < 3 := hj
    rw [hx0, hx j hj3, hps]
    have hj0 : (0 : ℚ) ≤ (j : ℚ) := Nat.cast_nonneg j
    have : (0 : ℚ) ≤ (j : ℚ) * (w : ℚ) * PIPE_SPACING_RATIO := by
      unfold PIPE_SPACING_RATIO
      positivity
    linarith
  · rw [hx0]
    norm_num
    linarith

theorem reset_no_scan_target (r : Flappy) (w : Int) (ps : ℚ) (hn : r.num_pipes = 3)
    (hx : ∀ i, i < 3 → (r.pipes i).x = (w : ℚ) * 0.5 + (i : ℚ) * (w : ℚ) * ps)
    (hps : ps = PIPE_SPACING_RATIO) (h1 : 2000000000 ≤ w) : no_scan_target r := by
  have hw1 : (2000000000 : ℚ) ≤ (w : ℚ) := by exact_mod_cast h1
  intro j hj _
  rw [hn] at hj
  have hj3 : j < 3 := hj
  rw [hx j hj3, hps]
  have hj0 : (0 : ℚ) ≤ (j : ℚ) := Nat.cast_nonneg j
  have : (0 : ℚ) ≤ (j : ℚ) * (w : ℚ) * PIPE_SPACING_RATIO := by
    unfold PIPE_SPACING_RATIO
    positivity
  norm_num
  linarith

theorem reset_obs_head (y vy x w : ℚ) (hy : y = 0.5) (hvy : vy = 0) (hx : x = w * 0.5)
    (hw : 0 < w) :
    clampf y 0 1 = 0.5 ∧ clampf (vy / 0.1) (-1) 1 = 0 ∧
      clampf ((x - w * BIRD_X_RATIO) / w) 0 1 = 0.3 := by
  subst hy hvy hx
  have h3 : (w * 0.5 - w * BIRD_X_RATIO) / w = 0.3 := by
    unfold BIRD_X_RATIO
    field_simp
    ring
  rw [h3]
  refine ⟨?_, ?_, ?_⟩ <;> norm_num [clampf]

/-- The sparse observation after a reset, for a width up to `2^24`, which the
cast `(float)width` leaves as it is. -/
theorem sparse_reset_observation (env : Flappy) (d : ℚ) (g : Rng)
    (hps : env.pipe_spacing = PIPE_SPACING_RATIO) (hw0 : 0 < env.width)
    (hw1 : env.width ≤ 16777216) :
    (Sparse.c_reset env d g).1.observations =
      [0.5, 0, 0.3, ((Sparse.c_reset env d g).1.pipes 0).gap_center_y,
        ((Sparse.c_reset env d g).1.pipes 0).gap_height] := by
  have hf := sparse_c_reset_frame env d g
  have hp := (sparse_c_reset_pipes env d g).1
  have hw : (Sparse.c_reset env d g).1.width = env.width := by
    have h := congrArg Flappy.width hf; exact h
  have hn : (Sparse.c_reset env d g).1.num_pipes = 3 := by
    have h := congrArg Flappy.num_pipes hf; exact h
  have hy : (Sparse.c_reset env d g).1.bird_y = 0.5 := by
    have h := congrArg Flappy.bird_y hf; exact h
  have hvy : (Sparse.c_reset env d g).1.bird_vy = 0 := by
    have h := congrArg Flappy.bird_vy hf
    refine h.trans ?_
    show (0.0 : ℚ) = 0
    norm_num
  have hst := reset_scan_target (Sparse.c_reset env d g).1 env.width env.pipe_spacing hw hn
    (fun i hi => (hp i hi).1) hps hw0 (by omega)
  have hidem : Sparse.compute_observations (Sparse.c_reset env d g).1 = (Sparse.c_reset env d g).1 :=
    sparse_compute_observations_idem _
  have hobs := (sparse_compute_observations_spec (Sparse.c_reset env d g).1).1 0 hst
  rw [hidem] at hobs
  have hx0 : ((Sparse.c_reset env d g).1.pipes 0).x = (env.width : ℚ) * 0.5 := by
    rw [(hp 0 (by decide)).1]; push_cast; ring
  obtain ⟨e1, e2, e3⟩ := reset_obs_head _ _ _ (env.width : ℚ) hy hvy hx0 (by exact_mod_cast hw0)
  rw [hw, e1, e2, e3] at hobs
  exact hobs

/-- The dense observation after a reset, for a width up to `2^24`, which the
cast `(float)width` leaves as it is. -/
theorem dense_reset_observation (env : Flappy) (g : Rng)
    (hps : env.pipe_spacing = PIPE_SPACING_RATIO) (hw0 : 0 < env.width)
    (hw1 : env.width ≤ 16777216) :
    (Dense.c_reset env g).1.observations.take 5 =
      [0.5, 0, 0.3, ((Dense.c_reset env g).1.pipes 0).gap_center_y,
        ((Dense.c_reset env g).1.pipes 0).gap_height] ∧
    (Dense.c_reset env g).1.observations.length = 9 := by
  have hf := dense_c_reset_frame env g
  have hp := (dense_c_reset_pipes env g).1
  have hw : (Dense.c_reset env g).1.width = env.width := by
    have h := congrArg Flappy.width hf; exact h
  have hn : (Dense.c_reset env g).1.num_pipes = 3 := by
    have h := congrArg Flappy.num_pipes hf; exact h
  have hy : (Dense.c_reset env g).1.bird_y = 0.5 := by
    have h := congrArg Flappy.bird_y hf; exact h
  have hvy : (Dense.c_reset env g).1.bird_vy = 0 := by
    have h := congrArg Flappy.bird_vy hf
    refine h.trans ?_
    show (0.0 : ℚ) = 0
    norm_num
  have hst := reset_scan_target (Dense.c_reset env g).1 env.width env.pipe_spacing hw hn
    (fun i hi => (hp i hi).1) hps hw0 (by omega)
  have hidem : Dense.compute_observations (Dense.c_reset env g).1 = (Dense.c_reset env g).1 :=
    dense_compute_observations_idem _
  have hobs := (dense_compute_observations_spec (Dense.c_reset env g).1).1 0 hst
  rw [hidem] at hobs
  have hx0 : ((Dense.c_reset env g).1.pipes 0).x = (env.width : ℚ) * 0.5 := by
    rw [(hp 0 (by decide)).1]; push_cast; ring
  obtain ⟨e1, e2, e3⟩ := reset_obs_head _ _ _ (env.width : ℚ) hy hvy hx0 (by exact_mod_cast hw0)
  rw [hw, e1, e2, e3] at hobs
  rw [hobs]
  exact ⟨rfl, rfl⟩

/-- C10 fails on the code for `width = 2000000000`: after `c_reset` pipe `0` is
at `x = 1e9`, ahead of the bird, so the distance component of C10 is `0.3`; the
target scan starts from `best_x = 1e9f`, does not select that pipe, and the
third component of the observation is the neutral `1`, in both variants.  What
`c_reset` leaves for every prior state, in both variants:
`log.episode_return = 0`, `score = 0`, `step_count = 0`, `bird_y = 0.5`,
`bird_vy = 0`, `num_pipes = 3`, pipe `i` at `x = width*0.5 + i*width*pipe_spacing`
with `scored = 0` and the gap height of the environment (`0.28` from `init`) for
`i = 0, 1, 2`, and an observation buffer that holds the encoding of that
state. -/
theorem C10_reset_distance_at_wide_width :
    (0 < (fresh_env 2000000000 512 5000).width ∧
      (fresh_env 2000000000 512 5000).gap_height = GAP_HEIGHT_RATIO ∧
      (fresh_env 2000000000 512 5000).pipe_spacing = PIPE_SPACING_RATIO ∧
      ((Sparse.c_reset (fresh_env 2000000000 512 5000) 1 const_rng).1.pipes 0).x = 1000000000 ∧
      ((Dense.c_reset (fresh_env 2000000000 512 5000) const_rng).1.pipes 0).x = 1000000000 ∧
      (((1000000000 : ℚ) - 0.2 * 2000000000) / 2000000000 = 0.3) ∧
      (Sparse.c_reset (fresh_env 2000000000 512 5000) 1 const_rng).1.observations =
        [0.5, 0, 1, 0.5, 0.28] ∧
      (Dense.c_reset (fresh_env 2000000000 512 5000) const_rng).1.observations =
        [0.5, 0, 1, 0.5, 0.28, 0, 0, 0, 0]) ∧
    (∀ (env : Flappy) (d : ℚ) (g : Rng),
      ((Sparse.c_reset env d g).1.log.episode_return = 0 ∧
        (Sparse.c_reset env d g).1.score = 0 ∧
        (Sparse.c_reset env d g).1.step_count = 0 ∧
        (Sparse.c_reset env d g).1.bird_y = 0.5 ∧
        (Sparse.c_reset env d g).1.bird_vy = 0 ∧
        (Sparse.c_reset env d g).1.num_pipes = 3 ∧
        (∀ i, i < 3 →
          ((Sparse.c_reset env d g).1.pipes i).x =
            (env.width : ℚ) * 0.5 + (i : ℚ) * (env.width : ℚ) * env.pipe_spacing ∧
          ((Sparse.c_reset env d g).1.pipes i).scored = 0 ∧
          ((Sparse.c_reset env d g).1.pipes i).gap_height = env.gap_height) ∧
        Sparse.compute_observations (Sparse.c_reset env d g).1 = (Sparse.c_reset env d g).1) ∧
      ((Dense.c_reset env g).1.log.episode_return = 0 ∧
        (Dense.c_reset env g).1.score = 0 ∧
        (Dense.c_reset env g).1.step_count = 0 ∧
        (Dense.c_reset env g).1.bird_y = 0.5 ∧
        (Dense.c_reset env g).1.bird_vy = 0 ∧
        (Dense.c_reset env g).1.num_pipes = 3 ∧
        (∀ i, i < 3 →
          ((Dense.c_reset env g).1.pipes i).x =
            (env.width : ℚ) * 0.5 + (i : ℚ) * (env.width : ℚ) * env.pipe_spacing ∧
          ((Dense.c_reset env g).1.pipes i).scored = 0 ∧
          ((Dense.c_reset env g).1.pipes i).gap_height = env.gap_height) ∧
        Dense.compute_observations (Dense.c_reset env g).1 = (Dense.c_reset env g).1)) := by
  have hc : clampf 0.5 0 1 = 0.5 ∧ clampf ((0 : ℚ) / 0.1) (-1) 1 = 0 := by
    constructor <;> norm_num [clampf]
  have z0 : (0.0 : ℚ) = 0 := by norm_num
  have hgh : GAP_HEIGHT_RATIO = 0.28 := by norm_num [ GAP_HEIGHT_RATIO]
  have hx0 : ∀ x : ℚ, x = ((fresh_env 2000000000 512 5000).width : ℚ) * 0.5 +
      ((0 : Nat) : ℚ) * ((fresh_env 2000000000 512 5000).width : ℚ) *
        (fresh_env 2000000000 512 5000).pipe_spacing → x = 1000000000 := by
    intro x hx
    rw [hx]
    have hw : (fresh_env 2000000000 512 5000).width = 2000000000 := rfl
    rw [hw]
    norm_num
  refine ⟨⟨by decide, rfl, rfl,
    hx0 _ ((sparse_c_reset_pipes (fresh_env 2000000000 512 5000) 1 const_rng).1 0 (by decide)).1,
    hx0 _ ((dense_c_reset_pipes (fresh_env 2000000000 512 5000) const_rng).1 0 (by decide)).1,
    by norm_num, ?_, ?_⟩, fun env d g => ⟨?_, ?_⟩⟩
  · have hf := sparse_c_reset_frame (fresh_env 2000000000 512 5000) 1 const_rng
    have hp := (sparse_c_reset_pipes (fresh_env 2000000000 512 5000) 1 const_rng).1
    have hn : (Sparse.c_reset (fresh_env 2000000000 512 5000) 1 const_rng).1.num_pipes = 3 := by
      have h := congrArg Flappy.num_pipes hf; exact h
    have hy : (Sparse.c_reset (fresh_env 2000000000 512 5000) 1 const_rng).1.bird_y = 0.5 := by
      have h := congrArg Flappy.bird_y hf; exact h
    have hvy : (Sparse.c_reset (fresh_env 2000000000 512 5000) 1 const_rng).1.bird_vy = 0 := by
      have h := congrArg Flappy.bird_vy hf; exact h.trans z0
    have hg : (Sparse.c_reset (fresh_env 2000000000 512 5000) 1 const_rng).1.gap_height =
        GAP_HEIGHT_RATIO := by
      have h := congrArg Flappy.gap_height hf; exact h
    have hno := reset_no_scan_target _ (fresh_env 2000000000 512 5000).width
      (fresh_env 2000000000 512 5000).pipe_spacing hn (fun i hi => (hp i hi).1) rfl (by decide)
    have hobs := (sparse_compute_observations_spec
      (Sparse.c_reset (fresh_env 2000000000 512 5000) 1 const_rng).1).2 hno
    have hidem : Sparse.compute_observations
        (Sparse.c_reset (fresh_env 2000000000 512 5000) 1 const_rng).1 =
        (Sparse.c_reset (fresh_env 2000000000 512 5000) 1 const_rng).1 :=
      sparse_compute_observations_idem _
    rw [hidem, hy, hvy, hg, hc.1, hc.2, hgh] at hobs
    exact hobs
  · have hf := dense_c_reset_frame (fresh_env 2000000000 512 5000) const_rng
    have hp := (dense_c_reset_pipes (fresh_env 2000000000 512 5000) const_rng).1
    have hn : (Dense.c_reset (fresh_env 2000000000 512 5000) const_rng).1.num_pipes = 3 := by
      have h := congrArg Flappy.num_pipes hf; exact h
    have hy : (Dense.c_reset (fresh_env 2000000000 512 5000) const_rng).1.bird_y = 0.5 := by
      have h := congrArg Flappy.bird_y hf; exact h
    have hvy : (Dense.c_reset (fresh_env 2000000000 512 5000) const_rng).1.bird_vy = 0 := by
      have h := congrArg Flappy.bird_vy hf; exact h.trans z0
    have hg : (Dense.c_reset (fresh_env 2000000000 512 5000) const_rng).1.gap_height =
        GAP_HEIGHT_RATIO := by
      have h := congrArg Flappy.gap_height hf; exact h
    have hno := reset_no_scan_target _ (fresh_env 2000000000 512 5000).width
      (fresh_env 2000000000 512 5000).pipe_spacing hn (fun i hi => (hp i hi).1) rfl (by decide)
    have hobs := (dense_compute_observations_spec
      (Dense.c_reset (fresh_env 2000000000 512 5000) const_rng).1).2 hno
    have hidem : Dense.compute_observations
        (Dense.c_reset (fresh_env 2000000000 512 5000) const_rng).1 =
        (Dense.c_reset (fresh_env 2000000000 512 5000) const_rng).1 :=
      dense_compute_observations_idem _
    rw [hidem, hy, hvy, hg, hc.1, hc.2, hgh] at hobs
    exact hobs
  · have hf := sparse_c_reset_frame env d g
    have hp := (sparse_c_reset_pipes env d g).1
    refine ⟨?_, ?_, ?_, ?_, ?_, ?_, hp, sparse_compute_observations_idem _⟩
    · have h := congrArg (fun e => e.log.episode_return) hf; exact h.trans z0
    · have h := congrArg Flappy.score hf; exact h
    · have h := congrArg Flappy.step_count hf; exact h
    · have h := congrArg Flappy.bird_y hf; exact h
    · have h := congrArg Flappy.bird_vy hf; exact h.trans z0
    · have h := congrArg Flappy.num_pipes hf; exact h
  · have hf := dense_c_reset_frame env g
    have hp := (dense_c_reset_pipes env g).1
    refine ⟨?_, ?_, ?_, ?_, ?_, ?_, hp, dense_compute_observations_idem _⟩
    · have h := congrArg (fun e => e.log.episode_return) hf; exact h.trans z0
    · have h := congrArg Flappy.score hf; exact h
    · have h := congrArg Flappy.step_count hf; exact h
    · have h := congrArg Flappy.bird_y hf; exact h
    · have h := congrArg Flappy.bird_vy hf; exact h.trans z0
    · have h := congrArg Flappy.num_pipes hf; exact h

/-! ## The curriculum sampler -/

/-- The sparse sampler, branch by branch. -/
theorem sparse_sample_gap_center_eq (d : ℚ) (g : Rng) :
    Sparse.sample_gap_center d g =
      if Sparse.takes_extreme d g then
        (if (rand (rand g).2).1 % 2 = 0 then
          (0.25 + (((rand (rand (rand g).2).2).1 % 11 : Nat) : ℚ) / 100.0,
            (rand (rand (rand g).2).2).2)
        else
          (0.65 + (((rand (rand (rand g).2).2).1 % 11 : Nat) : ℚ) / 100.0,
            (rand (rand (rand g).2).2).2))
      else if Sparse.grid_steps d ≤ 0 then (0.5, (rand g).2)
      else
        (0.5 - Sparse.half_range d +
            (((rand (rand g).2).1 % (Sparse.grid_steps d + 1).toNat : Nat) : ℚ) / 100.0,
          (rand (rand g).2).2) := rfl

theorem sparse_not_extreme_of_high (d : ℚ) (g : Rng) (h : 0.85 ≤ d) : ¬ Sparse.takes_extreme d g := by
  unfold Sparse.takes_extreme
  have hp : Sparse.extreme_prob d = 0 := by
    unfold Sparse.extreme_prob
    rw [if_neg (fun hh => absurd hh.2 (not_lt.mpr h))]
    norm_num
  rw [hp, not_lt]
  unfold Sparse.draw_r
  positivity

theorem sparse_grid_steps_full (d : ℚ) (h : 0.25 ≤ d) : Sparse.grid_steps d = 50 := by
  unfold Sparse.grid_steps Sparse.half_range truncToInt
  rw [if_neg (not_lt.mpr h), if_pos (by norm_num), Int.floor_eq_iff]
  norm_num

/-- At difficulty `0.85` and above the sparse sampler never takes the extreme
branch and draws the gap centre from the 51 grid points `0.25, 0.26, ..., 0.75`. -/
theorem sparse_sample_high (d : ℚ) (g : Rng) (h : 0.85 ≤ d) :
    (Sparse.sample_gap_center d g).1 = 0.25 + ((g 1 % 51 : Nat) : ℚ) / 100 := by
  have h25 : (0.25 : ℚ) ≤ d := le_trans (by norm_num) h
  rw [sparse_sample_gap_center_eq, if_neg (sparse_not_extreme_of_high d g h),
    sparse_grid_steps_full d h25, if_neg (by decide)]
  have hh : Sparse.half_range d = 0.25 := by
    unfold Sparse.half_range
    rw [if_neg (not_lt.mpr h25)]
  have h51 : ((50 : Int) + 1).toNat = 51 := by decide
  show 0.5 - Sparse.half_range d + (((rand (rand g).2).1 % ((50 : Int) + 1).toNat : Nat) : ℚ) / 100.0 = _
  rw [hh, h51]
  show 0.5 - 0.25 + ((g 1 % 51 : Nat) : ℚ) / 100.0 = _
  norm_num

theorem dense_fresh_gap_range (d : ℚ) (g : Rng) :
    Dense.fresh_gap d g = 0.25 + ((g 0 % 50 : Nat) : ℚ) / 100 ∧
    0.25 ≤ Dense.fresh_gap d g ∧ Dense.fresh_gap d g ≤ 0.74 := by
  have he : Dense.fresh_gap d g = 0.25 + ((g 0 % 50 : Nat) : ℚ) / 100 := by
    show 0.25 + ((g 0 % 50 : Nat) : ℚ) / 100.0 = _
    norm_num
  have hlt : g 0 % 50 < 50 := Nat.mod_lt _ (by decide)
  have hle : ((g 0 % 50 : Nat) : ℚ) ≤ 49 := by
    have : g 0 % 50 ≤ 49 := by omega
    exact_mod_cast this
  have h0 : (0 : ℚ) ≤ ((g 0 % 50 : Nat) : ℚ) := Nat.cast_nonneg _
  refine ⟨he, ?_, ?_⟩
  · rw [he]; norm_num; linarith
  · rw [he]; norm_num; linarith

/-- C11: at every difficulty `d >= 0.85` the curriculum `spawn_pipe` never takes
the extreme-band branch and draws the gap centre from the grid `0.25, 0.26, ...,
0.75` (51 points); the non-curriculum `spawn_pipe` draws it from `0.25, 0.26,
..., 0.74` (50 points).  The two sets differ: with the draw `50` the curriculum
sampler gives `0.75`, which the non-curriculum sampler never gives. -/
theorem C11_samplers_differ :
    (∀ (d : ℚ) (g : Rng), 0.85 ≤ d →
      ¬ Sparse.takes_extreme d g ∧
      (Sparse.sample_gap_center d g).1 = 0.25 + ((g 1 % 51 : Nat) : ℚ) / 100) ∧
    (∀ (env : Flappy) (idx : Nat) (g : Rng),
      ((Dense.spawn_pipe env idx g).1.pipes idx).gap_center_y = 0.25 + ((g 0 % 50 : Nat) : ℚ) / 100 ∧
      ((Dense.spawn_pipe env idx g).1.pipes idx).gap_center_y ≤ 0.74) ∧
    (∀ (env : Flappy) (idx : Nat), env.curriculum_difficulty = 1 →
      ((Sparse.spawn_pipe env idx fifty_rng).1.pipes idx).gap_center_y = 0.75) := by
  refine ⟨fun d g h => ⟨sparse_not_extreme_of_high d g h, sparse_sample_high d g h⟩,
    fun env idx g => ?_, fun env idx hd => ?_⟩
  · rw [dense_spawn_pipes, Function.update_same]
    exact ⟨(dense_fresh_gap_range env.curriculum_difficulty g).1,
      (dense_fresh_gap_range env.curriculum_difficulty g).2.2⟩
  · rw [sparse_spawn_pipes, Function.update_same]
    show (Sparse.sample_gap_center env.curriculum_difficulty fifty_rng).1 = 0.75
    rw [hd, sparse_sample_high 1 fifty_rng (by norm_num)]
    norm_num [fifty_rng]

theorem pre_physics (env : Flappy) :
    (pre env).bird_vy = (if env.actions = 1 then -env.flap_velocity else env.bird_vy) + env.gravity ∧
    (pre env).bird_y = clampf (env.bird_y + (pre env).bird_vy) 0 1 := by
  refine ⟨rfl, ?_⟩
  show clampf (env.bird_y + (pre env).bird_vy) 0.0 1.0 = _
  norm_num

/-- C14: in a step that does not terminate, if the action is a flap (`1`) the
resulting `bird_vy` is `-flap_velocity + gravity` whatever the velocity before
the step; if the action is the no-op (`0`) it is `bird_vy + gravity`; in both
cases the resulting `bird_y` is `clamp(bird_y + bird_vy', 0, 1)`.  In both
variants. -/
theorem C14_physics_order (env : Flappy) (g : Rng) :
    ((Sparse.c_step env g).1.terminals = 0 →
      (env.actions = 1 → (Sparse.c_step env g).1.bird_vy = -env.flap_velocity + env.gravity) ∧
      (env.actions = 0 → (Sparse.c_step env g).1.bird_vy = env.bird_vy + env.gravity) ∧
      (Sparse.c_step env g).1.bird_y =
        clampf (env.bird_y + (Sparse.c_step env g).1.bird_vy) 0 1) ∧
    ((Dense.c_step env g).1.terminals = 0 →
      (env.actions = 1 → (Dense.c_step env g).1.bird_vy = -env.flap_velocity + env.gravity) ∧
      (env.actions = 0 → (Dense.c_step env g).1.bird_vy = env.bird_vy + env.gravity) ∧
      (Dense.c_step env g).1.bird_y =
        clampf (env.bird_y + (Dense.c_step env g).1.bird_vy) 0 1) := by
  have hp := pre_physics env
  constructor
  · intro h
    obtain ⟨hd, ht⟩ := sparse_step_nonterminal env g h
    have hc := (sparse_c_step_cont env g hd ht).1
    have hv : (Sparse.c_step env g).1.bird_vy = (pre env).bird_vy := by
      have h' := congrArg Flappy.bird_vy hc; exact h'
    have hy : (Sparse.c_step env g).1.bird_y = (pre env).bird_y := by
      have h' := congrArg Flappy.bird_y hc; exact h'
    rw [hv, hy]
    refine ⟨fun ha => ?_, fun ha => ?_, hp.2⟩
    · rw [hp.1, if_pos ha]
    · rw [hp.1, if_neg (by rw [ha]; decide)]
  · intro h
    obtain ⟨hd, ht⟩ := dense_step_nonterminal env g h
    have hc := (dense_c_step_cont env g hd ht).1
    have hv : (Dense.c_step env g).1.bird_vy = (pre env).bird_vy := by
      have h' := congrArg Flappy.bird_vy hc; exact h'
    have hy : (Dense.c_step env g).1.bird_y = (pre env).bird_y := by
      have h' := congrArg Flappy.bird_y hc; exact h'
    rw [hv, hy]
    refine ⟨fun ha => ?_, fun ha => ?_, hp.2⟩
    · rw [hp.1, if_pos ha]
    · rw [hp.1, if_neg (by rw [ha]; decide)]

/-- C14 at `passing_env`, whose action is a flap: the step does not terminate and
the velocity after it is `-flap_velocity + gravity`. -/
theorem C14_physics_order_witness :
    (Sparse.c_step passing_env const_rng).1.terminals = 0 ∧ passing_env.actions = 1 ∧
    (Sparse.c_step passing_env const_rng).1.bird_vy =
      -passing_env.flap_velocity + passing_env.gravity :=
  ⟨passing_env_live, rfl,
    ((C14_physics_order passing_env const_rng).1 passing_env_live).1 rfl⟩

theorem sparse_c_step_eq_after (env : Flappy) (g : Rng) :
    Sparse.c_step env g = Sparse.after_physics (pre env) g := rfl

theorem dense_c_step_eq_after (env : Flappy) (g : Rng) :
    Dense.c_step env g = Dense.after_physics (Dense.pflap env) g := rfl

theorem forLoop_comm {σ : Type} (φ : σ → σ) (lo : Nat) (body : Nat → σ → σ)
    (h : ∀ i s, body i (φ s) = φ (body i s)) :
    ∀ k s, forLoop lo body k (φ s) = φ (forLoop lo body k s)
  | 0, _ => rfl
  | k + 1, s => by
    show body (lo + k) (forLoop lo body k (φ s)) = φ (body (lo + k) (forLoop lo body k s))
    rw [forLoop_comm φ lo body h k s, h]

theorem pre_setAction (env : Flappy) (a : Int) (ha : a ≠ 1) :
    pre (env.setAction a) = (pre (env.setAction 0)).setAction a := by
  unfold pre physics Flappy.setAction
  simp only [if_neg ha, if_neg (show (0 : Int) ≠ 1 by decide)]

theorem pflap_setAction (env : Flappy) (a : Int) (ha : a ≠ 1) :
    Dense.pflap (env.setAction a) = (Dense.pflap (env.setAction 0)).setAction a := by
  unfold Dense.pflap
  have h1 : (env.setAction a).actions ≠ 1 := ha
  have h0 : (env.setAction 0).actions ≠ 1 := by
    show (0 : Int) ≠ 1
    decide
  rw [if_neg h1, if_neg h0]
  exact pre_setAction env a ha

theorem hits_pipe_setAction (p : Flappy) (a : Int) : hits_pipe (p.setAction a) = hits_pipe p := by
  unfold hits_pipe collides
  exact collides_loop_congr (p.setAction a) p rfl rfl _ _ _ _ _ _

theorem sparse_score_pipes_setAction (p : Flappy) (a : Int) (pw bx : ℚ) :
    Sparse.score_pipes (p.setAction a) pw bx = (Sparse.score_pipes p pw bx).setAction a := by
  unfold Sparse.score_pipes
  refine forLoop_comm (fun s => s.setAction a) 0 _ (fun i s => ?_) _ p
  show (if ((s.setAction a).pipes i).scored = 0 ∧ ((s.setAction a).pipes i).x + pw < bx then _
    else _) = _
  by_cases hc : (s.pipes i).scored = 0 ∧ (s.pipes i).x + pw < bx
  · have hc' : ((s.setAction a).pipes i).scored = 0 ∧ ((s.setAction a).pipes i).x + pw < bx := hc
    rw [if_pos hc', if_pos hc]
    rfl
  · have hc' : ¬ (((s.setAction a).pipes i).scored = 0 ∧ ((s.setAction a).pipes i).x + pw < bx) := hc
    rw [if_neg hc', if_neg hc]

theorem dense_score_pipes_setAction (p : Flappy) (a : Int) (pw bx : ℚ) :
    Dense.score_pipes (p.setAction a) pw bx = (Dense.score_pipes p pw bx).setAction a := by
  unfold Dense.score_pipes
  refine forLoop_comm (fun s => s.setAction a) 0 _ (fun i s => ?_) _ p
  show (if ((s.setAction a).pipes i).scored = 0 ∧ ((s.setAction a).pipes i).x + pw < bx then _
    else _) = _
  by_cases hc : (s.pipes i).scored = 0 ∧ (s.pipes i).x + pw < bx
  · have hc' : ((s.setAction a).pipes i).scored = 0 ∧ ((s.setAction a).pipes i).x + pw < bx := hc
    rw [if_pos hc', if_pos hc]
    rfl
  · have hc' : ¬ (((s.setAction a).pipes i).scored = 0 ∧ ((s.setAction a).pipes i).x + pw < bx) := hc
    rw [if_neg hc', if_neg hc]

theorem move_pipes_setAction (p : Flappy) (a : Int) :
    move_pipes (p.setAction a) = (move_pipes p).setAction a := by
  unfold move_pipes
  refine forLoop_comm (fun s => s.setAction a) 0 _ (fun i s => ?_) _ p
  rfl

theorem recycle_setAction (spawn : Flappy → Nat → Rng → Flappy × Rng) (a : Int)
    (hs : ∀ e i g, spawn (e.setAction a) i g = ((spawn e i g).1.setAction a, (spawn e i g).2))
    (p : Flappy) (pw : ℚ) (g : Rng) :
    recycle spawn (p.setAction a) pw g =
      ((recycle spawn p pw g).1.setAction a, (recycle spawn p pw g).2) := by
  unfold recycle
  simp only [move_pipes_setAction]
  have hl : find_leftmost ((move_pipes p).setAction a) = find_leftmost (move_pipes p) := rfl
  have hr : find_rightmost ((move_pipes p).setAction a) = find_rightmost (move_pipes p) := rfl
  have hp : ((move_pipes p).setAction a).pipes = (move_pipes p).pipes := rfl
  rw [hl, hr, hp]
  by_cases hc : ((move_pipes p).pipes (find_leftmost (move_pipes p))).x + pw < 0
  · rw [if_pos hc, if_pos hc]
    let q : Pipe := { (move_pipes p).pipes (find_leftmost (move_pipes p)) with
      x := find_rightmost (move_pipes p) + ((move_pipes p).width : ℚ) * (move_pipes p).pipe_spacing }
    let e1 : Flappy := { move_pipes p with
      pipes := Function.update (move_pipes p).pipes (find_leftmost (move_pipes p)) q }
    have h := hs e1 (find_leftmost (move_pipes p)) g
    exact h
  · rw [if_neg hc, if_neg hc]

theorem sparse_spawn_setAction (a : Int) (e : Flappy) (i : Nat) (g : Rng) :
    Sparse.spawn_pipe (e.setAction a) i g =
      ((Sparse.spawn_pipe e i g).1.setAction a, (Sparse.spawn_pipe e i g).2) := rfl

theorem dense_spawn_setAction (a : Int) (e : Flappy) (i : Nat) (g : Rng) :
    Dense.spawn_pipe (e.setAction a) i g =
      ((Dense.spawn_pipe e i g).1.setAction a, (Dense.spawn_pipe e i g).2) := rfl

theorem sparse_compute_observations_setAction (e : Flappy) (a : Int) :
    Sparse.compute_observations (e.setAction a) = (Sparse.compute_observations e).setAction a := by
  have hfn : ∀ bx pw, find_next (e.setAction a) bx pw = find_next e bx pw := fun _ _ => rfl
  unfold Sparse.compute_observations
  have hw : (e.setAction a).width = e.width := rfl
  simp only [hfn, hw]
  split <;> rfl

theorem dense_compute_observations_setAction (e : Flappy) (a : Int) :
    Dense.compute_observations (e.setAction a) = (Dense.compute_observations e).setAction a := by
  have hfn : ∀ bx pw, find_next (e.setAction a) bx pw = find_next e bx pw := fun _ _ => rfl
  unfold Dense.compute_observations
  have hw : (e.setAction a).width = e.width := rfl
  simp only [hfn, hw]
  split <;> rfl

theorem dense_shaping_setAction (e : Flappy) (a : Int) (pw : ℚ) :
    Dense.shaping (e.setAction a) pw = (Dense.shaping e pw).setAction a := by
  have hfn : (find_next ({ (e.setAction a) with
      rewards := (e.setAction a).rewards + SURVIVAL_BONUS })
      (((e.setAction a).width : ℚ) * BIRD_X_RATIO) pw).1 =
      (find_next ({ e with rewards := e.rewards + SURVIVAL_BONUS })
        ((e.width : ℚ) * BIRD_X_RATIO) pw).1 := rfl
  unfold Dense.shaping
  simp only [hfn]
  generalize (find_next ({ e with rewards := e.rewards + SURVIVAL_BONUS })
    ((e.width : ℚ) * BIRD_X_RATIO) pw).1 = o
  cases o with
  | none => rfl
  | some n =>
    simp only
    split_ifs with h1 h2 h2
    · rfl
    · exact absurd h1 h2
    · exact absurd h2 h1
    · rfl

theorem sparse_reset_pipes_setAction (e : Flappy) (a : Int) (g : Rng) :
    Sparse.reset_pipes (e.setAction a) g =
      ((Sparse.reset_pipes e g).1.setAction a, (Sparse.reset_pipes e g).2) := by
  unfold Sparse.reset_pipes
  refine forLoop_comm (fun s : Flappy × Rng => (s.1.setAction a, s.2)) 0 _ (fun i s => ?_) _ (e, g)
  rfl

theorem dense_reset_pipes_setAction (e : Flappy) (a : Int) (g : Rng) :
    Dense.reset_pipes (e.setAction a) g =
      ((Dense.reset_pipes e g).1.setAction a, (Dense.reset_pipes e g).2) := by
  unfold Dense.reset_pipes
  refine forLoop_comm (fun s : Flappy × Rng => (s.1.setAction a, s.2)) 0 _ (fun i s => ?_) _ (e, g)
  rfl

theorem sparse_c_reset_setAction (e : Flappy) (a : Int) (d : ℚ) (g : Rng) :
    Sparse.c_reset (e.setAction a) d g =
      ((Sparse.c_reset e d g).1.setAction a, (Sparse.c_reset e d g).2) := by
  rw [sparse_c_reset_eq, sparse_c_reset_eq]
  have h : Sparse.reset_head (e.setAction a) d = (Sparse.reset_head e d).setAction a := rfl
  rw [h, sparse_reset_pipes_setAction, sparse_compute_observations_setAction]

theorem dense_c_reset_setAction (e : Flappy) (a : Int) (g : Rng) :
    Dense.c_reset (e.setAction a) g =
      ((Dense.c_reset e g).1.setAction a, (Dense.c_reset e g).2) := by
  rw [dense_c_reset_eq, dense_c_reset_eq]
  have h : Dense.reset_head (e.setAction a) = (Dense.reset_head e).setAction a := rfl
  rw [h, dense_reset_pipes_setAction, dense_compute_observations_setAction]

theorem sparse_finish_setAction (e : Flappy) (a : Int) (g : Rng) :
    Sparse.finish (e.setAction a) g =
      ((Sparse.finish e g).1.setAction a, (Sparse.finish e g).2) := by
  let e2 : Flappy :=
    { e with terminals := 1, log := { e.log with episode_return := e.log.episode_return + e.rewards } }
  have h1 : Sparse.finish (e.setAction a) g =
      Sparse.c_reset ((Sparse.add_log e2).setAction a) e.curriculum_difficulty g := rfl
  have h2 : Sparse.finish e g = Sparse.c_reset (Sparse.add_log e2) e.curriculum_difficulty g := rfl
  rw [h1, h2]
  exact sparse_c_reset_setAction _ _ _ _

theorem dense_finish_setAction (e : Flappy) (a : Int) (g : Rng) :
    Dense.finish (e.setAction a) g =
      ((Dense.finish e g).1.setAction a, (Dense.finish e g).2) := by
  let e2 : Flappy :=
    { e with terminals := 1, log := { e.log with episode_return := e.log.episode_return + e.rewards } }
  have h1 : Dense.finish (e.setAction a) g = Dense.c_reset ((Dense.add_log e2).setAction a) g := rfl
  have h2 : Dense.finish e g = Dense.c_reset (Dense.add_log e2) g := rfl
  rw [h1, h2]
  exact dense_c_reset_setAction _ _ _

theorem sparse_observe_setAction (r : Flappy) (a : Int) :
    Sparse.compute_observations { (r.setAction a) with
      log := { (r.setAction a).log with
        episode_return := (r.setAction a).log.episode_return + (r.setAction a).rewards } } =
    (Sparse.compute_observations { r with
      log := { r.log with episode_return := r.log.episode_return + r.rewards } }).setAction a :=
  sparse_compute_observations_setAction
    { r with log := { r.log with episode_return := r.log.episode_return + r.rewards } } a

theorem dense_observe_setAction (r : Flappy) (a : Int) :
    Dense.compute_observations { (r.setAction a) with
      log := { (r.setAction a).log with
        episode_return := (r.setAction a).log.episode_return + (r.setAction a).rewards } } =
    (Dense.compute_observations { r with
      log := { r.log with episode_return := r.log.episode_return + r.rewards } }).setAction a :=
  dense_compute_observations_setAction
    { r with log := { r.log with episode_return := r.log.episode_return + r.rewards } } a

theorem sparse_after_physics_setAction (p : Flappy) (a : Int) (g : Rng) :
    Sparse.after_physics (p.setAction a) g =
      ((Sparse.after_physics p g).1.setAction a, (Sparse.after_physics p g).2) := by
  have hb : hits_bounds (p.setAction a) = hits_bounds p := rfl
  have hp := hits_pipe_setAction p a
  have hw : (p.setAction a).width = p.width := rfl
  have hr := recycle_setAction Sparse.spawn_pipe a (sparse_spawn_setAction a)
  unfold Sparse.after_physics
  simp only [hb, hp, hw, sparse_score_pipes_setAction, hr]
  by_cases h1 : hits_bounds p
  · rw [if_pos h1, if_pos h1]
    exact sparse_finish_setAction { p with rewards := -1.0 } a g
  · rw [if_neg h1, if_neg h1]
    by_cases h2 : hits_pipe p
    · rw [if_pos h2, if_pos h2]
      exact sparse_finish_setAction { p with rewards := -1.0 } a g
    · rw [if_neg h2, if_neg h2]
      split_ifs with h3 h4 h4
      · exact sparse_finish_setAction _ a _
      · exact absurd h3 h4
      · exact absurd h4 h3
      · refine Prod.ext ?_ rfl
        exact sparse_observe_setAction _ a

theorem dense_after_physics_setAction (p : Flappy) (a : Int) (g : Rng) :
    Dense.after_physics (p.setAction a) g =
      ((Dense.after_physics p g).1.setAction a, (Dense.after_physics p g).2) := by
  have hb : hits_bounds (p.setAction a) = hits_bounds p := rfl
  have hp := hits_pipe_setAction p a
  have hw : (p.setAction a).width = p.width := rfl
  have hr := recycle_setAction Dense.spawn_pipe a (dense_spawn_setAction a)
  unfold Dense.after_physics
  simp only [hb, hp, hw, dense_score_pipes_setAction, hr, dense_shaping_setAction]
  by_cases h1 : hits_bounds p
  · rw [if_pos h1, if_pos h1]
    exact dense_finish_setAction { p with rewards := -1.0 } a g
  · rw [if_neg h1, if_neg h1]
    by_cases h2 : hits_pipe p
    · rw [if_pos h2, if_pos h2]
      exact dense_finish_setAction { p with rewards := -1.0 } a g
    · rw [if_neg h2, if_neg h2]
      split_ifs with h3 h4 h4
      · exact dense_finish_setAction _ a _
      · exact absurd h3 h4
      · exact absurd h4 h3
      · refine Prod.ext ?_ rfl
        exact dense_observe_setAction _ a

/-- Whatever the action buffer holds other than `1`, the sparse step is the step
taken with `0` in the buffer, the buffer itself apart. -/
theorem sparse_c_step_setAction (env : Flappy) (a : Int) (g : Rng) (ha : a ≠ 1) :
    Sparse.c_step (env.setAction a) g =
      ((Sparse.c_step (env.setAction 0) g).1.setAction a, (Sparse.c_step (env.setAction 0) g).2) := by
  rw [sparse_c_step_eq_after, sparse_c_step_eq_after, pre_setAction env a ha]
  exact sparse_after_physics_setAction _ a g

theorem dense_c_step_setAction (env : Flappy) (a : Int) (g : Rng) (ha : a ≠ 1) :
    Dense.c_step (env.setAction a) g =
      ((Dense.c_step (env.setAction 0) g).1.setAction a, (Dense.c_step (env.setAction 0) g).2) := by
  rw [dense_c_step_eq_after, dense_c_step_eq_after, pflap_setAction env a ha]
  exact dense_after_physics_setAction _ a g

theorem sparse_step_vy (env : Flappy) (g : Rng) (hd : ¬ dies env)
    (ht : env.step_count + 1 < env.max_steps) :
    (Sparse.c_step env g).1.bird_vy =
      (if env.actions = 1 then -env.flap_velocity else env.bird_vy) + env.gravity := by
  have hc := (sparse_c_step_cont env g hd ht).1
  have hv : (Sparse.c_step env g).1.bird_vy = (pre env).bird_vy := by
    have h := congrArg Flappy.bird_vy hc; exact h
  rw [hv]
  exact (pre_physics env).1

theorem cruising_two_alive : ¬ dies (cruising_env.setAction 2) := by
  norm_num [dies, hits_bounds, hits_pipe, collides, collides_loop, physics, clampf, cruising_env,
    Flappy.setAction, fresh_env, init, GRAVITY, FLAP_VEL, BIRD_RADIUS_RATIO, BIRD_X_RATIO,
    PIPE_WIDTH_RATIO]

theorem cruising_one_alive : ¬ dies (cruising_env.setAction 1) := by
  norm_num [dies, hits_bounds, hits_pipe, collides, collides_loop, physics, clampf, cruising_env,
    Flappy.setAction, fresh_env, init, GRAVITY, FLAP_VEL, BIRD_RADIUS_RATIO, BIRD_X_RATIO,
    PIPE_WIDTH_RATIO]

/-- C15, as the code has it: `c_step` tests `a == 1`, so exactly the value `1` is
a flap and every other action value, zero or not, is the no-op.  For every state
and every action value `a` other than `1` (for example `2` or `-1`), the state,
reward, terminal flag, observation and generator that `c_step` produces are those
it produces with action `0`, the action buffer itself apart.  In both variants. -/
theorem C15_only_one_is_flap (s : Flappy × Rng) (a : Int) (ha : a ≠ 1) :
    Sparse.step_with s a =
      ((Sparse.step_with s 0).1.setAction a, (Sparse.step_with s 0).2) ∧
    Dense.step_with s a =
      ((Dense.step_with s 0).1.setAction a, (Dense.step_with s 0).2) :=
  ⟨sparse_c_step_setAction s.1 a s.2 ha, dense_c_step_setAction s.1 a s.2 ha⟩

/-- C15 at `cruising_env` with the action value `2`. -/
theorem C15_only_one_is_flap_witness :
    (2 : Int) ≠ 1 ∧
    Sparse.step_with (cruising_env, const_rng) 2 =
      ((Sparse.step_with (cruising_env, const_rng) 0).1.setAction 2,
        (Sparse.step_with (cruising_env, const_rng) 0).2) :=
  ⟨by decide, (C15_only_one_is_flap (cruising_env, const_rng) 2 (by decide)).1⟩

/-- C15 as stated fails: from `cruising_env` the step with action `2` leaves the
velocity `0.0018` of a no-op step, the step with action `1` leaves `-0.0182`. -/
theorem C15_counterexample :
    (Sparse.c_step (cruising_env.setAction 2) const_rng).1.bird_vy = 0.0018 ∧
    (Sparse.c_step (cruising_env.setAction 1) const_rng).1.bird_vy = -0.0182 ∧
    (Sparse.c_step (cruising_env.setAction 2) const_rng).1 ≠
      (Sparse.c_step (cruising_env.setAction 1) const_rng).1 := by
  have h2 : (Sparse.c_step (cruising_env.setAction 2) const_rng).1.bird_vy = 0.0018 := by
    rw [sparse_step_vy _ _ cruising_two_alive (by decide)]
    norm_num [cruising_env, Flappy.setAction, fresh_env, init, GRAVITY, FLAP_VEL]
  have h1 : (Sparse.c_step (cruising_env.setAction 1) const_rng).1.bird_vy = -0.0182 := by
    rw [sparse_step_vy _ _ cruising_one_alive (by decide)]
    norm_num [cruising_env, Flappy.setAction, fresh_env, init, GRAVITY, FLAP_VEL]
  refine ⟨h2, h1, fun h => ?_⟩
  have h3 := h2.symm.trans ((congrArg Flappy.bird_vy h).trans h1)
  norm_num at h3

/-! ## The collision test -/

theorem collides_loop_succ (env : Flappy) (bx byy br pw : ℚ) (k i : Nat) :
    collides_loop env bx byy br pw (k + 1) i =
      if (env.pipes i).x + pw < bx - br ∨ (env.pipes i).x > bx + br then
        collides_loop env bx byy br pw k (i + 1)
      else if byy - br < (env.pipes i).gap_center_y * (env.height : ℚ) -
            (env.pipes i).gap_height * (env.height : ℚ) * 0.5 ∨
          byy + br > (env.pipes i).gap_center_y * (env.height : ℚ) +
            (env.pipes i).gap_height * (env.height : ℚ) * 0.5 then true
      else collides_loop env bx byy br pw k (i + 1) := rfl

theorem collides_loop_iff (env : Flappy) (bx byy br : ℚ) :
    ∀ k i, collides_loop env bx byy br ((env.width : ℚ) * PIPE_WIDTH_RATIO) k i = true ↔
      ∃ j, i ≤ j ∧ j < i + k ∧ spans_meet env j bx br ∧ ¬ inside_closed_gap env j byy br
  | 0, i => by
    constructor
    · intro h
      exact absurd h (by simp [collides_loop])
    · rintro ⟨j, h1, h2, _⟩
      omega
  | k + 1, i => by
    have ih := collides_loop_iff env bx byy br k (i + 1)
    have hedge : (env.pipes i).gap_center_y * (env.height : ℚ) -
        (env.pipes i).gap_height * (env.height : ℚ) * 0.5 = top_edge env i := by
      unfold top_edge; norm_num; ring
    have hedge2 : (env.pipes i).gap_center_y * (env.height : ℚ) +
        (env.pipes i).gap_height * (env.height : ℚ) * 0.5 = bottom_edge env i := by
      unfold bottom_edge; norm_num; ring
    have hstep : ∀ P : Nat → Prop, (∃ j, i ≤ j ∧ j < i + (k + 1) ∧ P j) ↔
        (P i ∨ ∃ j, i + 1 ≤ j ∧ j < i + 1 + k ∧ P j) := by
      intro P
      constructor
      · rintro ⟨j, h1, h2, h3⟩
        by_cases hj : j = i
        · exact Or.inl (hj ▸ h3)
        · exact Or.inr ⟨j, by omega, by omega, h3⟩
      · rintro (h | ⟨j, h1, h2, h3⟩)
        · exact ⟨i, le_refl i, by omega, h⟩
        · exact ⟨j, by omega, by omega, h3⟩
    rw [hstep (fun j => spans_meet env j bx br ∧ ¬ inside_closed_gap env j byy br), ← ih]
    rw [collides_loop_succ]
    simp only [hedge, hedge2]
    by_cases hskip : (env.pipes i).x + (env.width : ℚ) * PIPE_WIDTH_RATIO < bx - br ∨
        (env.pipes i).x > bx + br
    · rw [if_pos hskip]
      have hno : ¬ spans_meet env i bx br := by
        unfold spans_meet
        rcases hskip with h | h
        · exact fun hm => absurd hm.2 (not_le.mpr h)
        · exact fun hm => absurd hm.1 (not_le.mpr h)
      constructor
      · exact fun h => Or.inr h
      · rintro (h | h)
        · exact absurd h.1 hno
        · exact h
    · rw [if_neg hskip]
      have hm : spans_meet env i bx br := by
        unfold spans_meet
        rw [not_or, not_lt, not_lt] at hskip
        exact ⟨hskip.2, hskip.1⟩
      by_cases hout : byy - br < top_edge env i ∨ byy + br > bottom_edge env i
      · rw [if_pos hout]
        have hni : ¬ inside_closed_gap env i byy br := by
          unfold inside_closed_gap
          rcases hout with h | h
          · exact fun hin => absurd hin.1 (not_le.mpr h)
          · exact fun hin => absurd hin.2 (not_le.mpr h)
        exact ⟨fun _ => Or.inl ⟨hm, hni⟩, fun _ => rfl⟩
      · rw [if_neg hout]
        have hin : inside_closed_gap env i byy br := by
          unfold inside_closed_gap
          rw [not_or, not_lt, not_lt] at hout
          exact hout
        constructor
        · exact fun h => Or.inr h
        · rintro (h | h)
          · exact absurd hin h.2
          · exact h

/-- C16, as the code has it: `collides(state, bx, by, br)` returns true exactly
when there is an active pipe (index `< num_pipes`) whose horizontal span
`[x, x + pipe_width]` meets `[bx - br, bx + br]` and for which the vertical
extent `[by - br, by + br]` is not contained in the closed interval
`[top_edge, bottom_edge]`; it returns false otherwise.  An extent that touches
an edge of the gap is not a collision. -/
theorem C16_collides_closed_gap (env : Flappy) (bx byy br : ℚ) :
    (collides env bx byy br = true ↔
      ∃ i : Nat, (i : Int) < env.num_pipes ∧ spans_meet env i bx br ∧
        ¬ inside_closed_gap env i byy br) ∧
    (collides env bx byy br = false ↔
      ¬ ∃ i : Nat, (i : Int) < env.num_pipes ∧ spans_meet env i bx br ∧
        ¬ inside_closed_gap env i byy br) := by
  have h : collides env bx byy br = true ↔
      ∃ i : Nat, (i : Int) < env.num_pipes ∧ spans_meet env i bx br ∧
        ¬ inside_closed_gap env i byy br := by
    unfold collides
    rw [collides_loop_iff env bx byy br env.num_pipes.toNat 0]
    constructor
    · rintro ⟨j, _, h2, h3⟩
      exact ⟨j, by omega, h3⟩
    · rintro ⟨j, h2, h3⟩
      exact ⟨j, Nat.zero_le j, by omega, h3⟩
  refine ⟨h, ?_⟩
  rw [← h]
  cases collides env bx byy br <;> simp

/-- C16 as stated fails: in `cruising_env` the extent `[184.32, 215.68]` of a
bird at `by = 200` with radius `15.68` touches the top edge `184.32` of the gap
of pipe 0, whose span meets the bird's, so it is not inside the open interval,
yet `collides` returns false. -/
theorem C16_counterexample :
    ((0 : Nat) : Int) < cruising_env.num_pipes ∧
    spans_meet cruising_env 0 256 15.68 ∧
    ¬ inside_open_gap cruising_env 0 200 15.68 ∧
    collides cruising_env 256 200 15.68 = false := by
  refine ⟨by decide, ?_, ?_, ?_⟩
  · norm_num [spans_meet, cruising_env, fresh_env, init, PIPE_WIDTH_RATIO]
  · norm_num [inside_open_gap, top_edge, bottom_edge, cruising_env, fresh_env, init]
  · norm_num [collides, collides_loop, cruising_env, fresh_env, init, PIPE_WIDTH_RATIO]

/-! ## The target of the observation and the order of the slots -/

theorem scan_target_of_distinct (s : Flappy) (hx : distinct_x s) (t : Nat) :
    scan_target s t ↔ is_target s t ∧ (s.pipes t).x < 1000000000 := by
  constructor
  · exact fun h => ⟨h.1, h.2.1⟩
  · rintro ⟨h1, h2⟩
    refine ⟨h1, h2, fun j hj ha => ?_⟩
    have hjn : j < s.num_pipes.toNat := lt_trans hj h1.1
    refine lt_of_le_of_ne (h1.2.2 j hjn ha) (fun he => ?_)
    have := hx t j h1.1 hjn he
    omega

theorem permute_scan_target (s : Flappy) (σ : Equiv.Perm ℕ)
    (hσ : ∀ i, σ i < s.num_pipes.toNat ↔ i < s.num_pipes.toNat) (hx : distinct_x s) (t : Nat)
    (h : scan_target s t) : scan_target (s.permute σ) (σ.symm t) := by
  have hp : ∀ i, (s.permute σ).pipes i = s.pipes (σ i) := fun _ => rfl
  have hn : (s.permute σ).num_pipes = s.num_pipes := rfl
  have hw : (s.permute σ).width = s.width := rfl
  have hst : σ (σ.symm t) = t := Equiv.apply_symm_apply σ t
  have ha : ∀ i, ahead (s.permute σ) i ↔ ahead s (σ i) := fun _ => Iff.rfl
  obtain ⟨⟨h1, h2, h3⟩, h4, _⟩ := h
  have ht : σ.symm t < s.num_pipes.toNat := (hσ _).mp (by rw [hst]; exact h1)
  refine ⟨⟨by rw [hn]; exact ht, (ha _).mpr (by rw [hst]; exact h2), fun j hj hja => ?_⟩, ?_,
    fun j hj hja => ?_⟩
  · rw [hp, hp, hst]
    rw [hn] at hj
    exact h3 (σ j) ((hσ j).mpr hj) ((ha j).mp hja)
  · rw [hp, hst]
    exact h4
  · rw [hp, hp, hst]
    have hjn : j < s.num_pipes.toNat := lt_trans hj ht
    have hsj : σ j < s.num_pipes.toNat := (hσ j).mpr hjn
    refine lt_of_le_of_ne (h3 (σ j) hsj ((ha j).mp hja)) (fun he => ?_)
    have h5 : t = σ j := hx t (σ j) h1 hsj he
    have h6 : σ.symm t = j := by rw [h5]; exact Equiv.symm_apply_apply σ j
    omega

theorem permute_no_scan_target (s : Flappy) (σ : Equiv.Perm ℕ)
    (hσ : ∀ i, σ i < s.num_pipes.toNat ↔ i < s.num_pipes.toNat)
    (h : no_scan_target s) : no_scan_target (s.permute σ) := by
  intro j hj hja
  exact h (σ j) ((hσ j).mpr hj) hja

theorem permute_observations (s : Flappy) (σ : Equiv.Perm ℕ)
    (hσ : ∀ i, σ i < s.num_pipes.toNat ↔ i < s.num_pipes.toNat) (hx : distinct_x s) :
    (Sparse.compute_observations (s.permute σ)).observations =
      (Sparse.compute_observations s).observations ∧
    (Dense.compute_observations (s.permute σ)).observations =
      (Dense.compute_observations s).observations := by
  have hst : ∀ t, (s.permute σ).pipes (σ.symm t) = s.pipes t := by
    intro t
    show s.pipes (σ (σ.symm t)) = s.pipes t
    rw [Equiv.apply_symm_apply]
  have hw : (s.permute σ).width = s.width := rfl
  have hy : (s.permute σ).bird_y = s.bird_y := rfl
  have hv : (s.permute σ).bird_vy = s.bird_vy := rfl
  have hg : (s.permute σ).gap_height = s.gap_height := rfl
  rcases scan_target_or_none s with ⟨t, ht⟩ | hno
  · have ht2 := permute_scan_target s σ hσ hx t ht
    constructor
    · rw [(sparse_compute_observations_spec s).1 t ht,
        (sparse_compute_observations_spec (s.permute σ)).1 _ ht2, hst, hw, hy, hv]
    · rw [(dense_compute_observations_spec s).1 t ht,
        (dense_compute_observations_spec (s.permute σ)).1 _ ht2, hst, hw, hy, hv]
  · have hno2 := permute_no_scan_target s σ hσ hno
    constructor
    · rw [(sparse_compute_observations_spec s).2 hno,
        (sparse_compute_observations_spec (s.permute σ)).2 hno2, hy, hv, hg]
    · rw [(dense_compute_observations_spec s).2 hno,
        (dense_compute_observations_spec (s.permute σ)).2 hno2, hy, hv, hg]

theorem dense_observation_prefix (s : Flappy) :
    (Dense.compute_observations s).observations.take 5 =
      (Sparse.compute_observations s).observations := by
  rcases scan_target_or_none s with ⟨t, ht⟩ | hno
  · rw [(sparse_compute_observations_spec s).1 t ht, (dense_compute_observations_spec s).1 t ht]
    rfl
  · rw [(sparse_compute_observations_spec s).2 hno, (dense_compute_observations_spec s).2 hno]
    rfl

/-- The observation `compute_observations` writes, by the outcome of its scan:
the encoding of the pipe the scan selects, or the neutral values when it selects
none.  One of the two cases always holds; when the `x` values are distinct the
scan selects the target pipe if that pipe is left of the scan's starting value,
and a permutation of the active slots leaves the observation as it is; the first
five components of the dense encoding are the sparse encoding. -/
theorem observation_by_scan (s : Flappy) :
    (∀ t, scan_target s t →
      (Sparse.compute_observations s).observations =
        [clampf s.bird_y 0 1, clampf (s.bird_vy / 0.1) (-1) 1,
          clampf (((s.pipes t).x - (s.width : ℚ) * BIRD_X_RATIO) / (s.width : ℚ)) 0 1,
          (s.pipes t).gap_center_y, (s.pipes t).gap_height]) ∧
    (no_scan_target s →
      (Sparse.compute_observations s).observations =
        [clampf s.bird_y 0 1, clampf (s.bird_vy / 0.1) (-1) 1, 1, 0.5, s.gap_height] ∧
      (Dense.compute_observations s).observations =
        [clampf s.bird_y 0 1, clampf (s.bird_vy / 0.1) (-1) 1, 1, 0.5, s.gap_height, 0, 0, 0, 0]) ∧
    ((∃ t, scan_target s t) ∨ no_scan_target s) ∧
    (distinct_x s → ∀ t, scan_target s t ↔ is_target s t ∧ (s.pipes t).x < 1000000000) ∧
    (∀ σ : Equiv.Perm ℕ, (∀ i, σ i < s.num_pipes.toNat ↔ i < s.num_pipes.toNat) → distinct_x s →
      (Sparse.compute_observations (s.permute σ)).observations =
        (Sparse.compute_observations s).observations ∧
      (Dense.compute_observations (s.permute σ)).observations =
        (Dense.compute_observations s).observations) ∧
    (Dense.compute_observations s).observations.take 5 =
      (Sparse.compute_observations s).observations :=
  ⟨(sparse_compute_observations_spec s).1,
    fun h => ⟨(sparse_compute_observations_spec s).2 h, (dense_compute_observations_spec s).2 h⟩,
    scan_target_or_none s, scan_target_of_distinct s,
    fun σ hσ hx => permute_observations s σ hσ hx, dense_observation_prefix s⟩

theorem cruising_scan_target : scan_target cruising_env 0 := by
  norm_num [scan_target, is_target, ahead, cruising_env, fresh_env, init, BIRD_X_RATIO,
    PIPE_WIDTH_RATIO]

theorem cruising_distinct_x : distinct_x cruising_env := by
  intro i j _ _ h
  have h' : (256 : ℚ) + 230.4 * (i : ℚ) = 256 + 230.4 * (j : ℚ) := h
  have h2 : (i : ℚ) = (j : ℚ) := by linarith
  exact_mod_cast h2

theorem swap_active (i : Nat) :
    (Equiv.swap 0 1 : Equiv.Perm ℕ) i < cruising_env.num_pipes.toNat ↔
      i < cruising_env.num_pipes.toNat := by
  show (Equiv.swap 0 1 : Equiv.Perm ℕ) i < 3 ↔ i < 3
  by_cases h0 : i = 0
  · subst h0
    simp
  · by_cases h1 : i = 1
    · subst h1
      simp
    · rw [Equiv.swap_apply_of_ne_of_ne h0 h1]

/-- At `cruising_env` the scan selects slot `0`, the sparse observation is
`[0.5, 0, 0.3, 0.5, 0.28]`, and swapping slots `0` and `1` leaves it as it is. -/
theorem observation_cruising :
    scan_target cruising_env 0 ∧
    (Sparse.compute_observations cruising_env).observations = [0.5, 0, 0.3, 0.5, 0.28] ∧
    distinct_x cruising_env ∧
    (Sparse.compute_observations (cruising_env.permute (Equiv.swap 0 1))).observations =
      (Sparse.compute_observations cruising_env).observations :=
  ⟨cruising_scan_target,
    ((observation_by_scan cruising_env).1 0 cruising_scan_target).trans
      (by norm_num [clampf, cruising_env, fresh_env, init, BIRD_X_RATIO]),
    cruising_distinct_x,
    ((observation_by_scan cruising_env).2.2.2.2.1 (Equiv.swap 0 1) swap_active
      cruising_distinct_x).1⟩

theorem wide_env_no_scan_target : no_scan_target wide_env := by
  intro j hj _
  have hj3 : j < 3 := hj
  have hxj : (wide_env.pipes j).x = 1050000000 + 945000000 * (j : ℚ) := by
    show (if j < 3 then (⟨1050000000 + 945000000 * (j : ℚ), 0.5, 0.28, 0⟩ : Pipe)
      else ⟨0, 0, 0, 0⟩).x = _
    rw [if_pos hj3]
  rw [hxj]
  have : (0 : ℚ) ≤ (j : ℚ) := Nat.cast_nonneg j
  linarith

/-- C17 fails on the code at `wide_env`, the state a reset leaves at width
`2100000000`: the pipe in slot `0` is the active pipe of minimal `x` ahead of the
bird, at `x = 1050000000`, so the target of C17 exists and its distance
component is `0.3`; the scan starts from `best_x = 1e9f`, selects nothing, and
both variants write the neutral values `o[2] = 1`, `o[3] = 0.5` (and the dense
variant `o[5] = 0`). -/
theorem C17_nearest_pipe_not_selected :
    (Dense.c_reset (fresh_env 2100000000 512 5000) const_rng).1 = wide_env ∧
    is_target wide_env 0 ∧
    clampf (((wide_env.pipes 0).x - (wide_env.width : ℚ) * BIRD_X_RATIO) / (wide_env.width : ℚ))
      0 1 = 0.3 ∧
    (Sparse.compute_observations wide_env).observations = [0.5, 0, 1, 0.5, 0.28] ∧
    (Dense.compute_observations wide_env).observations = [0.5, 0, 1, 0.5, 0.28, 0, 0, 0, 0] := by
  have hx : ∀ j, j < 3 → (wide_env.pipes j).x = 1050000000 + 945000000 * (j : ℚ) := by
    intro j hj
    show (if j < 3 then (⟨1050000000 + 945000000 * (j : ℚ), 0.5, 0.28, 0⟩ : Pipe)
      else ⟨0, 0, 0, 0⟩).x = _
    rw [if_pos hj]
  have hx0 : (wide_env.pipes 0).x = 1050000000 := by
    rw [hx 0 (by decide)]
    norm_num
  have hw : wide_env.width = 2100000000 := rfl
  refine ⟨wide_env_reset, ⟨by decide, ?_, fun j hj _ => ?_⟩, ?_, ?_, ?_⟩
  · unfold ahead
    rw [hx0, hw]
    norm_num [ PIPE_WIDTH_RATIO, BIRD_X_RATIO]
  · have hj3 : j < 3 := hj
    rw [hx0, hx j hj3]
    have : (0 : ℚ) ≤ (j : ℚ) := Nat.cast_nonneg j
    linarith
  · rw [hx0, hw]
    norm_num [clampf, BIRD_X_RATIO]
  · rw [(sparse_compute_observations_spec wide_env).2 wide_env_no_scan_target]
    norm_num [clampf, wide_env, fresh_env, init, GAP_HEIGHT_RATIO]
  · rw [(dense_compute_observations_spec wide_env).2 wide_env_no_scan_target]
    norm_num [clampf, wide_env, fresh_env, init, GAP_HEIGHT_RATIO]

/-! ## The log record -/

theorem dense_c_step_terminal_cases (env : Flappy) (g : Rng)
    (h : (Dense.c_step env g).1.terminals = 1) :
    (dies env ∧ Dense.c_step env g = Dense.finish { Dense.pflap env with rewards := -1.0 } g) ∨
    (¬ dies env ∧ env.max_steps ≤ env.step_count + 1 ∧
      Dense.c_step env g = Dense.finish (Dense.shaped env g) (Dense.mid env g).2) := by
  by_cases hd : dies env
  · exact Or.inl ⟨hd, dense_c_step_dead env g hd⟩
  · by_cases ht : env.max_steps ≤ env.step_count + 1
    · exact Or.inr ⟨hd, ht, dense_c_step_trunc env g hd ht⟩
    · have hc := (dense_c_step_cont env g hd (not_le.mp ht)).1
      have h0 : (Dense.c_step env g).1.terminals = 0 := by
        have h' := congrArg Flappy.terminals hc; exact h'
      rw [h0] at h
      exact absurd h (by decide)

theorem sparse_mid_difficulty (env : Flappy) (g : Rng) :
    (Sparse.mid env g).1.curriculum_difficulty = env.curriculum_difficulty := by
  have h := congrArg Flappy.curriculum_difficulty (sparse_mid_frame env g); exact h

/-- The log record a terminal sparse step leaves. -/
theorem sparse_terminal_log (env : Flappy) (g : Rng)
    (h : (Sparse.c_step env g).1.terminals = 1) :
    (Sparse.c_step env g).1.log =
      { perf := if final_score env > 0 then 1.0 else 0.0
        score := (final_score env : ℚ)
        episode_return := 0.0
        episode_length := ((env.step_count + 1 : Int) : ℚ)
        difficulty := env.curriculum_difficulty
        n := f32 (env.log.n + 1.0) } := by
  rcases sparse_c_step_terminal_cases env g h with ⟨hd, hc⟩ | ⟨hd, _, hc⟩
  · rw [hc, sparse_finish_log]
    have hf : final_score env = env.score := if_pos hd
    rw [hf]
    rfl
  · rw [hc, sparse_finish_log, sparse_mid_score, (sparse_mid_step_count env g).1,
      sparse_mid_difficulty, sparse_mid_log]
    have hf : final_score env = env.score + (passed_count env : Int) := if_neg hd
    rw [hf]

/-- The log record a terminal dense step leaves. -/
theorem dense_terminal_log (env : Flappy) (g : Rng)
    (h : (Dense.c_step env g).1.terminals = 1) :
    (Dense.c_step env g).1.log =
      { perf := if final_score env > 0 then 1.0 else 0.0
        score := (final_score env : ℚ)
        episode_return := 0.0
        episode_length := ((env.step_count + 1 : Int) : ℚ)
        difficulty := env.log.difficulty
        n := f32 (env.log.n + 1.0) } := by
  rcases dense_c_step_terminal_cases env g h with ⟨hd, hc⟩ | ⟨hd, _, hc⟩
  · rw [hc, dense_finish_log]
    have hf : final_score env = env.score := if_pos hd
    have hs : ({ Dense.pflap env with rewards := -1.0 } : Flappy).score = env.score :=
      dense_pflap_score env
    have hst : ({ Dense.pflap env with rewards := -1.0 } : Flappy).step_count = env.step_count + 1 :=
      dense_pflap_step_count env
    have hl : ({ Dense.pflap env with rewards := -1.0 } : Flappy).log = env.log := by
      have h1 := congrArg Flappy.log (dense_pflap_frame env); exact h1
    rw [hf, hs, hst, hl]
  · rw [hc, dense_finish_log, dense_shaped_score, (dense_shaped_step_count env g).1,
      dense_shaped_log]
    have hf : final_score env = env.score + (passed_count env : Int) := if_neg hd
    rw [hf]

/-- The log record a non-terminal sparse step leaves: the reward is added to the
running return and nothing else changes. -/
theorem sparse_cont_log (env : Flappy) (g : Rng) (h : (Sparse.c_step env g).1.terminals = 0) :
    (Sparse.c_step env g).1.log =
      { env.log with episode_return := env.log.episode_return + (Sparse.c_step env g).1.rewards } := by
  obtain ⟨hd, ht⟩ := sparse_step_nonterminal env g h
  rw [(sparse_c_step_cont env g hd ht).2.2.2.1, sparse_c_step_alive_rewards env g hd,
    sparse_mid_rewards]

/-- The log record a non-terminal dense step leaves. -/
theorem dense_cont_log (env : Flappy) (g : Rng) (h : (Dense.c_step env g).1.terminals = 0) :
    (Dense.c_step env g).1.log =
      { env.log with episode_return := env.log.episode_return + (Dense.c_step env g).1.rewards } := by
  obtain ⟨hd, ht⟩ := dense_step_nonterminal env g h
  rw [dense_c_step_alive_rewards env g hd]
  rw [dense_c_step_alive env g hd, (dense_shaped_step_count env g).1,
    (dense_shaped_step_count env g).2, if_neg (not_le.mpr ht)]
  have ho := congrArg Flappy.log (dense_compute_observations_noObs
    { Dense.shaped env g with log :=
        { (Dense.shaped env g).log with
          episode_return := (Dense.shaped env g).log.episode_return +
            (Dense.shaped env g).rewards } })
  refine Eq.trans ho ?_
  show ({ (Dense.shaped env g).log with
    episode_return := (Dense.shaped env g).log.episode_return + (Dense.shaped env g).rewards } : Log) = _
  rw [dense_shaped_log]

theorem sparse_terminals_cases (env : Flappy) (g : Rng) :
    (Sparse.c_step env g).1.terminals = 0 ∨ (Sparse.c_step env g).1.terminals = 1 := by
  by_cases hd : dies env
  · right
    rw [sparse_c_step_dead env g hd]
    exact sparse_finish_terminals _ _
  · by_cases ht : env.max_steps ≤ env.step_count + 1
    · right
      rw [sparse_c_step_trunc env g hd ht]
      exact sparse_finish_terminals _ _
    · left
      have h := congrArg Flappy.terminals (sparse_c_step_cont env g hd (not_le.mp ht)).1
      exact h

theorem dense_terminals_cases (env : Flappy) (g : Rng) :
    (Dense.c_step env g).1.terminals = 0 ∨ (Dense.c_step env g).1.terminals = 1 := by
  by_cases hd : dies env
  · right
    rw [dense_c_step_dead env g hd]
    exact dense_finish_terminals _ _
  · by_cases ht : env.max_steps ≤ env.step_count + 1
    · right
      rw [dense_c_step_trunc env g hd ht]
      exact dense_finish_terminals _ _
    · left
      have h := congrArg Flappy.terminals (dense_c_step_cont env g hd (not_le.mp ht)).1
      exact h

/-- The 23rd no-op step after a reset of a 512 by 512 environment whose horizon
is beyond 22: the bird touches the floor, the step is terminal with reward `-1`,
and the log record it leaves has `episode_length = 23` and `episode_return = 0`. -/
theorem fall_last (env : Flappy) (d : ℚ) (g : Rng) (hw : env.width = 512) (hh : env.height = 512)
    (hg : env.gravity = 0.0018) (hs : env.pipe_speed = 3.072) (hps : env.pipe_spacing = 0.45)
    (hM : 22 < env.max_steps) :
    dies { (Sparse.noop_run (Sparse.c_reset env d g) 22).1 with actions := 0 } ∧
    (Sparse.noop_run (Sparse.c_reset env d g) 23).1.terminals = 1 ∧
    (Sparse.noop_run (Sparse.c_reset env d g) 23).1.rewards = -1 ∧
    (Sparse.noop_run (Sparse.c_reset env d g) 23).1.log.episode_length = 23 ∧
    (Sparse.noop_run (Sparse.c_reset env d g) 23).1.log.episode_return = 0 := by
  have hrun := fall_run env d g hw hh hg hs hps
  have h22 := (hrun 22 (le_refl _) (by exact_mod_cast hM)).1
  have hd := fall_dead _ _ h22
  have hsc : (Sparse.noop_run (Sparse.c_reset env d g) 22).1.step_count = ((22 : Nat) : Int) :=
    h22.2.2.2.2.2.2.1
  have hsucc : Sparse.noop_run (Sparse.c_reset env d g) 23 =
      Sparse.c_step { (Sparse.noop_run (Sparse.c_reset env d g) 22).1 with actions := 0 }
        (Sparse.noop_run (Sparse.c_reset env d g) 22).2 := sparse_noop_run_succ _ 22
  have hstep : Sparse.noop_run (Sparse.c_reset env d g) 23 = _ :=
    hsucc.trans (sparse_c_step_dead _ _ hd)
  have ht : (Sparse.noop_run (Sparse.c_reset env d g) 23).1.terminals = 1 := by
    rw [hstep]; exact sparse_finish_terminals _ _
  have hlog := sparse_terminal_log
    { (Sparse.noop_run (Sparse.c_reset env d g) 22).1 with actions := 0 }
    (Sparse.noop_run (Sparse.c_reset env d g) 22).2 (by rw [← hsucc]; exact ht)
  rw [← hsucc] at hlog
  refine ⟨hd, ht, ?_, ?_, ?_⟩
  · rw [hstep, sparse_finish_rewards]
    show (-1.0 : ℚ) = -1
    norm_num
  · rw [hlog]
    show (((Sparse.noop_run (Sparse.c_reset env d g) 22).1.step_count + 1 : Int) : ℚ) = 23
    rw [hsc]
    norm_num
  · rw [hlog]
    show (0.0 : ℚ) = 0
    norm_num

/-- C18 fails on the code: `c_reset`, called at the end of every terminal step,
sets `log.episode_return` to zero after `add_log`, so the log record read after
a step that ends an episode holds the return `0`, in both variants.  In the
no-op run of a 512 by 512 environment the rewards of the calls 1 to 22 are `0`
and the reward of the terminal call 23 is `-1`, their sum is `-1`, the record
read after call 23 has `episode_length = 23` and `episode_return = 0`. -/
theorem C18_log_return_zeroed :
    (∀ (env : Flappy) (g : Rng), (Sparse.c_step env g).1.terminals = 1 →
      (Sparse.c_step env g).1.log.episode_return = 0) ∧
    (∀ (env : Flappy) (g : Rng), (Dense.c_step env g).1.terminals = 1 →
      (Dense.c_step env g).1.log.episode_return = 0) ∧
    (∀ k, 0 < k → k ≤ 22 →
      (Sparse.noop_run (Sparse.c_reset (fresh_env 512 512 5000) 1 const_rng) k).1.terminals = 0 ∧
      (Sparse.noop_run (Sparse.c_reset (fresh_env 512 512 5000) 1 const_rng) k).1.rewards = 0) ∧
    (Sparse.noop_run (Sparse.c_reset (fresh_env 512 512 5000) 1 const_rng) 23).1.terminals = 1 ∧
    (Sparse.noop_run (Sparse.c_reset (fresh_env 512 512 5000) 1 const_rng) 23).1.rewards = -1 ∧
    (Sparse.noop_run (Sparse.c_reset (fresh_env 512 512 5000) 1 const_rng) 23).1.log.episode_length
      = 23 ∧
    (Sparse.noop_run (Sparse.c_reset (fresh_env 512 512 5000) 1 const_rng) 23).1.log.episode_return
      = 0 := by
  have hf := fresh_env_fields 5000 (by norm_num)
  have hrun := fall_run (fresh_env 512 512 5000) 1 const_rng hf.1 hf.2.1 hf.2.2.1 hf.2.2.2.1
    hf.2.2.2.2.1
  have hlast := fall_last (fresh_env 512 512 5000) 1 const_rng hf.1 hf.2.1 hf.2.2.1 hf.2.2.2.1
    hf.2.2.2.2.1 (by rw [hf.2.2.2.2.2]; norm_num)
  refine ⟨fun env g h => ?_, fun env g h => ?_, fun k hk0 hk => ?_, hlast.2.1, hlast.2.2.1,
    hlast.2.2.2.1, hlast.2.2.2.2⟩
  · rw [sparse_terminal_log env g h]
    show (0.0 : ℚ) = 0
    norm_num
  · rw [dense_terminal_log env g h]
    show (0.0 : ℚ) = 0
    norm_num
  · have hk' : (k : Int) < (fresh_env 512 512 5000).max_steps := by
      rw [hf.2.2.2.2.2]
      have : (k : Int) ≤ 22 := by exact_mod_cast hk
      omega
    exact (hrun k hk hk').2 hk0

theorem sparse_c_reset_log (env : Flappy) (d : ℚ) (g : Rng) :
    (Sparse.c_reset env d g).1.log = { env.log with episode_return := 0.0 } := by
  have h := congrArg Flappy.log (sparse_c_reset_frame env d g); exact h

theorem dense_c_reset_log (env : Flappy) (g : Rng) :
    (Dense.c_reset env g).1.log = { env.log with episode_return := 0.0 } := by
  have h := congrArg Flappy.log (dense_c_reset_frame env g); exact h

theorem sparse_step_log_n (env : Flappy) (g : Rng) :
    (Sparse.c_step env g).1.log.n =
      if (Sparse.c_step env g).1.terminals = 1 then f32 (env.log.n + 1) else env.log.n := by
  rcases sparse_terminals_cases env g with h | h
  · rw [sparse_cont_log env g h, h, if_neg (by decide)]
  · rw [sparse_terminal_log env g h, h, if_pos rfl]
    show f32 (env.log.n + 1.0) = f32 (env.log.n + 1)
    norm_num

theorem dense_step_log_n (env : Flappy) (g : Rng) :
    (Dense.c_step env g).1.log.n =
      if (Dense.c_step env g).1.terminals = 1 then f32 (env.log.n + 1) else env.log.n := by
  rcases dense_terminals_cases env g with h | h
  · rw [dense_cont_log env g h, h, if_neg (by decide)]
  · rw [dense_terminal_log env g h, h, if_pos rfl]
    show f32 (env.log.n + 1.0) = f32 (env.log.n + 1)
    norm_num

/-- One rounded increment of a whole counter value up to `2^24`: the next whole
number, except that `2^24` stays. -/
theorem f32_succ_min (k : ℕ) (hk : k ≤ 16777216) :
    f32 ((k : ℚ) + 1) = ((min (k + 1) 16777216 : ℕ) : ℚ) := by
  rcases Nat.lt_or_ge k 16777216 with h | h
  · have e := f32_succ_of_lt k h
    have hm : min (k + 1) 16777216 = k + 1 := Nat.min_eq_left (by omega)
    rw [hm]
    push_cast
    norm_num at e
    exact e
  · have hk2 : k = 16777216 := le_antisymm hk h
    have e := f32_succ_sat
    have hm : min (k + 1) 16777216 = 16777216 := Nat.min_eq_right (by omega)
    rw [hm, hk2]
    norm_num at e ⊢
    exact e

theorem sparse_run_log_n : ∀ (acts : List Int) (s : Flappy × Rng) (k : ℕ),
    s.1.log.n = (k : ℚ) → k ≤ 16777216 →
    (Sparse.run s acts).1.log.n =
      ((min (k + Sparse.terminal_count s acts) 16777216 : ℕ) : ℚ)
  | [], s, k, hk, hle => by
    show s.1.log.n = ((min (k + 0) 16777216 : ℕ) : ℚ)
    rw [hk, Nat.add_zero, Nat.min_eq_left hle]
  | a :: acts, s, k, hk, hle => by
    have hs : (Sparse.step_with s a).1.log.n =
        if (Sparse.step_with s a).1.terminals = 1 then f32 (s.1.log.n + 1) else s.1.log.n :=
      sparse_step_log_n { s.1 with actions := a } s.2
    have hr : Sparse.run s (a :: acts) = Sparse.run (Sparse.step_with s a) acts := rfl
    have ht : Sparse.terminal_count s (a :: acts) =
        (if (Sparse.step_with s a).1.terminals = 1 then 1 else 0) +
          Sparse.terminal_count (Sparse.step_with s a) acts := rfl
    rw [hr, ht]
    by_cases h1 : (Sparse.step_with s a).1.terminals = 1
    · rw [if_pos h1, hk, f32_succ_min k hle] at hs
      rw [sparse_run_log_n acts (Sparse.step_with s a) (min (k + 1) 16777216) hs
        (Nat.min_le_right _ _), if_pos h1]
      congr 1
      omega
    · rw [if_neg h1, hk] at hs
      rw [sparse_run_log_n acts (Sparse.step_with s a) k hs hle, if_neg h1]
      congr 1
      omega

theorem dense_run_log_n : ∀ (acts : List Int) (s : Flappy × Rng) (k : ℕ),
    s.1.log.n = (k : ℚ) → k ≤ 16777216 →
    (Dense.run s acts).1.log.n =
      ((min (k + Dense.terminal_count s acts) 16777216 : ℕ) : ℚ)
  | [], s, k, hk, hle => by
    show s.1.log.n = ((min (k + 0) 16777216 : ℕ) : ℚ)
    rw [hk, Nat.add_zero, Nat.min_eq_left hle]
  | a :: acts, s, k, hk, hle => by
    have hs : (Dense.step_with s a).1.log.n =
        if (Dense.step_with s a).1.terminals = 1 then f32 (s.1.log.n + 1) else s.1.log.n :=
      dense_step_log_n { s.1 with actions := a } s.2
    have hr : Dense.run s (a :: acts) = Dense.run (Dense.step_with s a) acts := rfl
    have ht : Dense.terminal_count s (a :: acts) =
        (if (Dense.step_with s a).1.terminals = 1 then 1 else 0) +
          Dense.terminal_count (Dense.step_with s a) acts := rfl
    rw [hr, ht]
    by_cases h1 : (Dense.step_with s a).1.terminals = 1
    · rw [if_pos h1, hk, f32_succ_min k hle] at hs
      rw [dense_run_log_n acts (Dense.step_with s a) (min (k + 1) 16777216) hs
        (Nat.min_le_right _ _), if_pos h1]
      congr 1
      omega
    · rw [if_neg h1, hk] at hs
      rw [dense_run_log_n acts (Dense.step_with s a) k hs hle, if_neg h1]
      congr 1
      omega

theorem counted_env_dies : dies counted_env :=
  hits_bounds_of_touch counted_env
    (Or.inl (by norm_num [physics, clampf, counted_env, rising_env, fresh_env, init, GRAVITY,
      FLAP_VEL]))

theorem counted_env_sparse_terminal :
    (Sparse.c_step counted_env const_rng).1.terminals = 1 := by
  rw [sparse_c_step_dead counted_env const_rng counted_env_dies]
  exact sparse_finish_terminals _ _

theorem counted_env_dense_terminal :
    (Dense.c_step counted_env const_rng).1.terminals = 1 := by
  rw [dense_c_step_dead counted_env const_rng counted_env_dies]
  exact dense_finish_terminals _ _

/-- C19 fails on the code.  The episode counter `log.n` is a float32 and
`add_log` adds `1.0f` to it, which leaves `16777216 = 2^24` where it is.  At
`counted_env`, whose counter holds `16777216` and whose step ends by ceiling
contact, the step sets the terminal flag in both variants and `log.n` is still
`16777216`, where C19 has it grow by one.  What the code does for every state
and action: `c_step` sets the terminal flag to `0` or `1`; when it sets it to
`1` (death or truncation) `log.n` becomes `log.n + 1` rounded to float32, which
is `log.n + 1` for every whole value below `2^24`, and the record left behind
has `perf = 1.0` if the finished episode's score is positive and `0.0`
otherwise, `log.score` that score, `log.episode_length` the step count at
termination (and, in the curriculum variant, `log.difficulty =
curriculum_difficulty`); otherwise `log.n` is unchanged.  `c_reset` does not
change `log.n`.  Along every run that starts with a whole counter `k <= 2^24`,
`log.n` is `k` plus the number of terminal steps, cut off at `2^24`, so it never
decreases, and it equals the number of terminated episodes only as long as that
number is at most `2^24`. -/
theorem C19_counter_stops_at_two_pow_24 :
    (counted_env.log.n = 16777216 ∧
      (Sparse.c_step counted_env const_rng).1.terminals = 1 ∧
      (Sparse.c_step counted_env const_rng).1.log.n = 16777216 ∧
      (Dense.c_step counted_env const_rng).1.terminals = 1 ∧
      (Dense.c_step counted_env const_rng).1.log.n = 16777216) ∧
    (∀ (env : Flappy) (d : ℚ) (g : Rng),
      ((Sparse.c_step env g).1.terminals = 0 ∨ (Sparse.c_step env g).1.terminals = 1) ∧
      ((Sparse.c_step env g).1.terminals = 1 →
        (Sparse.c_step env g).1.log.n = f32 (env.log.n + 1) ∧
        (∀ k : ℕ, env.log.n = (k : ℚ) → k < 16777216 →
          (Sparse.c_step env g).1.log.n = (k : ℚ) + 1) ∧
        (Sparse.c_step env g).1.log.perf = (if final_score env > 0 then 1 else 0) ∧
        (Sparse.c_step env g).1.log.score = (final_score env : ℚ) ∧
        (Sparse.c_step env g).1.log.episode_length = (env.step_count : ℚ) + 1 ∧
        (Sparse.c_step env g).1.log.difficulty = env.curriculum_difficulty) ∧
      ((Sparse.c_step env g).1.terminals = 0 → (Sparse.c_step env g).1.log.n = env.log.n) ∧
      (Sparse.c_reset env d g).1.log.n = env.log.n) ∧
    (∀ (env : Flappy) (g : Rng),
      ((Dense.c_step env g).1.terminals = 0 ∨ (Dense.c_step env g).1.terminals = 1) ∧
      ((Dense.c_step env g).1.terminals = 1 →
        (Dense.c_step env g).1.log.n = f32 (env.log.n + 1) ∧
        (∀ k : ℕ, env.log.n = (k : ℚ) → k < 16777216 →
          (Dense.c_step env g).1.log.n = (k : ℚ) + 1) ∧
        (Dense.c_step env g).1.log.perf = (if final_score env > 0 then 1 else 0) ∧
        (Dense.c_step env g).1.log.score = (final_score env : ℚ) ∧
        (Dense.c_step env g).1.log.episode_length = (env.step_count : ℚ) + 1) ∧
      ((Dense.c_step env g).1.terminals = 0 → (Dense.c_step env g).1.log.n = env.log.n) ∧
      (Dense.c_reset env g).1.log.n = env.log.n) ∧
    (∀ (s : Flappy × Rng) (acts : List Int) (k : ℕ), s.1.log.n = (k : ℚ) → k ≤ 16777216 →
      (Sparse.run s acts).1.log.n =
        ((min (k + Sparse.terminal_count s acts) 16777216 : ℕ) : ℚ) ∧
      s.1.log.n ≤ (Sparse.run s acts).1.log.n ∧
      (Dense.run s acts).1.log.n =
        ((min (k + Dense.terminal_count s acts) 16777216 : ℕ) : ℚ) ∧
      s.1.log.n ≤ (Dense.run s acts).1.log.n) := by
  have z0 : (0.0 : ℚ) = 0 := by norm_num
  have z1 : (1.0 : ℚ) = 1 := by norm_num
  have hsat : f32 ((16777216 : ℚ) + 1.0) = 16777216 := f32_succ_sat
  refine ⟨⟨rfl, counted_env_sparse_terminal, ?_, counted_env_dense_terminal, ?_⟩,
    fun env d g => ⟨sparse_terminals_cases env g, fun h => ?_, fun h => ?_, ?_⟩,
    fun env g => ⟨dense_terminals_cases env g, fun h => ?_, fun h => ?_, ?_⟩,
    fun s acts k hk hle => ?_⟩
  · rw [sparse_terminal_log counted_env const_rng counted_env_sparse_terminal]
    exact hsat
  · rw [dense_terminal_log counted_env const_rng counted_env_dense_terminal]
    exact hsat
  · rw [sparse_terminal_log env g h]
    have hn : f32 (env.log.n + 1.0) = f32 (env.log.n + 1) := by rw [z1]
    refine ⟨hn, fun k hk hlt => ?_, ?_, rfl, ?_, rfl⟩
    · show f32 (env.log.n + 1.0) = _
      rw [hk]
      exact f32_succ_of_lt k hlt
    · show (if final_score env > 0 then (1.0 : ℚ) else 0.0) = _
      rw [z0, z1]
    · show ((env.step_count + 1 : Int) : ℚ) = _
      push_cast
      rfl
  · rw [sparse_step_log_n, h, if_neg (by decide)]
  · rw [sparse_c_reset_log]
  · rw [dense_terminal_log env g h]
    have hn : f32 (env.log.n + 1.0) = f32 (env.log.n + 1) := by rw [z1]
    refine ⟨hn, fun k hk hlt => ?_, ?_, rfl, ?_⟩
    · show f32 (env.log.n + 1.0) = _
      rw [hk]
      exact f32_succ_of_lt k hlt
    · show (if final_score env > 0 then (1.0 : ℚ) else 0.0) = _
      rw [z0, z1]
    · show ((env.step_count + 1 : Int) : ℚ) = _
      push_cast
      rfl
  · rw [dense_step_log_n, h, if_neg (by decide)]
  · rw [dense_c_reset_log]
  · have hs := sparse_run_log_n acts s k hk hle
    have hd := dense_run_log_n acts s k hk hle
    refine ⟨hs, ?_, hd, ?_⟩
    · rw [hs, hk]
      exact_mod_cast (le_min (Nat.le_add_right _ _) hle)
    · rw [hd, hk]
      exact_mod_cast (le_min (Nat.le_add_right _ _) hle)

/-- C20: in the sparse variant with width = height = 512 and `max_steps = 5000`,
stepping with the no-op action from a reset (any difficulty, any generator), the
height after `n <= 22` steps is `0.5 + gravity*n*(n+1)/2` and is short of the
floor (`bird_y*height + radius < height`); the steps 1 to 22 are non-terminal
with reward `0`; in none of the states the collision test of the steps 1 to 23
sees does a pipe horizontally overlap the bird; in step 23 the physics block
brings the bird to `0.5 + gravity*23*24/2`, where `bird_y*height + radius >=
height`, and the step returns reward `-1` with terminal flag `1` and logs
`episode_length = 23`. -/
theorem C20_free_fall_example (d : ℚ) (g : Rng) :
    (∀ n : Nat, n ≤ 22 →
      (Sparse.noop_run (Sparse.c_reset (fresh_env 512 512 5000) d g) n).1.bird_y =
        0.5 + GRAVITY * (n : ℚ) * ((n : ℚ) + 1) / 2 ∧
      (Sparse.noop_run (Sparse.c_reset (fresh_env 512 512 5000) d g) n).1.bird_y * 512 +
        512 * BIRD_RADIUS_RATIO < 512 ∧
      ∀ i, i < 3 →
        ¬ spans_meet (Sparse.noop_run (Sparse.c_reset (fresh_env 512 512 5000) d g) n).1 i
          (512 * BIRD_X_RATIO) (512 * BIRD_RADIUS_RATIO)) ∧
    (∀ n : Nat, 0 < n → n ≤ 22 →
      (Sparse.noop_run (Sparse.c_reset (fresh_env 512 512 5000) d g) n).1.terminals = 0 ∧
      (Sparse.noop_run (Sparse.c_reset (fresh_env 512 512 5000) d g) n).1.rewards = 0) ∧
    (physics { (Sparse.noop_run (Sparse.c_reset (fresh_env 512 512 5000) d g) 22).1 with
      actions := 0 }).bird_y = 0.5 + GRAVITY * 23 * (23 + 1) / 2 ∧
    (0.5 + GRAVITY * 23 * (23 + 1) / 2) * 512 + 512 * BIRD_RADIUS_RATIO ≥ 512 ∧
    (Sparse.noop_run (Sparse.c_reset (fresh_env 512 512 5000) d g) 23).1.terminals = 1 ∧
    (Sparse.noop_run (Sparse.c_reset (fresh_env 512 512 5000) d g) 23).1.rewards = -1 ∧
    (Sparse.noop_run (Sparse.c_reset (fresh_env 512 512 5000) d g) 23).1.log.episode_length =
      23 := by
  have hf := fresh_env_fields 5000 (by norm_num)
  have hrun := fall_run (fresh_env 512 512 5000) d g hf.1 hf.2.1 hf.2.2.1 hf.2.2.2.1
    hf.2.2.2.2.1
  have hlast := fall_last (fresh_env 512 512 5000) d g hf.1 hf.2.1 hf.2.2.1 hf.2.2.2.1
    hf.2.2.2.2.1 (by rw [hf.2.2.2.2.2]; norm_num)
  have hlt : ∀ n : Nat, n ≤ 22 → (n : Int) < (fresh_env 512 512 5000).max_steps := by
    intro n hn
    rw [hf.2.2.2.2.2]
    have : (n : Int) ≤ 22 := by exact_mod_cast hn
    omega
  refine ⟨fun n hn => ?_, fun n hn0 hn => (hrun n hn (hlt n hn)).2 hn0, ?_, ?_, hlast.2.1,
    hlast.2.2.1, hlast.2.2.2.1⟩
  · obtain ⟨hw, _, _, _, _, _, _, _, hy, hp⟩ := (hrun n hn (hlt n hn)).1
    have hq : (n : ℚ) ≤ 22 := by exact_mod_cast hn
    have h0 : (0 : ℚ) ≤ (n : ℚ) := Nat.cast_nonneg n
    refine ⟨?_, ?_, fun i hi => ?_⟩
    · rw [hy]
      norm_num [GRAVITY]
      ring
    · rw [hy]
      norm_num [ BIRD_RADIUS_RATIO]
      nlinarith
    · unfold spans_meet
      rw [(hp i hi).1]
      have hi0 : (0 : ℚ) ≤ (i : ℚ) := Nat.cast_nonneg i
      intro hm
      have h1 := hm.1
      norm_num [ BIRD_X_RATIO, BIRD_RADIUS_RATIO] at h1
      linarith
  · rw [(fall_physics _ 22 _ (hrun 22 (le_refl _) (hlt 22 (le_refl _))).1 (le_refl _)).2]
    norm_num [GRAVITY]
  · norm_num [GRAVITY, BIRD_RADIUS_RATIO]

/-! ## Signs of the dense observation -/

theorem clampf_pos_iff (v : ℚ) : 0 < clampf v (-1) 1 ↔ 0 < v := by
  unfold clampf
  split_ifs <;> constructor <;> intro h <;> linarith

theorem clampf_neg_iff (v : ℚ) : clampf v (-1) 1 < 0 ↔ v < 0 := by
  unfold clampf
  split_ifs <;> constructor <;> intro h <;> linarith

theorem low_bird_scan_target : scan_target low_bird_env 0 := by
  norm_num [scan_target, is_target, ahead, low_bird_env, cruising_env, fresh_env, init, BIRD_X_RATIO,
    PIPE_WIDTH_RATIO]

/-- C21 fails on the code against the comments of `compute_observations`.  With
`bird_y` growing towards the floor, when a target pipe exists `o[6] =
clamp(gap_center - bird_y, -1, 1)` is positive exactly when the bird is above the
gap centre (`bird_y < gap_center`) and negative when it is below; with
`half > 1e-6`, `o[7] = clamp((top_edge - bird_y)/half, -1, 1)` is positive
exactly when the bird is above the top edge and negative when it is below it,
and `o[8] = clamp((bird_y - bottom_edge)/half, -1, 1)` is negative exactly when
the bird is above the bottom edge and positive when below it.  When there is no
target or `half <= 1e-6`, `o[7] = o[8] = 0`.  In `low_bird_env` the bird is below
the gap centre and below the top edge, inside the gap, and `o[6] = -0.1`,
`o[7] = -1`: both negative, where the comments say positive. -/
theorem C21_sign_conventions :
    (∀ (s : Flappy) (t : Nat), scan_target s t →
      (Dense.compute_observations s).observations.getD 6 0 =
        clampf ((s.pipes t).gap_center_y - s.bird_y) (-1) 1 ∧
      (0 < (Dense.compute_observations s).observations.getD 6 0 ↔
        s.bird_y < (s.pipes t).gap_center_y) ∧
      ((Dense.compute_observations s).observations.getD 6 0 < 0 ↔
        (s.pipes t).gap_center_y < s.bird_y) ∧
      ((s.pipes t).gap_height * 0.5 > 0.000001 →
        (Dense.compute_observations s).observations.getD 7 0 =
          clampf (((s.pipes t).gap_center_y - (s.pipes t).gap_height * 0.5 - s.bird_y) /
            ((s.pipes t).gap_height * 0.5)) (-1) 1 ∧
        (Dense.compute_observations s).observations.getD 8 0 =
          clampf ((s.bird_y - ((s.pipes t).gap_center_y + (s.pipes t).gap_height * 0.5)) /
            ((s.pipes t).gap_height * 0.5)) (-1) 1 ∧
        (0 < (Dense.compute_observations s).observations.getD 7 0 ↔
          s.bird_y < (s.pipes t).gap_center_y - (s.pipes t).gap_height * 0.5) ∧
        ((Dense.compute_observations s).observations.getD 7 0 < 0 ↔
          (s.pipes t).gap_center_y - (s.pipes t).gap_height * 0.5 < s.bird_y) ∧
        ((Dense.compute_observations s).observations.getD 8 0 < 0 ↔
          s.bird_y < (s.pipes t).gap_center_y + (s.pipes t).gap_height * 0.5) ∧
        (0 < (Dense.compute_observations s).observations.getD 8 0 ↔
          (s.pipes t).gap_center_y + (s.pipes t).gap_height * 0.5 < s.bird_y)) ∧
      (¬ (s.pipes t).gap_height * 0.5 > 0.000001 →
        (Dense.compute_observations s).observations.getD 7 0 = 0 ∧
        (Dense.compute_observations s).observations.getD 8 0 = 0)) ∧
    (∀ s : Flappy, no_scan_target s →
      (Dense.compute_observations s).observations.getD 7 0 = 0 ∧
      (Dense.compute_observations s).observations.getD 8 0 = 0) ∧
    (scan_target low_bird_env 0 ∧
      (low_bird_env.pipes 0).gap_center_y < low_bird_env.bird_y ∧
      (low_bird_env.pipes 0).gap_center_y - (low_bird_env.pipes 0).gap_height * 0.5 <
        low_bird_env.bird_y ∧
      low_bird_env.bird_y <
        (low_bird_env.pipes 0).gap_center_y + (low_bird_env.pipes 0).gap_height * 0.5 ∧
      (Dense.compute_observations low_bird_env).observations.getD 6 0 = -0.1 ∧
      (Dense.compute_observations low_bird_env).observations.getD 7 0 = -1) := by
  refine ⟨fun s t ht => ?_, fun s hno => ?_, ?_⟩
  · rw [(dense_compute_observations_spec s).1 t ht]
    refine ⟨rfl, ?_, ?_, fun hh => ?_, fun hh => ?_⟩
    · show 0 < clampf ((s.pipes t).gap_center_y - s.bird_y) (-1) 1 ↔ _
      rw [clampf_pos_iff, sub_pos]
    · show clampf ((s.pipes t).gap_center_y - s.bird_y) (-1) 1 < 0 ↔ _
      rw [clampf_neg_iff, sub_neg]
    · have hpos : (0 : ℚ) < (s.pipes t).gap_height * 0.5 := lt_trans (by norm_num) hh
      have h7 : ([clampf s.bird_y 0 1, clampf (s.bird_vy / 0.1) (-1) 1,
          clampf (((s.pipes t).x - (s.width : ℚ) * BIRD_X_RATIO) / (s.width : ℚ)) 0 1,
          (s.pipes t).gap_center_y, (s.pipes t).gap_height, 1,
          clampf ((s.pipes t).gap_center_y - s.bird_y) (-1) 1,
          if (s.pipes t).gap_height * 0.5 > 0.000001 then
            clampf (((s.pipes t).gap_center_y - (s.pipes t).gap_height * 0.5 - s.bird_y) /
              ((s.pipes t).gap_height * 0.5)) (-1) 1
          else 0,
          if (s.pipes t).gap_height * 0.5 > 0.000001 then
            clampf ((s.bird_y - ((s.pipes t).gap_center_y + (s.pipes t).gap_height * 0.5)) /
              ((s.pipes t).gap_height * 0.5)) (-1) 1
          else 0] : List ℚ).getD 7 0 =
          clampf (((s.pipes t).gap_center_y - (s.pipes t).gap_height * 0.5 - s.bird_y) /
            ((s.pipes t).gap_height * 0.5)) (-1) 1 := if_pos hh
      have h8 : ([clampf s.bird_y 0 1, clampf (s.bird_vy / 0.1) (-1) 1,
          clampf (((s.pipes t).x - (s.width : ℚ) * BIRD_X_RATIO) / (s.width : ℚ)) 0 1,
          (s.pipes t).gap_center_y, (s.pipes t).gap_height, 1,
          clampf ((s.pipes t).gap_center_y - s.bird_y) (-1) 1,
          if (s.pipes t).gap_height * 0.5 > 0.000001 then
            clampf (((s.pipes t).gap_center_y - (s.pipes t).gap_height * 0.5 - s.bird_y) /
              ((s.pipes t).gap_height * 0.5)) (-1) 1
          else 0,
          if (s.pipes t).gap_height * 0.5 > 0.000001 then
            clampf ((s.bird_y - ((s.pipes t).gap_center_y + (s.pipes t).gap_height * 0.5)) /
              ((s.pipes t).gap_height * 0.5)) (-1) 1
          else 0] : List ℚ).getD 8 0 =
          clampf ((s.bird_y - ((s.pipes t).gap_center_y + (s.pipes t).gap_height * 0.5)) /
            ((s.pipes t).gap_height * 0.5)) (-1) 1 := if_pos hh
      rw [h7, h8]
      refine ⟨rfl, rfl, ?_, ?_, ?_, ?_⟩
      · rw [clampf_pos_iff, lt_div_iff₀ hpos, zero_mul, sub_pos]
      · rw [clampf_neg_iff, div_lt_iff₀ hpos, zero_mul, sub_neg]
      · rw [clampf_neg_iff, div_lt_iff₀ hpos, zero_mul, sub_neg]
      · rw [clampf_pos_iff, lt_div_iff₀ hpos, zero_mul, sub_pos]
    · exact ⟨if_neg hh, if_neg hh⟩
  · rw [(dense_compute_observations_spec s).2 hno]
    exact ⟨rfl, rfl⟩
  · have ht := low_bird_scan_target
    rw [(dense_compute_observations_spec low_bird_env).1 0 ht]
    refine ⟨ht, ?_, ?_, ?_, ?_, ?_⟩
    · norm_num [low_bird_env, cruising_env]
    · norm_num [low_bird_env, cruising_env]
    · norm_num [low_bird_env, cruising_env]
    · show clampf ((low_bird_env.pipes 0).gap_center_y - low_bird_env.bird_y) (-1) 1 = -0.1
      norm_num [clampf, low_bird_env, cruising_env]
    · show (if (low_bird_env.pipes 0).gap_height * 0.5 > 0.000001 then
          clampf (((low_bird_env.pipes 0).gap_center_y - (low_bird_env.pipes 0).gap_height * 0.5 -
            low_bird_env.bird_y) / ((low_bird_env.pipes 0).gap_height * 0.5)) (-1) 1
        else 0) = -1
      norm_num [clampf, low_bird_env, cruising_env]

/-! ## The train of pipes -/

theorem slot_rank_self (l : Nat) : slot_rank l l = 0 := by
  unfold slot_rank
  omega

theorem slot_rank_le (l i : Nat) : slot_rank l i ≤ 2 := by
  unfold slot_rank
  omega

theorem slot_rank_pos (l i : Nat) (hl : l < 3) (hi : i < 3) (h : i ≠ l) : 1 ≤ slot_rank l i := by
  unfold slot_rank
  omega

theorem slot_rank_inj (l i j : Nat) (hl : l < 3) (hi : i < 3) (hj : j < 3)
    (h : slot_rank l i = slot_rank l j) : i = j := by
  unfold slot_rank at h
  omega

theorem slot_rank_last (l : Nat) (hl : l < 3) : (l + 2) % 3 < 3 ∧ slot_rank l ((l + 2) % 3) = 2 := by
  unfold slot_rank
  omega

theorem slot_rank_next (l i : Nat) (hl : l < 3) (hi : i < 3) :
    (l + 1) % 3 < 3 ∧ (i = l → slot_rank ((l + 1) % 3) i = 2) ∧
    (i ≠ l → slot_rank ((l + 1) % 3) i + 1 = slot_rank l i) := by
  unfold slot_rank
  omega

theorem stepped_pipe_x (e : Flappy) (hn : e.num_pipes = 3) (j : Nat) (hj : j < 3) :
    (stepped_pipe e j).x = (e.pipes j).x - e.pipe_speed := by
  have hj' : j < e.num_pipes.toNat := by rw [hn]; exact hj
  unfold stepped_pipe
  rw [if_pos hj']

theorem stepped_pipe_unscored (e : Flappy) (hn : e.num_pipes = 3) (j : Nat) (hj : j < 3)
    (h : (stepped_pipe e j).scored = 0) :
    (e.pipes j).scored = 0 ∧
    (e.width : ℚ) * BIRD_X_RATIO ≤ (e.pipes j).x + (e.width : ℚ) * PIPE_WIDTH_RATIO := by
  have hj' : j < e.num_pipes.toNat := by rw [hn]; exact hj
  unfold stepped_pipe at h
  rw [if_pos hj'] at h
  have h' : (if passed e j then (1 : Int) else (e.pipes j).scored) = 0 := h
  by_cases hp : passed e j
  · rw [if_pos hp] at h'
    exact absurd h' (by decide)
  · rw [if_neg hp] at h'
    refine ⟨h', not_lt.mp (fun hlt => hp ⟨h', hlt⟩)⟩

/-- Scoring, moving and recycling keep the train: the pipes `P` that a step
leaves, as `recycle` is specified, form a train again and every unscored pipe
is still near or ahead of the bird. -/
theorem train_step (e : Flappy) (P : Nat → Pipe) (c : ℚ) (h : train_inv e)
    (hspec : ∃ l m, leftmost_slot e l ∧ rightmost_x e m ∧
      ((stepped_pipe e l).x + (e.width : ℚ) * PIPE_WIDTH_RATIO < 0 →
        P = Function.update (stepped_pipe e) l
          { x := m + (e.width : ℚ) * e.pipe_spacing
            gap_center_y := c
            gap_height := e.gap_height
            scored := 0 }) ∧
      (¬ (stepped_pipe e l).x + (e.width : ℚ) * PIPE_WIDTH_RATIO < 0 → P = stepped_pipe e)) :
    (∃ l a, train ((e.width : ℚ) * e.pipe_spacing) P l a ∧
      0 ≤ a + (e.width : ℚ) * PIPE_WIDTH_RATIO ∧ a ≤ (e.width : ℚ) * 0.5) ∧
    (∀ i, i < 3 → (P i).scored = 0 →
      (e.width : ℚ) * BIRD_X_RATIO - (e.width : ℚ) * PIPE_WIDTH_RATIO - e.pipe_speed ≤ (P i).x) := by
  obtain ⟨hw, hn, hps, hsp, ⟨l0, a, ⟨hl0, hx⟩, ha0, ha1⟩, hun⟩ := h
  obtain ⟨l, m, hl, hm, hrec, hkeep⟩ := hspec
  have hW : (0 : ℚ) < (e.width : ℚ) := by exact_mod_cast hw
  have hD : (e.width : ℚ) * e.pipe_spacing = (e.width : ℚ) * 0.45 := by
    rw [hps]; norm_num [ PIPE_SPACING_RATIO]
  have hS : e.pipe_speed = (e.width : ℚ) * 0.006 := by
    rw [hsp]; norm_num [ PIPE_SPEED_RATIO]
  have hPW : (e.width : ℚ) * PIPE_WIDTH_RATIO = (e.width : ℚ) * 0.15 := by
    norm_num [ PIPE_WIDTH_RATIO]
  have hBX : (e.width : ℚ) * BIRD_X_RATIO = (e.width : ℚ) * 0.2 := by
    norm_num [ BIRD_X_RATIO]
  rw [hD] at hx hrec ⊢
  rw [hPW] at ha0 hrec hkeep ⊢
  rw [hBX, hS]
  have hnat : e.num_pipes.toNat = 3 := by rw [hn]; rfl
  have hsx : ∀ j, j < 3 → (stepped_pipe e j).x =
      a + (slot_rank l0 j : ℚ) * ((e.width : ℚ) * 0.45) - (e.width : ℚ) * 0.006 := by
    intro j hj
    rw [stepped_pipe_x e hn j hj, hx j hj, hS]
  have hr0 : ∀ j, (0 : ℚ) ≤ (slot_rank l0 j : ℚ) * ((e.width : ℚ) * 0.45) := fun j =>
    mul_nonneg (Nat.cast_nonneg _) (by linarith)
  have hr1 : ∀ j, j < 3 → j ≠ l0 →
      (e.width : ℚ) * 0.45 ≤ (slot_rank l0 j : ℚ) * ((e.width : ℚ) * 0.45) := by
    intro j hj hne
    have h1 : (1 : ℚ) ≤ (slot_rank l0 j : ℚ) := by exact_mod_cast slot_rank_pos l0 j hl0 hj hne
    exact le_mul_of_one_le_left (by linarith) h1
  have hr2 : ∀ j, (slot_rank l0 j : ℚ) * ((e.width : ℚ) * 0.45) ≤ 2 * ((e.width : ℚ) * 0.45) := by
    intro j
    have h2 : (slot_rank l0 j : ℚ) ≤ 2 := by exact_mod_cast slot_rank_le l0 j
    exact mul_le_mul_of_nonneg_right h2 (by linarith)
  have hl0x : (stepped_pipe e l0).x = a - (e.width : ℚ) * 0.006 := by
    rw [hsx l0 hl0, slot_rank_self]
    push_cast
    ring
  have hleft : leftmost_slot e l0 := by
    refine ⟨by rw [hnat]; exact hl0, fun j hj => ?_, fun j hj => ?_⟩
    · rw [hnat] at hj
      rw [hl0x, hsx j hj]
      linarith [hr0 j]
    · have hj3 : j < 3 := lt_trans hj hl0
      rw [hl0x, hsx j hj3]
      linarith [hr1 j hj3 (by omega)]
  have hll : l = l0 := leftmost_slot_unique e l l0 hl hleft
  subst hll
  have hright : rightmost_x e (a + 2 * ((e.width : ℚ) * 0.45) - (e.width : ℚ) * 0.006) := by
    obtain ⟨hk3, hk⟩ := slot_rank_last l hl0
    refine ⟨⟨(l + 2) % 3, by rw [hnat]; exact hk3, ?_⟩, fun j hj => ?_⟩
    · rw [hsx _ hk3, hk]
      push_cast
      ring
    · rw [hnat] at hj
      rw [hsx j hj]
      linarith [hr2 j]
  have hmm := rightmost_x_unique e m _ hm hright
  subst hmm
  have hkeep_un : ∀ i, i < 3 → (stepped_pipe e i).scored = 0 →
      (e.width : ℚ) * 0.2 - (e.width : ℚ) * 0.15 - (e.width : ℚ) * 0.006 ≤ (stepped_pipe e i).x := by
    intro i hi hs
    have h2 := (stepped_pipe_unscored e hn i hi hs).2
    rw [hBX, hPW] at h2
    rw [stepped_pipe_x e hn i hi, hS]
    linarith
  by_cases hc : (stepped_pipe e l).x + (e.width : ℚ) * 0.15 < 0
  · have hP := hrec hc
    rw [hl0x] at hc
    have hPl : P l = { x := a + 2 * ((e.width : ℚ) * 0.45) - (e.width : ℚ) * 0.006 +
        (e.width : ℚ) * 0.45, gap_center_y := c, gap_height := e.gap_height, scored := 0 } := by
      rw [hP, Function.update_same]
    have hPj : ∀ j, j ≠ l → P j = stepped_pipe e j := by
      intro j hj
      rw [hP, Function.update_noteq hj]
    refine ⟨⟨(l + 1) % 3, a - (e.width : ℚ) * 0.006 + (e.width : ℚ) * 0.45,
      ⟨(slot_rank_next l l hl0 hl0).1, fun i hi => ?_⟩, by linarith, by linarith⟩, fun i hi hs => ?_⟩
    · obtain ⟨_, hr_eq, hr_ne⟩ := slot_rank_next l i hl0 hi
      by_cases hil : i = l
      · rw [hr_eq hil, hil, hPl]
        show a + 2 * ((e.width : ℚ) * 0.45) - (e.width : ℚ) * 0.006 + (e.width : ℚ) * 0.45 = _
        push_cast
        ring
      · have hq : (slot_rank ((l + 1) % 3) i : ℚ) + 1 = (slot_rank l i : ℚ) := by
          exact_mod_cast hr_ne hil
        rw [hPj i hil, hsx i hi, ← hq]
        ring
    · by_cases hil : i = l
      · rw [hil, hPl]
        show _ ≤ a + 2 * ((e.width : ℚ) * 0.45) - (e.width : ℚ) * 0.006 + (e.width : ℚ) * 0.45
        linarith
      · rw [hPj i hil] at hs ⊢
        exact hkeep_un i hi hs
  · have hP := hkeep hc
    rw [hl0x] at hc
    refine ⟨⟨l, a - (e.width : ℚ) * 0.006, ⟨hl0, fun i hi => ?_⟩, by linarith, by linarith⟩,
      fun i hi hs => ?_⟩
    · rw [hP, hsx i hi]
      ring
    · rw [hP] at hs ⊢
      exact hkeep_un i hi hs

theorem slot_rank_zero (i : Nat) (hi : i < 3) : slot_rank 0 i = i := by
  unfold slot_rank
  omega

/-- A state whose three pipes are where a reset puts them satisfies the invariant. -/
theorem train_reset (r : Flappy) (hw : 0 < r.width) (hn : r.num_pipes = 3)
    (hps : r.pipe_spacing = PIPE_SPACING_RATIO)
    (hsp : r.pipe_speed = (r.width : ℚ) * PIPE_SPEED_RATIO)
    (hx : ∀ i, i < 3 →
      (r.pipes i).x = (r.width : ℚ) * 0.5 + (i : ℚ) * (r.width : ℚ) * r.pipe_spacing) :
    train_inv r := by
  have hW : (0 : ℚ) < (r.width : ℚ) := by exact_mod_cast hw
  refine ⟨hw, hn, hps, hsp, ⟨0, (r.width : ℚ) * 0.5, ⟨by decide, fun i hi => ?_⟩, ?_, le_refl _⟩,
    fun i hi _ => ?_⟩
  · rw [hx i hi, slot_rank_zero i hi]
    ring
  · norm_num [ PIPE_WIDTH_RATIO]
    positivity
  · rw [hx i hi, hsp, hps]
    have hi0 : (0 : ℚ) ≤ (i : ℚ) := Nat.cast_nonneg i
    have : (0 : ℚ) ≤ (i : ℚ) * (r.width : ℚ) * PIPE_SPACING_RATIO := by
      unfold PIPE_SPACING_RATIO
      positivity
    norm_num [ BIRD_X_RATIO, PIPE_WIDTH_RATIO, PIPE_SPEED_RATIO]
    linarith

theorem sparse_finish_train (e : Flappy) (g : Rng) (hw : 0 < e.width)
    (hps : e.pipe_spacing = PIPE_SPACING_RATIO)
    (hsp : e.pipe_speed = (e.width : ℚ) * PIPE_SPEED_RATIO) :
    train_inv (Sparse.finish e g).1 := by
  obtain ⟨_, _, _, _, _, hn, hc, hp⟩ := sparse_finish_spec e g
  have hwid : (Sparse.finish e g).1.width = e.width := by
    have h := congrArg (fun c => c.1) hc; exact h
  have hspc : (Sparse.finish e g).1.pipe_spacing = e.pipe_spacing := by
    have h := congrArg (fun c => c.2.2.2.2.2.2.1) hc; exact h
  have hspd : (Sparse.finish e g).1.pipe_speed = e.pipe_speed := by
    have h := congrArg (fun c => c.2.2.2.2.2.1) hc; exact h
  refine train_reset _ (by rw [hwid]; exact hw) hn (hspc.trans hps) ?_ (fun i hi => ?_)
  · rw [hspd, hwid]; exact hsp
  · rw [hwid, hspc]; exact (hp i hi).1

theorem dense_finish_train (e : Flappy) (g : Rng) (hw : 0 < e.width)
    (hps : e.pipe_spacing = PIPE_SPACING_RATIO)
    (hsp : e.pipe_speed = (e.width : ℚ) * PIPE_SPEED_RATIO) :
    train_inv (Dense.finish e g).1 := by
  obtain ⟨_, _, _, _, _, hn, hc, hp⟩ := dense_finish_spec e g
  have hwid : (Dense.finish e g).1.width = e.width := by
    have h := congrArg (fun c => c.1) hc; exact h
  have hspc : (Dense.finish e g).1.pipe_spacing = e.pipe_spacing := by
    have h := congrArg (fun c => c.2.2.2.2.2.2.1) hc; exact h
  have hspd : (Dense.finish e g).1.pipe_speed = e.pipe_speed := by
    have h := congrArg (fun c => c.2.2.2.2.2.1) hc; exact h
  refine train_reset _ (by rw [hwid]; exact hw) hn (hspc.trans hps) ?_ (fun i hi => ?_)
  · rw [hspd, hwid]; exact hsp
  · rw [hwid, hspc]; exact (hp i hi).1

theorem sparse_reset_train (env : Flappy) (d : ℚ) (g : Rng) (hw : 0 < env.width)
    (hps : env.pipe_spacing = PIPE_SPACING_RATIO)
    (hsp : env.pipe_speed = (env.width : ℚ) * PIPE_SPEED_RATIO) :
    train_inv (Sparse.c_reset env d g).1 := by
  have hf := sparse_c_reset_frame env d g
  have hwid : (Sparse.c_reset env d g).1.width = env.width := by
    have h := congrArg Flappy.width hf; exact h
  have hspc : (Sparse.c_reset env d g).1.pipe_spacing = env.pipe_spacing := by
    have h := congrArg Flappy.pipe_spacing hf; exact h
  have hspd : (Sparse.c_reset env d g).1.pipe_speed = env.pipe_speed := by
    have h := congrArg Flappy.pipe_speed hf; exact h
  have hn : (Sparse.c_reset env d g).1.num_pipes = 3 := by
    have h := congrArg Flappy.num_pipes hf; exact h
  refine train_reset _ (by rw [hwid]; exact hw) hn (hspc.trans hps) ?_ (fun i hi => ?_)
  · rw [hspd, hwid]; exact hsp
  · rw [hwid, hspc]; exact ((sparse_c_reset_pipes env d g).1 i hi).1

theorem dense_reset_train (env : Flappy) (g : Rng) (hw : 0 < env.width)
    (hps : env.pipe_spacing = PIPE_SPACING_RATIO)
    (hsp : env.pipe_speed = (env.width : ℚ) * PIPE_SPEED_RATIO) :
    train_inv (Dense.c_reset env g).1 := by
  have hf := dense_c_reset_frame env g
  have hwid : (Dense.c_reset env g).1.width = env.width := by
    have h := congrArg Flappy.width hf; exact h
  have hspc : (Dense.c_reset env g).1.pipe_spacing = env.pipe_spacing := by
    have h := congrArg Flappy.pipe_spacing hf; exact h
  have hspd : (Dense.c_reset env g).1.pipe_speed = env.pipe_speed := by
    have h := congrArg Flappy.pipe_speed hf; exact h
  have hn : (Dense.c_reset env g).1.num_pipes = 3 := by
    have h := congrArg Flappy.num_pipes hf; exact h
  refine train_reset _ (by rw [hwid]; exact hw) hn (hspc.trans hps) ?_ (fun i hi => ?_)
  · rw [hspd, hwid]; exact hsp
  · rw [hwid, hspc]; exact ((dense_c_reset_pipes env g).1 i hi).1

/-- The sparse `c_step` keeps the invariant, on every path. -/
theorem sparse_step_train (env : Flappy) (g : Rng) (h : train_inv env) :
    train_inv (Sparse.c_step env g).1 := by
  have hh := h
  obtain ⟨hw, hn, hps, hsp, _, _⟩ := hh
  by_cases hd : dies env
  · rw [sparse_c_step_dead env g hd]
    exact sparse_finish_train _ g hw hps hsp
  · by_cases ht : env.max_steps ≤ env.step_count + 1
    · rw [sparse_c_step_trunc env g hd ht]
      have hc := sparse_mid_config env g
      have hwid : (Sparse.mid env g).1.width = env.width := by
        have h1 := congrArg (fun c => c.1) hc; exact h1
      have hspc : (Sparse.mid env g).1.pipe_spacing = env.pipe_spacing := by
        have h1 := congrArg (fun c => c.2.2.2.2.2.2.1) hc; exact h1
      have hspd : (Sparse.mid env g).1.pipe_speed = env.pipe_speed := by
        have h1 := congrArg (fun c => c.2.2.2.2.2.1) hc; exact h1
      exact sparse_finish_train _ _ (by rw [hwid]; exact hw) (hspc.trans hps)
        (by rw [hspd, hwid]; exact hsp)
    · have hcont := sparse_c_step_cont env g hd (not_le.mp ht)
      have h0 : (Sparse.c_step env g).1.terminals = 0 := by
        have h1 := congrArg Flappy.terminals hcont.1; exact h1
      have hwid : (Sparse.c_step env g).1.width = env.width := by
        have h1 := congrArg Flappy.width hcont.1; exact h1
      have hspc : (Sparse.c_step env g).1.pipe_spacing = env.pipe_spacing := by
        have h1 := congrArg Flappy.pipe_spacing hcont.1; exact h1
      have hspd : (Sparse.c_step env g).1.pipe_speed = env.pipe_speed := by
        have h1 := congrArg Flappy.pipe_speed hcont.1; exact h1
      have hnp : (Sparse.c_step env g).1.num_pipes = 3 := by
        have h1 := congrArg Flappy.num_pipes hcont.1; exact h1.trans hn
      have hspec := sparse_step_pipes_spec env g h0 (by rw [hn]; decide)
      have hst := train_step env (Sparse.c_step env g).1.pipes
        (Sparse.fresh_gap env.curriculum_difficulty g) h hspec
      refine ⟨by rw [hwid]; exact hw, hnp, hspc.trans hps, by rw [hspd, hwid]; exact hsp, ?_, ?_⟩
      · rw [hwid, hspc]; exact hst.1
      · unfold unscored_near
        rw [hwid, hspd]; exact hst.2

/-- The dense `c_step` keeps the invariant, on every path. -/
theorem dense_step_train (env : Flappy) (g : Rng) (h : train_inv env) :
    train_inv (Dense.c_step env g).1 := by
  have hh := h
  obtain ⟨hw, hn, hps, hsp, _, _⟩ := hh
  by_cases hd : dies env
  · rw [dense_c_step_dead env g hd]
    have hc := congrArg Flappy.config (dense_pflap_frame env)
    have hwid : (Dense.pflap env).width = env.width := by
      have h1 := congrArg (fun c => c.1) hc; exact h1
    have hspc : (Dense.pflap env).pipe_spacing = env.pipe_spacing := by
      have h1 := congrArg (fun c => c.2.2.2.2.2.2.1) hc; exact h1
    have hspd : (Dense.pflap env).pipe_speed = env.pipe_speed := by
      have h1 := congrArg (fun c => c.2.2.2.2.2.1) hc; exact h1
    exact dense_finish_train { Dense.pflap env with rewards := -1.0 } g (by rw [hwid]; exact hw)
      (hspc.trans hps) (by rw [hspd, hwid]; exact hsp)
  · by_cases ht : env.max_steps ≤ env.step_count + 1
    · rw [dense_c_step_trunc env g hd ht]
      have hc := congrArg Flappy.config (dense_shaped_frame env g)
      have hwid : (Dense.shaped env g).width = env.width := by
        have h1 := congrArg (fun c => c.1) hc; exact h1
      have hspc : (Dense.shaped env g).pipe_spacing = env.pipe_spacing := by
        have h1 := congrArg (fun c => c.2.2.2.2.2.2.1) hc; exact h1
      have hspd : (Dense.shaped env g).pipe_speed = env.pipe_speed := by
        have h1 := congrArg (fun c => c.2.2.2.2.2.1) hc; exact h1
      exact dense_finish_train _ _ (by rw [hwid]; exact hw) (hspc.trans hps)
        (by rw [hspd, hwid]; exact hsp)
    · have hcont := dense_c_step_cont env g hd (not_le.mp ht)
      have h0 : (Dense.c_step env g).1.terminals = 0 := by
        have h1 := congrArg Flappy.terminals hcont.1; exact h1
      have hwid : (Dense.c_step env g).1.width = env.width := by
        have h1 := congrArg Flappy.width hcont.1; exact h1
      have hspc : (Dense.c_step env g).1.pipe_spacing = env.pipe_spacing := by
        have h1 := congrArg Flappy.pipe_spacing hcont.1; exact h1
      have hspd : (Dense.c_step env g).1.pipe_speed = env.pipe_speed := by
        have h1 := congrArg Flappy.pipe_speed hcont.1; exact h1
      have hnp : (Dense.c_step env g).1.num_pipes = 3 := by
        have h1 := congrArg Flappy.num_pipes hcont.1; exact h1.trans hn
      have hspec := dense_step_pipes_spec env g h0 (by rw [hn]; decide)
      have hst := train_step env (Dense.c_step env g).1.pipes
        (Dense.fresh_gap env.curriculum_difficulty g) h hspec
      refine ⟨by rw [hwid]; exact hw, hnp, hspc.trans hps, by rw [hspd, hwid]; exact hsp, ?_, ?_⟩
      · rw [hwid, hspc]; exact hst.1
      · unfold unscored_near
        rw [hwid, hspd]; exact hst.2

/-- Every state of a sparse run from a reset of an initialised environment of
positive width satisfies the invariant. -/
theorem sparse_run_train (env : Flappy) (d : ℚ) (g : Rng) (hw : 0 < env.width)
    (hps : env.pipe_spacing = PIPE_SPACING_RATIO)
    (hsp : env.pipe_speed = (env.width : ℚ) * PIPE_SPEED_RATIO) (acts : List Int) :
    train_inv (Sparse.run (Sparse.c_reset env d g) acts).1 :=
  sparse_run_inv (fun s => train_inv s.1)
    (fun s a hs => sparse_step_train { s.1 with actions := a } s.2 hs) acts _
    (sparse_reset_train env d g hw hps hsp)

/-- Every state of a dense run from a reset of an initialised environment of
positive width satisfies the invariant. -/
theorem dense_run_train (env : Flappy) (g : Rng) (hw : 0 < env.width)
    (hps : env.pipe_spacing = PIPE_SPACING_RATIO)
    (hsp : env.pipe_speed = (env.width : ℚ) * PIPE_SPEED_RATIO) (acts : List Int) :
    train_inv (Dense.run (Dense.c_reset env g) acts).1 :=
  dense_run_inv (fun s => train_inv s.1)
    (fun s a hs => dense_step_train { s.1 with actions := a } s.2 hs) acts _
    (dense_reset_train env g hw hps hsp)

theorem slot_rank_mid (l : Nat) (hl : l < 3) : (l + 1) % 3 < 3 ∧ slot_rank l ((l + 1) % 3) = 1 := by
  unfold slot_rank
  omega

/-- In a state that satisfies the invariant at most one pipe is passed in a step:
two unscored pipes behind the bird would both lie within `pipe_speed` of each
other, and the pipes are `0.45*width` apart. -/
theorem train_passed_le_one (e : Flappy) (h : train_inv e) : passed_count e ≤ 1 := by
  obtain ⟨hw, hn, hps, hsp, ⟨l, a, ⟨hl, hx⟩, _, _⟩, hun⟩ := h
  have hW : (0 : ℚ) < (e.width : ℚ) := by exact_mod_cast hw
  have hnat : e.num_pipes.toNat = 3 := by rw [hn]; rfl
  have hD : (e.width : ℚ) * e.pipe_spacing = (e.width : ℚ) * 0.45 := by
    rw [hps]; norm_num [ PIPE_SPACING_RATIO]
  have hS : e.pipe_speed = (e.width : ℚ) * 0.006 := by
    rw [hsp]; norm_num [ PIPE_SPEED_RATIO]
  have key : ∀ i j, i < 3 → j < 3 → passed e i → passed e j →
      slot_rank l i < slot_rank l j → False := by
    intro i j hi hj hpi hpj hlt
    have h1 : (slot_rank l i : ℚ) + 1 ≤ (slot_rank l j : ℚ) := by exact_mod_cast hlt
    have h2 := mul_le_mul_of_nonneg_right h1 (show (0 : ℚ) ≤ (e.width : ℚ) * 0.45 by linarith)
    have hxi := hx i hi
    have hxj := hx j hj
    rw [hD] at hxi hxj
    have hni := hun i hi hpi.1
    have hbj := hpj.2
    rw [hS] at hni
    linarith
  unfold passed_count passed_upto
  rw [hnat, Finset.card_le_one]
  intro i hi j hj
  rw [Finset.mem_filter, Finset.mem_range] at hi hj
  by_contra hne
  have hr : slot_rank l i ≠ slot_rank l j := fun hr => hne (slot_rank_inj l i j hl hi.1 hj.1 hr)
  rcases Nat.lt_or_gt_of_ne hr with hlt | hgt
  · exact key i j hi.1 hj.1 hi.2 hj.2 hlt
  · exact key j i hj.1 hi.1 hj.2 hi.2 hgt

theorem sparse_step_score_le (env : Flappy) (g : Rng) (h : train_inv env) (hs : 0 ≤ env.score) :
    0 ≤ (Sparse.c_step env g).1.score ∧ (Sparse.c_step env g).1.score ≤ env.score + 1 := by
  have hp := train_passed_le_one env h
  have hp' : (passed_count env : Int) ≤ 1 := by exact_mod_cast hp
  have hp0 : (0 : Int) ≤ (passed_count env : Int) := Int.natCast_nonneg _
  rcases sparse_terminals_cases env g with h0 | h1
  · obtain ⟨hd, ht⟩ := sparse_step_nonterminal env g h0
    rw [(sparse_c_step_cont env g hd ht).2.2.1]
    constructor <;> omega
  · have hz : (Sparse.c_step env g).1.score = 0 := by
      rcases sparse_c_step_terminal_cases env g h1 with ⟨_, hc⟩ | ⟨_, _, hc⟩
      · rw [hc]; exact (sparse_finish_spec _ _).2.2.2.1
      · rw [hc]; exact (sparse_finish_spec _ _).2.2.2.1
    rw [hz]
    constructor <;> omega

theorem sparse_step_reward_values (env : Flappy) (g : Rng) (h : train_inv env) :
    (Sparse.c_step env g).1.rewards = -1 ∨ (Sparse.c_step env g).1.rewards = 0 ∨
      (Sparse.c_step env g).1.rewards = 1 := by
  have hp := train_passed_le_one env h
  by_cases hd : dies env
  · left
    rw [sparse_c_step_dead env g hd, sparse_finish_rewards]
    show (-1.0 : ℚ) = -1
    norm_num
  · right
    rw [sparse_c_step_alive_rewards env g hd, sparse_mid_rewards]
    have h01 : passed_count env = 0 ∨ passed_count env = 1 := by omega
    rcases h01 with h0 | h1
    · left; rw [h0]; norm_num
    · right; rw [h1]; norm_num

/-- Along a sparse run from a reset of an initialised environment of positive
width: the invariant, a score that is not negative, and the width of the
environment. -/
theorem sparse_run_train_score (env : Flappy) (d : ℚ) (g : Rng) (hw : 0 < env.width)
    (hps : env.pipe_spacing = PIPE_SPACING_RATIO)
    (hsp : env.pipe_speed = (env.width : ℚ) * PIPE_SPEED_RATIO) (acts : List Int) :
    train_inv (Sparse.run (Sparse.c_reset env d g) acts).1 ∧
    0 ≤ (Sparse.run (Sparse.c_reset env d g) acts).1.score ∧
    (Sparse.run (Sparse.c_reset env d g) acts).1.width = env.width := by
  refine sparse_run_inv (fun s => train_inv s.1 ∧ 0 ≤ s.1.score ∧ s.1.width = env.width)
    (fun s a hs => ?_) acts _ ?_
  · refine ⟨sparse_step_train { s.1 with actions := a } s.2 hs.1,
      (sparse_step_score_le { s.1 with actions := a } s.2 hs.1 hs.2.1).1, ?_⟩
    exact (sparse_step_width { s.1 with actions := a } s.2).trans hs.2.2
  · have hf := sparse_c_reset_frame env d g
    refine ⟨sparse_reset_train env d g hw hps hsp, ?_, ?_⟩
    · have h := congrArg Flappy.score hf
      exact le_of_eq h.symm
    · have h := congrArg Flappy.width hf; exact h

/-- C22: in every state reachable from a reset of an initialised sparse
environment of positive width by any sequence of `c_step` calls, the three
active pipes are `0.45*width` apart (slot `l`, the next slot and the one after,
cyclically, hold `a`, `a + 0.45*width` and `a + 2*0.45*width`), and every
unscored pipe has `x >= bird_x - pipe_width - pipe_speed`; hence in the next
step, whatever the action, at most one pipe is passed, the reward is `-1`, `0`
or `1`, and the score grows by at most `1`. -/
theorem C22_one_pipe_per_step (env : Flappy) (d : ℚ) (g : Rng) (acts : List Int)
    (hw : 0 < env.width) (hps : env.pipe_spacing = PIPE_SPACING_RATIO)
    (hsp : env.pipe_speed = (env.width : ℚ) * PIPE_SPEED_RATIO) :
    (Sparse.run (Sparse.c_reset env d g) acts).1.num_pipes = 3 ∧
    (∃ (l : Nat) (a : ℚ), l < 3 ∧
      ((Sparse.run (Sparse.c_reset env d g) acts).1.pipes l).x = a ∧
      ((Sparse.run (Sparse.c_reset env d g) acts).1.pipes ((l + 1) % 3)).x =
        a + 0.45 * (env.width : ℚ) ∧
      ((Sparse.run (Sparse.c_reset env d g) acts).1.pipes ((l + 2) % 3)).x =
        a + 2 * (0.45 * (env.width : ℚ))) ∧
    (∀ i, i < 3 → ((Sparse.run (Sparse.c_reset env d g) acts).1.pipes i).scored = 0 →
      (env.width : ℚ) * BIRD_X_RATIO - (env.width : ℚ) * PIPE_WIDTH_RATIO -
        (env.width : ℚ) * PIPE_SPEED_RATIO ≤
          ((Sparse.run (Sparse.c_reset env d g) acts).1.pipes i).x) ∧
    (∀ a : Int,
      passed_count { (Sparse.run (Sparse.c_reset env d g) acts).1 with actions := a } ≤ 1 ∧
      ((Sparse.step_with (Sparse.run (Sparse.c_reset env d g) acts) a).1.rewards = -1 ∨
        (Sparse.step_with (Sparse.run (Sparse.c_reset env d g) acts) a).1.rewards = 0 ∨
        (Sparse.step_with (Sparse.run (Sparse.c_reset env d g) acts) a).1.rewards = 1) ∧
      (Sparse.step_with (Sparse.run (Sparse.c_reset env d g) acts) a).1.score ≤
        (Sparse.run (Sparse.c_reset env d g) acts).1.score + 1) := by
  obtain ⟨hinv, hsc, hwid⟩ := sparse_run_train_score env d g hw hps hsp acts
  have hh := hinv
  obtain ⟨_, hn, hps', hsp', ⟨l, a, ⟨hl, hx⟩, _, _⟩, hun⟩ := hh
  rw [hwid] at hsp' hx
  have hD : (env.width : ℚ) * (Sparse.run (Sparse.c_reset env d g) acts).1.pipe_spacing =
      0.45 * (env.width : ℚ) := by
    rw [hps']; norm_num [ PIPE_SPACING_RATIO]; ring
  rw [hD] at hx
  refine ⟨hn, ⟨l, a, hl, ?_, ?_, ?_⟩, fun i hi hs => ?_, fun act => ⟨?_, ?_, ?_⟩⟩
  · rw [hx l hl, slot_rank_self]
    push_cast
    ring
  · obtain ⟨h3, hr⟩ := slot_rank_mid l hl
    rw [hx _ h3, hr]
    push_cast
    ring
  · obtain ⟨h3, hr⟩ := slot_rank_last l hl
    rw [hx _ h3, hr]
    push_cast
    ring
  · have h := hun i hi hs
    rw [hwid, hsp'] at h
    exact h
  · exact train_passed_le_one _ hinv
  · exact sparse_step_reward_values _ _ hinv
  · exact (sparse_step_score_le
      { (Sparse.run (Sparse.c_reset env d g) acts).1 with actions := act } _ hinv hsc).2

/-- C22 at a 512 by 512 environment after the actions `0, 1`: at most one pipe
is passed in the next no-op step. -/
theorem C22_one_pipe_per_step_witness :
    0 < (fresh_env 512 512 5000).width ∧
    (Sparse.run (Sparse.c_reset (fresh_env 512 512 5000) 1 const_rng) [0, 1]).1.num_pipes = 3 ∧
    passed_count { (Sparse.run (Sparse.c_reset (fresh_env 512 512 5000) 1 const_rng)
      [0, 1]).1 with actions := 0 } ≤ 1 :=
  ⟨by decide,
    (C22_one_pipe_per_step (fresh_env 512 512 5000) 1 const_rng [0, 1] (by decide) rfl rfl).1,
    ((C22_one_pipe_per_step (fresh_env 512 512 5000) 1 const_rng [0, 1] (by decide) rfl
      rfl).2.2.2 0).1⟩

/-! ## The target along a run -/

/-- In a state that satisfies the invariant the last pipe of the train has its
right edge ahead of the bird. -/
theorem train_ahead (e : Flappy) (h : train_inv e) : ∃ i, i < 3 ∧ ahead e i := by
  obtain ⟨hw, _, hps, _, ⟨l, a, ⟨hl, hx⟩, ha0, _⟩, _⟩ := h
  have hW : (0 : ℚ) < (e.width : ℚ) := by exact_mod_cast hw
  obtain ⟨h3, hr⟩ := slot_rank_last l hl
  refine ⟨(l + 2) % 3, h3, ?_⟩
  unfold ahead
  rw [hx _ h3, hr, hps]
  norm_num [ PIPE_WIDTH_RATIO, BIRD_X_RATIO, PIPE_SPACING_RATIO] at ha0 ⊢
  linarith

/-- In a state that satisfies the invariant, of width below `2000000000`, the
scan finds a target, and the target is not further than `width/2`. -/
theorem train_scan_target (e : Flappy) (h : train_inv e) (hw1 : e.width < 2000000000) :
    ∃ t, scan_target e t ∧ (e.pipes t).x ≤ (e.width : ℚ) * 0.5 := by
  obtain ⟨hw, hn, hps, _, ⟨l, a, ⟨hl, hx⟩, ha0, ha1⟩, _⟩ := h
  have hW : (0 : ℚ) < (e.width : ℚ) := by exact_mod_cast hw
  have hW1 : (e.width : ℚ) < 2000000000 := by exact_mod_cast hw1
  have hnat : e.num_pipes.toNat = 3 := by rw [hn]; rfl
  have hj : ∃ j, j < 3 ∧ ahead e j ∧ (e.pipes j).x ≤ (e.width : ℚ) * 0.5 := by
    by_cases hcase : a + (e.width : ℚ) * PIPE_WIDTH_RATIO > (e.width : ℚ) * BIRD_X_RATIO
    · refine ⟨l, hl, ?_, ?_⟩
      · unfold ahead
        rw [hx l hl, slot_rank_self]
        push_cast
        linarith
      · rw [hx l hl, slot_rank_self]
        push_cast
        linarith
    · obtain ⟨h3, hr⟩ := slot_rank_mid l hl
      refine ⟨(l + 1) % 3, h3, ?_, ?_⟩
      · unfold ahead
        rw [hx _ h3, hr, hps]
        norm_num [ PIPE_WIDTH_RATIO, BIRD_X_RATIO, PIPE_SPACING_RATIO] at ha0 ⊢
        linarith
      · rw [hx _ h3, hr, hps]
        norm_num [ PIPE_WIDTH_RATIO, BIRD_X_RATIO, PIPE_SPACING_RATIO] at hcase ⊢
        linarith
  obtain ⟨j, hj3, hja, hjx⟩ := hj
  rcases scan_target_or_none e with ⟨t, ht⟩ | hno
  · exact ⟨t, ht, le_trans (ht.1.2.2 j (by rw [hnat]; exact hj3) hja) hjx⟩
  · have h9 := hno j (by rw [hnat]; exact hj3) hja
    linarith

theorem clampf_le_of_le (v b : ℚ) (hb : 0 ≤ b) (h : v ≤ b) : clampf v 0 1 ≤ b := by
  unfold clampf
  split_ifs <;> linarith

theorem sparse_c_reset_encoded (env : Flappy) (d : ℚ) (g : Rng) :
    Sparse.compute_observations (Sparse.c_reset env d g).1 = (Sparse.c_reset env d g).1 := by
  rw [sparse_c_reset_eq]
  exact sparse_compute_observations_idem _

theorem dense_c_reset_encoded (env : Flappy) (g : Rng) :
    Dense.compute_observations (Dense.c_reset env g).1 = (Dense.c_reset env g).1 := by
  rw [dense_c_reset_eq]
  exact dense_compute_observations_idem _

/-- The observation buffer the sparse `c_step` leaves is the encoding of the state it leaves. -/
theorem sparse_c_step_encoded (env : Flappy) (g : Rng) :
    Sparse.compute_observations (Sparse.c_step env g).1 = (Sparse.c_step env g).1 := by
  by_cases hd : dies env
  · obtain ⟨e', he⟩ := (sparse_finish_spec { pre env with rewards := -1.0 } g).1
    rw [sparse_c_step_dead env g hd, he]
    exact sparse_c_reset_encoded _ _ _
  · by_cases ht : env.max_steps ≤ env.step_count + 1
    · obtain ⟨e', he⟩ := (sparse_finish_spec (Sparse.mid env g).1 (Sparse.mid env g).2).1
      rw [sparse_c_step_trunc env g hd ht, he]
      exact sparse_c_reset_encoded _ _ _
    · rw [sparse_c_step_alive env g hd, (sparse_mid_step_count env g).1,
        (sparse_mid_step_count env g).2, if_neg ht]
      exact sparse_compute_observations_idem _

/-- The observation buffer the dense `c_step` leaves is the encoding of the state it leaves. -/
theorem dense_c_step_encoded (env : Flappy) (g : Rng) :
    Dense.compute_observations (Dense.c_step env g).1 = (Dense.c_step env g).1 := by
  by_cases hd : dies env
  · obtain ⟨e', he⟩ := (dense_finish_spec { Dense.pflap env with rewards := -1.0 } g).1
    rw [dense_c_step_dead env g hd, he]
    exact dense_c_reset_encoded _ _
  · by_cases ht : env.max_steps ≤ env.step_count + 1
    · obtain ⟨e', he⟩ := (dense_finish_spec (Dense.shaped env g) (Dense.mid env g).2).1
      rw [dense_c_step_trunc env g hd ht, he]
      exact dense_c_reset_encoded _ _
    · rw [dense_c_step_alive env g hd, (dense_shaped_step_count env g).1,
        (dense_shaped_step_count env g).2, if_neg ht]
      exact dense_compute_observations_idem _

theorem dense_c_step_width (env : Flappy) (g : Rng) : (Dense.c_step env g).1.width = env.width := by
  by_cases hd : dies env
  · rw [dense_c_step_dead env g hd]
    have h := congrArg (fun c => c.1) (dense_finish_spec { Dense.pflap env with rewards := -1.0 }
      g).2.2.2.2.2.2.1
    have h2 := congrArg Flappy.width (dense_pflap_frame env)
    exact h.trans h2
  · by_cases ht : env.max_steps ≤ env.step_count + 1
    · rw [dense_c_step_trunc env g hd ht]
      have h := congrArg (fun c => c.1) (dense_finish_spec (Dense.shaped env g)
        (Dense.mid env g).2).2.2.2.2.2.2.1
      have h2 := congrArg Flappy.width (dense_shaped_frame env g)
      exact h.trans h2
    · have h := congrArg Flappy.width (dense_c_step_cont env g hd (not_le.mp ht)).1
      exact h

/-- Along a sparse run from a reset: the invariant, the width, and an
observation buffer that holds the encoding of the state. -/
theorem sparse_run_encoded (env : Flappy) (d : ℚ) (g : Rng) (hw : 0 < env.width)
    (hps : env.pipe_spacing = PIPE_SPACING_RATIO)
    (hsp : env.pipe_speed = (env.width : ℚ) * PIPE_SPEED_RATIO) (acts : List Int) :
    train_inv (Sparse.run (Sparse.c_reset env d g) acts).1 ∧
    (Sparse.run (Sparse.c_reset env d g) acts).1.width = env.width ∧
    Sparse.compute_observations (Sparse.run (Sparse.c_reset env d g) acts).1 =
      (Sparse.run (Sparse.c_reset env d g) acts).1 := by
  refine sparse_run_inv
    (fun s => train_inv s.1 ∧ s.1.width = env.width ∧ Sparse.compute_observations s.1 = s.1)
    (fun s a hs => ?_) acts _ ?_
  · exact ⟨sparse_step_train { s.1 with actions := a } s.2 hs.1,
      (sparse_step_width { s.1 with actions := a } s.2).trans hs.2.1,
      sparse_c_step_encoded { s.1 with actions := a } s.2⟩
  · refine ⟨sparse_reset_train env d g hw hps hsp, ?_, sparse_c_reset_encoded env d g⟩
    have h := congrArg Flappy.width (sparse_c_reset_frame env d g); exact h

/-- Along a dense run from a reset: the invariant, the width, and an observation
buffer that holds the encoding of the state. -/
theorem dense_run_encoded (env : Flappy) (g : Rng) (hw : 0 < env.width)
    (hps : env.pipe_spacing = PIPE_SPACING_RATIO)
    (hsp : env.pipe_speed = (env.width : ℚ) * PIPE_SPEED_RATIO) (acts : List Int) :
    train_inv (Dense.run (Dense.c_reset env g) acts).1 ∧
    (Dense.run (Dense.c_reset env g) acts).1.width = env.width ∧
    Dense.compute_observations (Dense.run (Dense.c_reset env g) acts).1 =
      (Dense.run (Dense.c_reset env g) acts).1 := by
  refine dense_run_inv
    (fun s => train_inv s.1 ∧ s.1.width = env.width ∧ Dense.compute_observations s.1 = s.1)
    (fun s a hs => ?_) acts _ ?_
  · exact ⟨dense_step_train { s.1 with actions := a } s.2 hs.1,
      (dense_c_step_width { s.1 with actions := a } s.2).trans hs.2.1,
      dense_c_step_encoded { s.1 with actions := a } s.2⟩
  · refine ⟨dense_reset_train env g hw hps hsp, ?_, dense_c_reset_encoded env g⟩
    have h := congrArg Flappy.width (dense_c_reset_frame env g); exact h

/-- The target part of the dense observation of a state whose scan finds a
target not further than `width/2`: the has-target flag is `1` and the distance
component is at most `0.3`, so it is not the neutral `1`. -/
theorem dense_target_observation (s : Flappy) (t : Nat) (hw : 0 < s.width) (ht : scan_target s t)
    (hx : (s.pipes t).x ≤ (s.width : ℚ) * 0.5) (henc : Dense.compute_observations s = s) :
    s.observations.getD 2 0 =
      clampf (((s.pipes t).x - (s.width : ℚ) * BIRD_X_RATIO) / (s.width : ℚ)) 0 1 ∧
    s.observations.getD 2 0 ≤ 0.3 ∧
    s.observations.getD 3 0 = (s.pipes t).gap_center_y ∧
    s.observations.getD 5 0 = 1 := by
  have hW : (0 : ℚ) < (s.width : ℚ) := by exact_mod_cast hw
  have hobs := (dense_compute_observations_spec s).1 t ht
  rw [henc] at hobs
  rw [hobs]
  refine ⟨rfl, ?_, rfl, rfl⟩
  show clampf (((s.pipes t).x - (s.width : ℚ) * BIRD_X_RATIO) / (s.width : ℚ)) 0 1 ≤ 0.3
  apply clampf_le_of_le _ _ (by norm_num)
  rw [div_le_iff₀ hW]
  norm_num [ BIRD_X_RATIO]
  linarith

/-- The target part of the sparse observation of a state whose scan finds a
target not further than `width/2`. -/
theorem sparse_target_observation (s : Flappy) (t : Nat) (hw : 0 < s.width) (ht : scan_target s t)
    (hx : (s.pipes t).x ≤ (s.width : ℚ) * 0.5) (henc : Sparse.compute_observations s = s) :
    s.observations.getD 2 0 =
      clampf (((s.pipes t).x - (s.width : ℚ) * BIRD_X_RATIO) / (s.width : ℚ)) 0 1 ∧
    s.observations.getD 2 0 ≤ 0.3 ∧
    s.observations.getD 3 0 = (s.pipes t).gap_center_y := by
  have hW : (0 : ℚ) < (s.width : ℚ) := by exact_mod_cast hw
  have hobs := (sparse_compute_observations_spec s).1 t ht
  rw [henc] at hobs
  rw [hobs]
  refine ⟨rfl, ?_, rfl⟩
  show clampf (((s.pipes t).x - (s.width : ℚ) * BIRD_X_RATIO) / (s.width : ℚ)) 0 1 ≤ 0.3
  apply clampf_le_of_le _ _ (by norm_num)
  rw [div_le_iff₀ hW]
  norm_num [ BIRD_X_RATIO]
  linarith

/-- In every state reachable from a reset of an initialised environment of
width `0 < width <= 2^24` by any sequence of `c_step` calls, the scan of
`compute_observations` finds a target, the observation buffer holds the encoding
of that target, with a distance component `o[2] <= 0.3`, and in the dense
variant the has-target flag `o[5]` is `1`.  In both variants. -/
theorem run_finds_target (env : Flappy) (d : ℚ) (g : Rng) (acts : List Int)
    (hw : 0 < env.width) (hw1 : env.width ≤ 16777216)
    (hps : env.pipe_spacing = PIPE_SPACING_RATIO)
    (hsp : env.pipe_speed = (env.width : ℚ) * PIPE_SPEED_RATIO) :
    (∃ t, scan_target (Dense.run (Dense.c_reset env g) acts).1 t ∧
      (Dense.run (Dense.c_reset env g) acts).1.observations.getD 2 0 =
        clampf ((((Dense.run (Dense.c_reset env g) acts).1.pipes t).x -
          (env.width : ℚ) * BIRD_X_RATIO) / (env.width : ℚ)) 0 1 ∧
      (Dense.run (Dense.c_reset env g) acts).1.observations.getD 2 0 ≤ 0.3 ∧
      (Dense.run (Dense.c_reset env g) acts).1.observations.getD 3 0 =
        ((Dense.run (Dense.c_reset env g) acts).1.pipes t).gap_center_y ∧
      (Dense.run (Dense.c_reset env g) acts).1.observations.getD 5 0 = 1) ∧
    (∃ t, scan_target (Sparse.run (Sparse.c_reset env d g) acts).1 t ∧
      (Sparse.run (Sparse.c_reset env d g) acts).1.observations.getD 2 0 =
        clampf ((((Sparse.run (Sparse.c_reset env d g) acts).1.pipes t).x -
          (env.width : ℚ) * BIRD_X_RATIO) / (env.width : ℚ)) 0 1 ∧
      (Sparse.run (Sparse.c_reset env d g) acts).1.observations.getD 2 0 ≤ 0.3 ∧
      (Sparse.run (Sparse.c_reset env d g) acts).1.observations.getD 3 0 =
        ((Sparse.run (Sparse.c_reset env d g) acts).1.pipes t).gap_center_y) := by
  obtain ⟨hdi, hdw, hde⟩ := dense_run_encoded env g hw hps hsp acts
  obtain ⟨hsi, hsw, hse⟩ := sparse_run_encoded env d g hw hps hsp acts
  constructor
  · obtain ⟨t, ht, hx⟩ := train_scan_target _ hdi (by rw [hdw]; omega)
    have h := dense_target_observation _ t (by rw [hdw]; exact hw) ht hx hde
    rw [hdw] at h
    exact ⟨t, ht, h⟩
  · obtain ⟨t, ht, hx⟩ := train_scan_target _ hsi (by rw [hsw]; omega)
    have h := sparse_target_observation _ t (by rw [hsw]; exact hw) ht hx hse
    rw [hsw] at h
    exact ⟨t, ht, h⟩

/-- C23 fails on the code at width `2100000000`.  The first half of C23 holds: in
every state reachable from a reset of an initialised environment of positive
width by any sequence of `c_step` calls (arithmetic taken exactly), at least
one active pipe has its right edge strictly ahead of the bird
(`x + pipe_width > 0.2*width`), in both variants.  The second half does not
follow on the code: the state a reset leaves at width `2100000000` (`wide_env`,
reached with no step at all) has the pipe of slot `0` ahead of the bird, yet the
scan, which starts from `best_x = 1e9f`, finds no target, the observation holds
the neutral distance `1` and gap centre `0.5`, and the has-target flag `o[5]` is
`0`. -/
theorem C23_target_missed_after_reset :
    (∀ (env : Flappy) (d : ℚ) (g : Rng) (acts : List Int), 0 < env.width →
      env.pipe_spacing = PIPE_SPACING_RATIO →
      env.pipe_speed = (env.width : ℚ) * PIPE_SPEED_RATIO →
      (∃ i, i < 3 ∧ ahead (Dense.run (Dense.c_reset env g) acts).1 i) ∧
      (∃ i, i < 3 ∧ ahead (Sparse.run (Sparse.c_reset env d g) acts).1 i)) ∧
    0 < (fresh_env 2100000000 512 5000).width ∧
    (fresh_env 2100000000 512 5000).pipe_spacing = PIPE_SPACING_RATIO ∧
    (fresh_env 2100000000 512 5000).pipe_speed =
      ((fresh_env 2100000000 512 5000).width : ℚ) * PIPE_SPEED_RATIO ∧
    (Dense.run (Dense.c_reset (fresh_env 2100000000 512 5000) const_rng) []).1 = wide_env ∧
    ahead wide_env 0 ∧
    no_scan_target wide_env ∧
    wide_env.observations = [0.5, 0, 1, 0.5, 0.28, 0, 0, 0, 0] ∧
    wide_env.observations.getD 2 0 = 1 ∧
    wide_env.observations.getD 3 0 = 0.5 ∧
    wide_env.observations.getD 5 0 = 0 := by
  refine ⟨fun env d g acts hw hps hsp =>
      ⟨train_ahead _ (dense_run_encoded env g hw hps hsp acts).1,
        train_ahead _ (sparse_run_encoded env d g hw hps hsp acts).1⟩,
    by decide, rfl, rfl, wide_env_reset, ?_, wide_env_no_scan_target, rfl, rfl, rfl, rfl⟩
  have hx0 : (wide_env.pipes 0).x = 1050000000 := by
    show (if (0 : Nat) < 3 then (⟨1050000000 + 945000000 * ((0 : Nat) : ℚ), 0.5, 0.28, 0⟩ : Pipe)
      else ⟨0, 0, 0, 0⟩).x = _
    rw [if_pos (by decide)]
    norm_num
  have hw : wide_env.width = 2100000000 := rfl
  unfold ahead
  rw [hx0, hw]
  norm_num [ PIPE_WIDTH_RATIO, BIRD_X_RATIO]
